import Mathlib

/-!
# Aevum: activity sampler and reminder scheduler

A shallow embedding of `src/core/HealthEngine.cpp` (the reminder scheduler and
its health score), of `src/core/ActivityMonitor.cpp` (the activity sampler), of
`src/core/DataAnalyzer.cpp` (the statistics ledger and its data file), of
`src/core/ConfigManager.cpp` (reminder settings, working time and the
configuration document) and of the connection of the sampler to the scheduler
in `src/main.cpp`.

Modelling conventions.

* `QDateTime` is a count of milliseconds since the epoch (Qt keeps date-times at
  millisecond precision). `QDateTime::secsTo` is the millisecond difference
  divided by 1000, truncated towards zero; `addSecs s` adds `1000 * s`.
* A C++ `int` member is an `Int`; integer division is `Int.tdiv` (truncation
  towards zero). Where the code computes in 32 bits a value that can leave the
  range of an `int`, the result is reduced by `toInt32`: the product
  `minutes * 60` of `pauseReminders`, the 64-bit quotient stored in the `int`
  elapsed minutes of the check slots, and the sum and the difference of the
  break arithmetic of `calculateHealthScore`. The counters, which grow by one
  per event, are not reduced.
* A C++ `double` is the rational it denotes, and every `double` operation is
  the exact operation followed by `roundDouble`, rounding to the nearest
  binary64 value with ties to even. Each operation rounds once (no fused
  multiply-add). The exponent range is not modelled: with 32-bit members every
  value of the score computation is below `2^34` in magnitude and, unless zero,
  not below `2^-54`.
* A slot reads the clock through one argument `now`: the successive
  `QDateTime::currentDateTime()` calls inside one slot are taken as one instant.
* Emitted Qt signals are returned as a list, in emission order. Calls to
  `Logger` and `logHealthEvent` (which only logs) have no effect on the state and
  are left out.
* A JSON document is a tree of `QJsonValue`; the bytes of a file are the
  document they parse to, or no JSON text at all. The `Qt::ISODate` text of a
  date-time is represented by the whole second it names. The data file is
  passed in and returned.
-/

namespace Aevum

/-! ## C++ machine numbers -/

/-- The value an integer takes when it is stored in a 32-bit `int`: reduced
modulo `2^32` into the range from `-2^31` to `2^31 - 1`. -/
def toInt32 (x : Int) : Int := (x + 2147483648) % 4294967296 - 2147483648

/-- The integer nearest to `q`; of two equally near, the even one. -/
def roundHalfEven (q : ℚ) : Int :=
  if q - ⌊q⌋ < 1 / 2 then ⌊q⌋
  else if 1 / 2 < q - ⌊q⌋ then ⌊q⌋ + 1
  else if ⌊q⌋ % 2 = 0 then ⌊q⌋
  else ⌊q⌋ + 1

/-- The spacing of the binary64 values around a positive `q`: `2^(e - 52)`,
where `2^e ≤ q < 2^(e + 1)`. -/
def ulp (q : ℚ) : ℚ := 2 ^ (Int.log 2 q - 52)

/-- A positive number rounded to the nearest multiple of its spacing, a tie
going to the even multiple: the nearest value with a 53-bit significand. -/
def roundPos (q : ℚ) : ℚ := (roundHalfEven (q / ulp q) : ℚ) * ulp q

/-- The `double` nearest to `q`, as IEEE 754 binary64 rounds to nearest with
ties to even. -/
def roundDouble (q : ℚ) : ℚ :=
  if 0 < q then roundPos q else if q < 0 then -roundPos (-q) else 0

/-- The product of two `double`s: the exact product, rounded. -/
def doubleMul (a b : ℚ) : ℚ := roundDouble (a * b)

/-- The difference of two `double`s: the exact difference, rounded. -/
def doubleSub (a b : ℚ) : ℚ := roundDouble (a - b)

/-- The conversion of an `int` to `double`. -/
def intToDouble (n : Int) : ℚ := roundDouble n

/-! ## Qt date-times -/

/-- Milliseconds since the epoch. -/
abbrev QDateTime := Int

/-- Whole seconds from `a` to `b`, as `QDateTime::secsTo`: the millisecond
difference divided by 1000, truncated towards zero. -/
def secsTo (a b : QDateTime) : Int := Int.tdiv (b - a) 1000

/-- The date-time `s` seconds after `t`, as `QDateTime::addSecs`. -/
def addSecs (t : QDateTime) (s : Int) : QDateTime := t + s * 1000

/-! ## `ActivityMonitor.h` / `HealthEngine.h` data -/

/-- The struct `ActivityMonitor::ActivityData`. -/
structure ActivityData where
  timestamp : QDateTime
  mouseClicks : Int
  keystrokes : Int
  isActive : Bool
  activeWindow : String
deriving DecidableEq

/-- The enumeration `HealthEngine::ReminderType`. -/
inductive ReminderType where
  | SittingTooLong
  | EyeRest
  | NeckExercise
  | PostureCheck
  | Hydration
deriving DecidableEq

/-- The struct `HealthEngine::ReminderConfig`, with the default member initialisers of the
header (`QString` members default to the empty string). -/
structure ReminderConfig where
  enabled : Bool := true
  intervalMinutes : Int := 30
  durationSeconds : Int := 5
  message : String := ""
  suggestion : String := ""
deriving DecidableEq

/-- The struct `HealthEngine::HealthStats`. -/
structure HealthStats where
  totalSittingMinutes : Int
  longestSittingSession : Int
  eyeBreaksTaken : Int
  neckExercisesDone : Int
  healthScore : ℚ
deriving DecidableEq

/-- The signals of `HealthEngine`. -/
inductive Signal where
  | reminderTriggered (type : ReminderType) (message suggestion : String)
  | statsUpdated (stats : HealthStats)
deriving DecidableEq

/-- The data members of `HealthEngine` (the four `QTimer` objects apart).
`m_configs` is the `QMap<ReminderType, ReminderConfig>`: `none` is an absent
key. -/
structure HealthEngine where
  m_sessionStartTime : QDateTime
  m_lastSittingBreak : QDateTime
  m_lastEyeBreak : QDateTime
  m_lastNeckExercise : QDateTime
  m_remindersPaused : Bool
  m_pauseEndTime : QDateTime
  m_configs : ReminderType → Option ReminderConfig
  m_todayStats : HealthStats
  m_continuousSittingMinutes : Int
  m_isCurrentlyActive : Bool

/-! ## `HealthEngine.cpp` -/

/-- The method `HealthEngine::calculateHealthScore`. Each literal is the
`double` it denotes, each `int` operand of a product is converted to `double`,
and each product and each subtraction is rounded. The sum of the two break
counters and the difference `expectedBreaks - totalBreaks` are `int`
arithmetic, held in 32 bits. -/
def calculateHealthScore (s : HealthEngine) : ℚ :=
  let score : ℚ := roundDouble 100.0
  let score : ℚ :=
    if s.m_continuousSittingMinutes > 60 then
      doubleSub score
        (doubleMul (intToDouble (s.m_continuousSittingMinutes - 60)) (roundDouble 0.5))
    else score
  let score : ℚ :=
    if s.m_todayStats.longestSittingSession > 120 then
      doubleSub score
        (doubleMul (intToDouble (s.m_todayStats.longestSittingSession - 120)) (roundDouble 0.3))
    else score
  let totalBreaks : Int :=
    toInt32 (s.m_todayStats.eyeBreaksTaken + s.m_todayStats.neckExercisesDone)
  let expectedBreaks : Int := Int.tdiv s.m_todayStats.totalSittingMinutes 30
  let score : ℚ :=
    if totalBreaks < expectedBreaks then
      doubleSub score
        (doubleMul (intToDouble (toInt32 (expectedBreaks - totalBreaks))) (roundDouble 2.0))
    else score
  max (roundDouble 0.0) (min (roundDouble 100.0) score)

/-- The slot `HealthEngine::updateHealthScore`: stores the recomputed score and emits
`statsUpdated` with the updated statistics. -/
def updateHealthScore (s : HealthEngine) : HealthEngine × List Signal :=
  let score := calculateHealthScore s
  let s1 := { s with m_todayStats := { s.m_todayStats with healthScore := score } }
  (s1, [Signal.statsUpdated s1.m_todayStats])

/-- The method `HealthEngine::takeBreak`, called at time `now`. -/
def takeBreak (s : HealthEngine) (type : ReminderType) (now : QDateTime) :
    HealthEngine × List Signal :=
  let s1 : HealthEngine :=
    match type with
    | .SittingTooLong =>
      { s with
        m_lastSittingBreak := now
        m_continuousSittingMinutes := 0
        m_todayStats :=
          { s.m_todayStats with eyeBreaksTaken := s.m_todayStats.eyeBreaksTaken + 1 } }
    | .EyeRest =>
      { s with
        m_lastEyeBreak := now
        m_todayStats :=
          { s.m_todayStats with eyeBreaksTaken := s.m_todayStats.eyeBreaksTaken + 1 } }
    | .NeckExercise =>
      { s with
        m_lastNeckExercise := now
        m_todayStats :=
          { s.m_todayStats with neckExercisesDone := s.m_todayStats.neckExercisesDone + 1 } }
    | _ => s
  updateHealthScore s1

/-- The method `HealthEngine::pauseReminders`, called at time `now`. The product
`minutes * 60` is a product of two `int`s, held in 32 bits, before `addSecs`
takes it. -/
def pauseReminders (s : HealthEngine) (minutes : Int) (now : QDateTime) :
    HealthEngine × List Signal :=
  ({ s with
     m_remindersPaused := true
     m_pauseEndTime := addSecs now (toInt32 (minutes * 60)) }, [])

/-- The slot `HealthEngine::onActivityDetected`. -/
def onActivityDetected (s : HealthEngine) (data : ActivityData) :
    HealthEngine × List Signal :=
  let s1 := { s with m_isCurrentlyActive := data.isActive }
  if data.isActive then
    let s2 :=
      { s1 with
        m_continuousSittingMinutes := s1.m_continuousSittingMinutes + 1
        m_todayStats :=
          { s1.m_todayStats with
            totalSittingMinutes := s1.m_todayStats.totalSittingMinutes + 1 } }
    if s2.m_continuousSittingMinutes > s2.m_todayStats.longestSittingSession then
      ({ s2 with
         m_todayStats :=
           { s2.m_todayStats with longestSittingSession := s2.m_continuousSittingMinutes } },
       [])
    else (s2, [])
  else (s1, [])

/-- The operator `QMap::operator[]` on a non-const map: the value stored under `type`; an
absent key is first inserted with a default-constructed value. -/
def configsIndex (m : ReminderType → Option ReminderConfig) (type : ReminderType) :
    (ReminderType → Option ReminderConfig) × ReminderConfig :=
  match m type with
  | some c => (m, c)
  | none => (Function.update m type (some {}), {})

/-- The method `HealthEngine::checkSittingTime`, the slot of `m_sittingTimer`. The
quotient of the 64-bit `secsTo` by 60 is stored in the `int`
`minutesSinceLastBreak`, which keeps its low 32 bits. -/
def checkSittingTime (s : HealthEngine) (now : QDateTime) : HealthEngine × List Signal :=
  if s.m_remindersPaused && decide (now < s.m_pauseEndTime) then (s, [])
  else
    let (m, config) := configsIndex s.m_configs .SittingTooLong
    let s1 := { s with m_configs := m }
    if !config.enabled then (s1, [])
    else
      let minutesSinceLastBreak : Int := toInt32 (Int.tdiv (secsTo s1.m_lastSittingBreak now) 60)
      if decide (minutesSinceLastBreak ≥ config.intervalMinutes) && s1.m_isCurrentlyActive then
        (s1, [Signal.reminderTriggered .SittingTooLong config.message config.suggestion])
      else (s1, [])

/-- The method `HealthEngine::checkEyeRest`, the slot of `m_eyeRestTimer`; the
elapsed minutes are stored in an `int` as in `checkSittingTime`. -/
def checkEyeRest (s : HealthEngine) (now : QDateTime) : HealthEngine × List Signal :=
  if s.m_remindersPaused && decide (now < s.m_pauseEndTime) then (s, [])
  else
    let (m, config) := configsIndex s.m_configs .EyeRest
    let s1 := { s with m_configs := m }
    if !config.enabled then (s1, [])
    else
      let minutesSinceLastBreak : Int := toInt32 (Int.tdiv (secsTo s1.m_lastEyeBreak now) 60)
      if decide (minutesSinceLastBreak ≥ config.intervalMinutes) && s1.m_isCurrentlyActive then
        (s1, [Signal.reminderTriggered .EyeRest config.message config.suggestion])
      else (s1, [])

/-- The method `HealthEngine::checkNeckExercise`, the slot of `m_neckTimer`; the
elapsed minutes are stored in an `int` as in `checkSittingTime`. -/
def checkNeckExercise (s : HealthEngine) (now : QDateTime) : HealthEngine × List Signal :=
  if s.m_remindersPaused && decide (now < s.m_pauseEndTime) then (s, [])
  else
    let (m, config) := configsIndex s.m_configs .NeckExercise
    let s1 := { s with m_configs := m }
    if !config.enabled then (s1, [])
    else
      let minutesSinceLastExercise : Int := toInt32 (Int.tdiv (secsTo s1.m_lastNeckExercise now) 60)
      if decide (minutesSinceLastExercise ≥ config.intervalMinutes) && s1.m_isCurrentlyActive then
        (s1, [Signal.reminderTriggered .NeckExercise config.message config.suggestion])
      else (s1, [])

/-- The method `HealthEngine::configureReminder`. -/
def configureReminder (s : HealthEngine) (type : ReminderType) (config : ReminderConfig) :
    HealthEngine × List Signal :=
  ({ s with m_configs := Function.update s.m_configs type (some config) }, [])

/-- The method `HealthEngine::getReminderConfig`: `m_configs.value(type, ReminderConfig())`. -/
def getReminderConfig (s : HealthEngine) (type : ReminderType) : ReminderConfig :=
  (s.m_configs type).getD {}

/-- The method `HealthEngine::initializeDefaultConfigs`: the map after the five assignments. -/
def initializeDefaultConfigs : ReminderType → Option ReminderConfig
  | .SittingTooLong =>
    some { enabled := true, intervalMinutes := 30, durationSeconds := 10
           message := "您已连续工作30分钟了"
           suggestion := "请起身活动一下，伸展腰背，促进血液循环。建议走动2-3分钟。" }
  | .EyeRest =>
    some { enabled := true, intervalMinutes := 20, durationSeconds := 8
           message := "该让眼睛休息一下了"
           suggestion := "请看向20英尺(6米)外的物体20秒钟，或闭眼休息片刻，缓解眼部疲劳。" }
  | .NeckExercise =>
    some { enabled := true, intervalMinutes := 45, durationSeconds := 12
           message := "关爱您的颈椎健康"
           suggestion := "请缓慢地左右转动头部，上下点头，前后伸展颈部，每个动作保持5秒。" }
  | .PostureCheck =>
    some { enabled := true, intervalMinutes := 60, durationSeconds := 6
           message := "检查一下您的坐姿"
           suggestion := "保持背部挺直，双脚平放地面，显示器顶部与眼睛水平。" }
  | .Hydration =>
    some { enabled := true, intervalMinutes := 90, durationSeconds := 5
           message := "别忘记补充水分"
           suggestion := "请喝一杯水，保持身体水分充足，有助于提高工作效率。" }

/-- The constructor `HealthEngine::HealthEngine`, run at time `now`. The
constructor leaves `m_todayStats` and `m_pauseEndTime` uninitialised; their
contents are the arguments `stats` and `pauseEnd`. -/
def HealthEngine.construct (now : QDateTime) (stats : HealthStats) (pauseEnd : QDateTime) :
    HealthEngine :=
  { m_sessionStartTime := now
    m_lastSittingBreak := now
    m_lastEyeBreak := now
    m_lastNeckExercise := now
    m_remindersPaused := false
    m_pauseEndTime := pauseEnd
    m_configs := initializeDefaultConfigs
    m_todayStats := stats
    m_continuousSittingMinutes := 0
    m_isCurrentlyActive := false }

/-- The method `HealthEngine::start`, called at time `now`. -/
def start (s : HealthEngine) (now : QDateTime) : HealthEngine × List Signal :=
  ({ s with
     m_sessionStartTime := now
     m_lastSittingBreak := now
     m_lastEyeBreak := now
     m_lastNeckExercise := now
     m_todayStats :=
       { totalSittingMinutes := 0, longestSittingSession := 0, eyeBreaksTaken := 0,
         neckExercisesDone := 0, healthScore := 100 } },
   [])

/-- One call into the scheduler: a public operation or a timer slot. -/
inductive Op where
  | start (now : QDateTime)
  | configureReminder (type : ReminderType) (config : ReminderConfig)
  | takeBreak (type : ReminderType) (now : QDateTime)
  | pauseReminders (minutes : Int) (now : QDateTime)
  | onActivityDetected (data : ActivityData)
  | checkSittingTime (now : QDateTime)
  | checkEyeRest (now : QDateTime)
  | checkNeckExercise (now : QDateTime)
  | updateHealthScore

/-- The effect of one call. -/
def step (s : HealthEngine) : Op → HealthEngine × List Signal
  | .start now => start s now
  | .configureReminder type config => configureReminder s type config
  | .takeBreak type now => takeBreak s type now
  | .pauseReminders minutes now => pauseReminders s minutes now
  | .onActivityDetected data => onActivityDetected s data
  | .checkSittingTime now => checkSittingTime s now
  | .checkEyeRest now => checkEyeRest s now
  | .checkNeckExercise now => checkNeckExercise s now
  | .updateHealthScore => updateHealthScore s

/-- The state after a sequence of calls, on the single event-loop thread. -/
def run (s : HealthEngine) : List Op → HealthEngine
  | [] => s
  | op :: ops => run (step s op).1 ops

/-- The call is a timer tick: one of the three check slots or the statistics
slot. -/
def Op.isTick : Op → Bool
  | .checkSittingTime _ => true
  | .checkEyeRest _ => true
  | .checkNeckExercise _ => true
  | .updateHealthScore => true
  | _ => false

/-- The call is `pauseReminders`. -/
def Op.isPause : Op → Bool
  | .pauseReminders _ _ => true
  | _ => false

/-! ## `ActivityMonitor.cpp` -/

/-- The signals of `ActivityMonitor`. -/
inductive MonitorSignal where
  | activityDetected (data : ActivityData)
  | userBecameInactive
  | userBecameActive
deriving DecidableEq

/-- The data members of `ActivityMonitor` (the timer and the platform handles
apart), with the two counters `lastMouseClicks` and `lastKeystrokes` of
`ActivityMonitor::Private`. -/
structure ActivityMonitor where
  m_lastActivityTime : QDateTime
  m_sessionStartTime : QDateTime
  m_isActive : Bool
  m_todayActiveMinutes : Int
  lastMouseClicks : Int
  lastKeystrokes : Int
deriving DecidableEq

/-- What one run of `checkActivity` reads from outside: the clock and the
results of `getCurrentMouseClicks`, `getCurrentKeystrokes` and
`getCurrentActiveWindow`. -/
structure Poll where
  now : QDateTime
  mouseClicks : Int
  keystrokes : Int
  activeWindow : String
deriving DecidableEq

/-- The constructor `ActivityMonitor::ActivityMonitor`, run at time `now`. -/
def ActivityMonitor.construct (now : QDateTime) : ActivityMonitor :=
  { m_lastActivityTime := now
    m_sessionStartTime := now
    m_isActive := false
    m_todayActiveMinutes := 0
    lastMouseClicks := 0
    lastKeystrokes := 0 }

/-- The local `hasNewActivity` of `checkActivity`. -/
def hasNewActivity (m : ActivityMonitor) (p : Poll) : Bool :=
  decide (p.mouseClicks > m.lastMouseClicks) || decide (p.keystrokes > m.lastKeystrokes)

/-- The method `ActivityMonitor::checkActivity`, the slot of the one-second timer. The
intermediate triple is the monitor, the `isActive` member of the local `data`,
and the signals emitted so far. -/
def checkActivity (m : ActivityMonitor) (p : Poll) : ActivityMonitor × List MonitorSignal :=
  let r : ActivityMonitor × Bool × List MonitorSignal :=
    if hasNewActivity m p then
      let m1 := { m with m_lastActivityTime := p.now }
      let r1 : ActivityMonitor × List MonitorSignal :=
        if !m1.m_isActive then ({ m1 with m_isActive := true }, [.userBecameActive])
        else (m1, [])
      (r1.1, true,
        r1.2 ++ [.activityDetected
          { timestamp := p.now, mouseClicks := p.mouseClicks, keystrokes := p.keystrokes,
            isActive := true, activeWindow := p.activeWindow }])
    else
      let r1 : ActivityMonitor × List MonitorSignal :=
        if m.m_isActive && decide (secsTo m.m_lastActivityTime p.now > 30) then
          ({ m with m_isActive := false }, [.userBecameInactive])
        else (m, [])
      (r1.1, r1.1.m_isActive, r1.2)
  let m2 := { r.1 with lastMouseClicks := p.mouseClicks, lastKeystrokes := p.keystrokes }
  let m3 :=
    if r.2.1 then { m2 with m_todayActiveMinutes := m2.m_todayActiveMinutes + 1 } else m2
  (m3, r.2.2)

/-- A sequence of polls: the final monitor and all signals, in emission order. -/
def runPolls (m : ActivityMonitor) : List Poll → ActivityMonitor × List MonitorSignal
  | [] => (m, [])
  | p :: ps =>
    ((runPolls (checkActivity m p).1 ps).1,
      (checkActivity m p).2 ++ (runPolls (checkActivity m p).1 ps).2)

/-- No poll of the sequence observes new activity. -/
def quietPolls (m : ActivityMonitor) : List Poll → Prop
  | [] => True
  | p :: ps => hasNewActivity m p = false ∧ quietPolls (checkActivity m p).1 ps

/-- A sampler made active by one click at time 0. -/
def activeMonitor : ActivityMonitor :=
  (checkActivity (ActivityMonitor.construct 0)
    { now := 0, mouseClicks := 1, keystrokes := 0, activeWindow := "" }).1

/-! ## `ConfigManager.h` / `ConfigManager.cpp` -/

/-- A `QTime`, held as Qt holds it: the milliseconds since the start of the
day, or `-1` for the null time. -/
structure QTime where
  mds : Int
deriving DecidableEq

/-- The constructor `QTime(h, m)`: the null time when the hour or the minute is
out of range. -/
def QTime.ofHM (h m : Int) : QTime :=
  if 0 ≤ h ∧ h < 24 ∧ 0 ≤ m ∧ m < 60 then ⟨(h * 3600 + m * 60) * 1000⟩ else ⟨-1⟩

/-- The struct `ConfigManager::GeneralConfig`, with its default member
initialisers. -/
structure GeneralConfig where
  autoStart : Bool := true
  minimizeToTray : Bool := true
  language : String := "zh_CN"
  soundEnabled : Bool := true
  showNotifications : Bool := true
  notificationDuration : Int := 5
deriving DecidableEq

/-- The struct `ConfigManager::WorkSchedule`, with its default member
initialisers; days are 1 (Monday) to 7 (Sunday). -/
structure WorkSchedule where
  workStartTime : QTime := QTime.ofHM 9 0
  workEndTime : QTime := QTime.ofHM 18 0
  workDays : List Int := [1, 2, 3, 4, 5]
  respectSchedule : Bool := true
deriving DecidableEq

/-- The struct `ConfigManager::AdvancedConfig`, with its default member
initialisers. -/
structure AdvancedConfig where
  collectAnonymousStats : Bool := false
  enableLogging : Bool := true
  logLevel : String := "INFO"
  dataRetentionDays : Int := 30
  enableSmartAdaptation : Bool := true
deriving DecidableEq

/-- The data members of `ConfigManager` (the `QSettings` handle apart).
`m_reminderConfigs` is the `QMap<ReminderType, ReminderConfig>`: `none` is an
absent key. -/
structure ConfigManager where
  m_generalConfig : GeneralConfig
  m_workSchedule : WorkSchedule
  m_advancedConfig : AdvancedConfig
  m_reminderConfigs : ReminderType → Option ReminderConfig
  m_configFilePath : String
  m_configLoaded : Bool

/-- The method `ConfigManager::initializeDefaults`: it assigns the three groups
and the settings of three kinds; PostureCheck and Hydration are not assigned. -/
def ConfigManager.initializeDefaults (c : ConfigManager) : ConfigManager :=
  { c with
    m_generalConfig :=
      { autoStart := true, minimizeToTray := true, language := "zh_CN", soundEnabled := true,
        showNotifications := true, notificationDuration := 5 }
    m_workSchedule :=
      { workStartTime := QTime.ofHM 9 0, workEndTime := QTime.ofHM 18 0,
        workDays := [1, 2, 3, 4, 5], respectSchedule := true }
    m_advancedConfig :=
      { collectAnonymousStats := false, enableLogging := true, logLevel := "INFO",
        dataRetentionDays := 30, enableSmartAdaptation := true }
    m_reminderConfigs :=
      Function.update
        (Function.update
          (Function.update c.m_reminderConfigs .SittingTooLong
            (some { enabled := true, intervalMinutes := 30, durationSeconds := 10
                    message := "您已连续工作30分钟了"
                    suggestion := "请起身活动一下，伸展腰背，促进血液循环。" }))
          .EyeRest
          (some { enabled := true, intervalMinutes := 20, durationSeconds := 8
                  message := "该让眼睛休息一下了"
                  suggestion := "请看向20英尺外的物体20秒钟，缓解眼部疲劳。" }))
        .NeckExercise
        (some { enabled := true, intervalMinutes := 45, durationSeconds := 12
                message := "关爱您的颈椎健康"
                suggestion := "请缓慢转动头部，伸展颈椎，每个动作保持5秒。" }) }

/-- The constructor `ConfigManager::ConfigManager`; `configDir` is what
`getDefaultConfigDir` returns. -/
def ConfigManager.construct (configDir : String) : ConfigManager :=
  { ConfigManager.initializeDefaults
      { m_generalConfig := {}, m_workSchedule := {}, m_advancedConfig := {},
        m_reminderConfigs := fun _ => none, m_configFilePath := "",
        m_configLoaded := false } with
    m_configFilePath := configDir ++ "/config.json" }

/-- The method `ConfigManager::getReminderConfig`:
`m_reminderConfigs.value(type, HealthEngine::ReminderConfig())`. -/
def ConfigManager.getReminderConfig (c : ConfigManager) (type : ReminderType) :
    ReminderConfig :=
  (c.m_reminderConfigs type).getD {}

/-! ## Qt JSON and files, as `DataAnalyzer.cpp` uses them

A `QString` held in a document is either the `Qt::ISODate` text of a date-time,
"yyyy-MM-ddTHH:mm:ss", or free text. The ISO text names its date-time to the
second and carries no milliseconds; it is represented by the count of whole
seconds since the epoch that it names, for date-times the clock can return.
Local time is taken as UTC. -/

/-- A `QString` of a document: ISO date text, or text that is not a date. -/
inductive QString where
  | isoDate (secs : Int)
  | text (s : String)
deriving DecidableEq

/-- The date-time `QDateTime::fromString(s, Qt::ISODate)`. Text that is not a
date gives Qt's invalid date-time, which `QDateTime` here does not have: its
stand-in is the argument `invalid`. -/
def fromStringISODate (invalid : QDateTime) : QString → QDateTime
  | .isoDate secs => secs * 1000
  | .text _ => invalid

/-- A `QJsonValue`; an object is its list of members. -/
inductive QJsonValue where
  | null
  | bool (b : Bool)
  | double (d : ℚ)
  | string (s : QString)
  | array (a : List QJsonValue)
  | object (o : List (String × QJsonValue))
  | undefined

/-- A `QJsonObject`: its members, each key once. -/
abbrev QJsonObject := List (String × QJsonValue)

/-- The assignment `obj[key] = v`: the member is replaced or added. -/
def QJsonObject.insert (o : QJsonObject) (key : String) (v : QJsonValue) : QJsonObject :=
  (key, v) :: o.filter (fun kv => kv.1 != key)

/-- The method `QJsonObject::contains`. -/
def QJsonObject.contains (o : QJsonObject) (key : String) : Bool :=
  o.any (fun kv => kv.1 == key)

/-- The read `obj[key]`: `undefined` for an absent key. -/
def QJsonObject.value (o : QJsonObject) (key : String) : QJsonValue :=
  match o.find? (fun kv => kv.1 == key) with
  | some kv => kv.2
  | none => .undefined

/-- The method `QJsonValue::isArray`. -/
def QJsonValue.isArray : QJsonValue → Bool
  | .array _ => true
  | _ => false

/-- The method `QJsonValue::toArray`: empty for a value that is no array. -/
def QJsonValue.toArray : QJsonValue → List QJsonValue
  | .array a => a
  | _ => []

/-- The method `QJsonValue::toObject`: empty for a value that is no object. -/
def QJsonValue.toObject : QJsonValue → QJsonObject
  | .object o => o
  | _ => []

/-- The method `QJsonValue::toInt()`: the number when it is a whole number,
otherwise 0. -/
def QJsonValue.toInt : QJsonValue → Int
  | .double d => if d.den = 1 then d.num else 0
  | _ => 0

/-- The method `QJsonValue::toBool()`: `false` for a value that is no boolean. -/
def QJsonValue.toBool : QJsonValue → Bool
  | .bool b => b
  | _ => false

/-- The method `QJsonValue::toString()`: the empty text for a value that is no
string. -/
def QJsonValue.toString : QJsonValue → QString
  | .string s => s
  | _ => .text ""

/-- A number below 100 in two digits. -/
def pad2 (n : Nat) : String :=
  if n < 10 then "0" ++ toString n else toString n

/-- A number below 10000 in four digits. -/
def pad4 (n : Nat) : String :=
  if n < 10 then "000" ++ toString n
  else if n < 100 then "00" ++ toString n
  else if n < 1000 then "0" ++ toString n
  else toString n

/-- Year, month and day of the day `z` days after 1970-01-01, in the proleptic
Gregorian calendar. -/
def civilFromDays (z : Int) : Int × Nat × Nat :=
  let z := z + 719468
  let era := z / 146097
  let doe := z - era * 146097
  let yoe := (doe - doe / 1460 + doe / 36524 - doe / 146096) / 365
  let doy := doe - (365 * yoe + yoe / 4 - yoe / 100)
  let mp := (5 * doy + 2) / 153
  let d := doy - (153 * mp + 2) / 5 + 1
  let m := if mp < 10 then mp + 3 else mp - 9
  (yoe + era * 400 + (if m ≤ 2 then 1 else 0), m.toNat, d.toNat)

/-- The characters of the ISO date text that names the second `secs`; empty
outside the years 0 to 9999, as in Qt. -/
def isoDateText (secs : Int) : String :=
  let ymd := civilFromDays (secs / 86400)
  let sod := (secs % 86400).toNat
  if ymd.1 < 0 ∨ 9999 < ymd.1 then ""
  else
    pad4 ymd.1.toNat ++ "-" ++ pad2 ymd.2.1 ++ "-" ++ pad2 ymd.2.2 ++ "T" ++
      pad2 (sod / 3600) ++ ":" ++ pad2 (sod % 3600 / 60) ++ ":" ++ pad2 (sod % 60)

/-- The characters of a text. -/
def QString.plain : QString → String
  | .text s => s
  | .isoDate secs => isoDateText secs

/-- The bytes of a file, as far as `QJsonDocument::fromJson` tells them apart:
the JSON text of a value, or bytes that are no JSON text. -/
inductive QByteArray where
  | json (v : QJsonValue)
  | garbage

/-- A `QJsonDocument`: null, an array or an object. -/
inductive QJsonDocument where
  | null
  | ofArray (a : List QJsonValue)
  | ofObject (o : QJsonObject)

/-- The function `QJsonDocument::fromJson`: the document is null unless the
bytes are the JSON text of an array or of an object. -/
def QJsonDocument.fromJson : QByteArray → QJsonDocument
  | .json (.array a) => .ofArray a
  | .json (.object o) => .ofObject o
  | _ => .null

/-- The method `QJsonDocument::isNull`. -/
def QJsonDocument.isNull : QJsonDocument → Bool
  | .null => true
  | _ => false

/-- The method `QJsonDocument::isObject`. -/
def QJsonDocument.isObject : QJsonDocument → Bool
  | .ofObject _ => true
  | _ => false

/-- The method `QJsonDocument::object`: empty for a document that holds no
object. -/
def QJsonDocument.object : QJsonDocument → QJsonObject
  | .ofObject o => o
  | _ => []

/-- The data file as the ledger meets it: the result of `getDataFilePath`
(empty when there is no data directory), whether the file is there, whether it
opens for reading and for writing, and its bytes. -/
structure DataFile where
  path : String
  present : Bool
  readable : Bool
  writable : Bool
  content : QByteArray

/-! ## `DataAnalyzer.h` / `DataAnalyzer.cpp` -/

/-- A `QDate`, held as Qt holds it: the Julian day number. -/
structure QDate where
  jd : Int
deriving DecidableEq

/-- The method `QDateTime::date`; 2440588 is the Julian day of 1970-01-01. -/
def QDateTime.date (t : QDateTime) : QDate := ⟨t / 86400000 + 2440588⟩

/-- The value of an enumerator, `static_cast<int>(type)`. -/
def ReminderType.toInt : ReminderType → Int
  | .SittingTooLong => 0
  | .EyeRest => 1
  | .NeckExercise => 2
  | .PostureCheck => 3
  | .Hydration => 4

/-- The struct `DataAnalyzer::DailyReport`. -/
structure DailyReport where
  date : QDate
  totalActiveMinutes : Int
  totalBreaks : Int
  longestSittingSession : Int
  healthScore : ℚ
  events : List (QTime × String)
deriving DecidableEq

/-- The struct `DataAnalyzer::HealthInsight`. -/
structure HealthInsight where
  title : String
  description : String
  suggestion : String
  priority : Int
  category : String
deriving DecidableEq

/-- The struct `DataAnalyzer::ActivityRecord`. -/
structure ActivityRecord where
  timestamp : QDateTime
  data : ActivityData
deriving DecidableEq

/-- The struct `DataAnalyzer::HealthEventRecord`. The member `type` is held by
its value: a `static_cast` from a file can give any `int`. -/
structure HealthEventRecord where
  timestamp : QDateTime
  type : Int
  action : String
deriving DecidableEq

/-- The signals of `DataAnalyzer`. -/
inductive AnalyzerSignal where
  | newInsightGenerated (insight : HealthInsight)
  | dataUpdated
deriving DecidableEq

/-- The data members of `DataAnalyzer` (the timer apart). -/
structure DataAnalyzer where
  m_activityRecords : List ActivityRecord
  m_healthEvents : List HealthEventRecord
  m_insights : List HealthInsight
  m_lastAnalysisTime : QDateTime
deriving DecidableEq

/-- The method `DataAnalyzer::recordActivity`. -/
def recordActivity (a : DataAnalyzer) (data : ActivityData) :
    DataAnalyzer × List AnalyzerSignal :=
  ({ a with
     m_activityRecords := a.m_activityRecords ++ [{ timestamp := data.timestamp, data := data }] },
   [.dataUpdated])

/-- The method `DataAnalyzer::recordHealthEvent`, called at time `now`. -/
def recordHealthEvent (a : DataAnalyzer) (type : ReminderType) (action : String)
    (now : QDateTime) : DataAnalyzer × List AnalyzerSignal :=
  ({ a with
     m_healthEvents :=
       a.m_healthEvents ++ [{ timestamp := now, type := type.toInt, action := action }] },
   [.dataUpdated])

/-- The method `DataAnalyzer::getDailyReport`: the loop over the records is a
left fold. -/
def getDailyReport (a : DataAnalyzer) (date : QDate) : DailyReport :=
  let report : DailyReport :=
    { date := date, totalActiveMinutes := 0, totalBreaks := 0, longestSittingSession := 0,
      healthScore := 0, events := [] }
  a.m_activityRecords.foldl
    (fun report record =>
      if record.timestamp.date = date then
        if record.data.isActive then
          { report with totalActiveMinutes := report.totalActiveMinutes + 1 }
        else report
      else report)
    report

/-- The activity record that `loadDataFromFile` reads from one array entry. -/
def activityFromJson (invalid : QDateTime) (val : QJsonValue) : ActivityRecord :=
  let obj := val.toObject
  let timestamp := fromStringISODate invalid (obj.value "timestamp").toString
  { timestamp := timestamp
    data :=
      { timestamp := timestamp
        mouseClicks := (obj.value "mouseClicks").toInt
        keystrokes := (obj.value "keystrokes").toInt
        isActive := (obj.value "isActive").toBool
        activeWindow := (obj.value "activeWindow").toString.plain } }

/-- The health event that `loadDataFromFile` reads from one array entry. -/
def healthEventFromJson (invalid : QDateTime) (val : QJsonValue) : HealthEventRecord :=
  let obj := val.toObject
  { timestamp := fromStringISODate invalid (obj.value "timestamp").toString
    type := (obj.value "type").toInt
    action := (obj.value "action").toString.plain }

/-- The method `DataAnalyzer::loadDataFromFile`. -/
def loadDataFromFile (a : DataAnalyzer) (f : DataFile) (invalid : QDateTime) :
    DataAnalyzer × List AnalyzerSignal :=
  if f.path.isEmpty || !f.present then (a, [])
  else if !f.readable then (a, [])
  else
    let doc := QJsonDocument.fromJson f.content
    if doc.isNull || !doc.isObject then (a, [])
    else
      let rootObj := doc.object
      let a1 := { a with m_activityRecords := [], m_healthEvents := [] }
      let a2 :=
        if rootObj.contains "activities" && (rootObj.value "activities").isArray then
          { a1 with
            m_activityRecords :=
              a1.m_activityRecords ++
                (rootObj.value "activities").toArray.map (activityFromJson invalid) }
        else a1
      let a3 :=
        if rootObj.contains "health_events" && (rootObj.value "health_events").isArray then
          { a2 with
            m_healthEvents :=
              a2.m_healthEvents ++
                (rootObj.value "health_events").toArray.map (healthEventFromJson invalid) }
        else a2
      (a3, [.dataUpdated])

/-- The constructor `DataAnalyzer::DataAnalyzer`, run at time `now`. -/
def DataAnalyzer.construct (now : QDateTime) (f : DataFile) (invalid : QDateTime) :
    DataAnalyzer × List AnalyzerSignal :=
  loadDataFromFile
    { m_activityRecords := [], m_healthEvents := [], m_insights := [],
      m_lastAnalysisTime := now } f invalid

/-! ## `ConfigManager.cpp`: working time and the configuration document

The text of a time in the format "hh:mm" and the text of a number are held as
their characters. Members of an object are visited in list order. -/

/-- The method `QDateTime::time`: the time of day. -/
def QDateTime.time (t : QDateTime) : QTime := ⟨t % 86400000⟩

/-- The method `QDate::dayOfWeek`: 1 is Monday, 7 is Sunday. -/
def QDate.dayOfWeek (d : QDate) : Int := d.jd % 7 + 1

/-- The method `ConfigManager::isWorkingTime`, called at time `now`; times
compare by their milliseconds, as `QTime` compares. -/
def ConfigManager.isWorkingTime (c : ConfigManager) (now : QDateTime) : Bool :=
  if !c.m_workSchedule.respectSchedule then true
  else
    let currentTime := now.time
    let currentDay := now.date.dayOfWeek
    if !c.m_workSchedule.workDays.contains currentDay then false
    else
      decide (currentTime.mds ≥ c.m_workSchedule.workStartTime.mds) &&
        decide (currentTime.mds ≤ c.m_workSchedule.workEndTime.mds)

/-- The method `QTime::isValid`. -/
def QTime.isValid (t : QTime) : Bool := decide (0 ≤ t.mds) && decide (t.mds < 86400000)

/-- The character of a decimal digit. -/
def digitChar (n : Nat) : Char := Char.ofNat (48 + n)

/-- The value of a decimal digit character. -/
def digitVal (c : Char) : Option Nat := if c.isDigit then some (c.toNat - 48) else none

/-- The text `QTime::toString("hh:mm")`: hour and minute in two digits each,
seconds and milliseconds left out; empty for a time that is not valid. -/
def QTime.toStringHHmm (t : QTime) : QString :=
  if t.isValid then
    let h := (t.mds / 3600000).toNat
    let m := (t.mds % 3600000 / 60000).toNat
    .text (String.mk [digitChar (h / 10), digitChar (h % 10), ':', digitChar (m / 10),
      digitChar (m % 10)])
  else .text ""

/-- The time `QTime::fromString(s, "hh:mm")`: `QTime(h, m)` when the text is two
digits, a colon and two digits, the null time otherwise. -/
def QTime.fromStringHHmm : QString → QTime
  | .text s =>
    match s.data with
    | [a, b, ':', c, d] =>
      match digitVal a, digitVal b, digitVal c, digitVal d with
      | some a, some b, some c, some d =>
        QTime.ofHM ((10 * a + b : Nat) : Int) ((10 * c + d : Nat) : Int)
      | _, _, _, _ => ⟨-1⟩
    | _ => ⟨-1⟩
  | .isoDate _ => ⟨-1⟩

/-- The text `QString::number(n)`. -/
def QString.number (n : Int) : String := toString n

/-- The digits of a text read as a number, from the value `acc` on. -/
def parseDigits (acc : Nat) : List Char → Option Nat
  | [] => some acc
  | c :: cs =>
    match digitVal c with
    | some d => parseDigits (10 * acc + d) cs
    | none => none

/-- The method `QString::toInt()`: an optional minus sign and digits; 0 when
the text is no number. -/
def QString.toInt (s : String) : Int :=
  match s.data with
  | [] => 0
  | '-' :: cs =>
    if cs.isEmpty then 0
    else
      match parseDigits 0 cs with
      | some n => -(n : Int)
      | none => 0
  | cs =>
    match parseDigits 0 cs with
    | some n => (n : Int)
    | none => 0

/-- The enumerator `static_cast<ReminderType>(n)`; a value that names no
enumerator has no counterpart here. -/
def ReminderType.ofInt (n : Int) : Option ReminderType :=
  if n = 0 then some .SittingTooLong
  else if n = 1 then some .EyeRest
  else if n = 2 then some .NeckExercise
  else if n = 3 then some .PostureCheck
  else if n = 4 then some .Hydration
  else none

/-- The method `QJsonValue::toBool(defaultValue)`. -/
def QJsonValue.toBoolOr (v : QJsonValue) (defaultValue : Bool) : Bool :=
  match v with
  | .bool b => b
  | _ => defaultValue

/-- The method `QJsonValue::toInt(defaultValue)`. -/
def QJsonValue.toIntOr (v : QJsonValue) (defaultValue : Int) : Int :=
  match v with
  | .double d => if d.den = 1 then d.num else defaultValue
  | _ => defaultValue

/-- The method `QJsonValue::toString(defaultValue)`. -/
def QJsonValue.toStringOr (v : QJsonValue) (defaultValue : QString) : QString :=
  match v with
  | .string s => s
  | _ => defaultValue

/-- The kinds in the order of the keys of a `QMap<ReminderType, _>`. -/
def allReminderTypes : List ReminderType :=
  [.SittingTooLong, .EyeRest, .NeckExercise, .PostureCheck, .Hydration]

/-- The object that `configToJson` builds for the settings of one kind. -/
def reminderToJson (config : ReminderConfig) : QJsonValue :=
  let reminderObj : QJsonObject := []
  let reminderObj := reminderObj.insert "enabled" (.bool config.enabled)
  let reminderObj := reminderObj.insert "intervalMinutes" (.double config.intervalMinutes)
  let reminderObj := reminderObj.insert "durationSeconds" (.double config.durationSeconds)
  let reminderObj := reminderObj.insert "message" (.string (.text config.message))
  let reminderObj := reminderObj.insert "suggestion" (.string (.text config.suggestion))
  .object reminderObj

/-- The settings that `jsonToConfig` reads from the value of one member of
"reminders". -/
def reminderFromJson (v : QJsonValue) : ReminderConfig :=
  let reminderObj := v.toObject
  { enabled := (reminderObj.value "enabled").toBoolOr true
    intervalMinutes := (reminderObj.value "intervalMinutes").toIntOr 30
    durationSeconds := (reminderObj.value "durationSeconds").toIntOr 5
    message := (reminderObj.value "message").toString.plain
    suggestion := (reminderObj.value "suggestion").toString.plain }

/-- The method `ConfigManager::configToJson`. -/
def ConfigManager.configToJson (c : ConfigManager) : QJsonObject :=
  let root : QJsonObject := []
  let general : QJsonObject := []
  let general := general.insert "autoStart" (.bool c.m_generalConfig.autoStart)
  let general := general.insert "minimizeToTray" (.bool c.m_generalConfig.minimizeToTray)
  let general := general.insert "language" (.string (.text c.m_generalConfig.language))
  let general := general.insert "soundEnabled" (.bool c.m_generalConfig.soundEnabled)
  let general := general.insert "showNotifications" (.bool c.m_generalConfig.showNotifications)
  let general :=
    general.insert "notificationDuration" (.double c.m_generalConfig.notificationDuration)
  let root := root.insert "general" (.object general)
  let schedule : QJsonObject := []
  let schedule :=
    schedule.insert "workStartTime" (.string c.m_workSchedule.workStartTime.toStringHHmm)
  let schedule :=
    schedule.insert "workEndTime" (.string c.m_workSchedule.workEndTime.toStringHHmm)
  let workDays : List QJsonValue :=
    c.m_workSchedule.workDays.map (fun (day : Int) => QJsonValue.double (day : ℚ))
  let schedule := schedule.insert "workDays" (.array workDays)
  let schedule := schedule.insert "respectSchedule" (.bool c.m_workSchedule.respectSchedule)
  let root := root.insert "schedule" (.object schedule)
  let advanced : QJsonObject := []
  let advanced :=
    advanced.insert "collectAnonymousStats" (.bool c.m_advancedConfig.collectAnonymousStats)
  let advanced := advanced.insert "enableLogging" (.bool c.m_advancedConfig.enableLogging)
  let advanced := advanced.insert "logLevel" (.string (.text c.m_advancedConfig.logLevel))
  let advanced :=
    advanced.insert "dataRetentionDays" (.double c.m_advancedConfig.dataRetentionDays)
  let advanced :=
    advanced.insert "enableSmartAdaptation" (.bool c.m_advancedConfig.enableSmartAdaptation)
  let root := root.insert "advanced" (.object advanced)
  let reminders : QJsonObject :=
    allReminderTypes.foldl
      (fun reminders type =>
        match c.m_reminderConfigs type with
        | some config => reminders.insert (QString.number type.toInt) (reminderToJson config)
        | none => reminders)
      []
  root.insert "reminders" (.object reminders)

/-- The method `ConfigManager::jsonToConfig`. A member of "reminders" whose key
names no enumerator is passed over. -/
def ConfigManager.jsonToConfig (c : ConfigManager) (json : QJsonObject) : ConfigManager :=
  let c1 :=
    if json.contains "general" then
      let general := (json.value "general").toObject
      { c with
        m_generalConfig :=
          { autoStart := (general.value "autoStart").toBoolOr true
            minimizeToTray := (general.value "minimizeToTray").toBoolOr true
            language := ((general.value "language").toStringOr (.text "zh_CN")).plain
            soundEnabled := (general.value "soundEnabled").toBoolOr true
            showNotifications := (general.value "showNotifications").toBoolOr true
            notificationDuration := (general.value "notificationDuration").toIntOr 5 } }
    else c
  let c2 :=
    if json.contains "schedule" then
      let schedule := (json.value "schedule").toObject
      let workDays := (schedule.value "workDays").toArray.map QJsonValue.toInt
      { c1 with
        m_workSchedule :=
          { workStartTime :=
              QTime.fromStringHHmm ((schedule.value "workStartTime").toStringOr (.text "09:00"))
            workEndTime :=
              QTime.fromStringHHmm ((schedule.value "workEndTime").toStringOr (.text "18:00"))
            respectSchedule := (schedule.value "respectSchedule").toBoolOr true
            workDays := if workDays.isEmpty then [1, 2, 3, 4, 5] else workDays } }
    else c1
  let c3 :=
    if json.contains "advanced" then
      let advanced := (json.value "advanced").toObject
      { c2 with
        m_advancedConfig :=
          { collectAnonymousStats := (advanced.value "collectAnonymousStats").toBoolOr false
            enableLogging := (advanced.value "enableLogging").toBoolOr true
            logLevel := ((advanced.value "logLevel").toStringOr (.text "INFO")).plain
            dataRetentionDays := (advanced.value "dataRetentionDays").toIntOr 30
            enableSmartAdaptation := (advanced.value "enableSmartAdaptation").toBoolOr true } }
    else c2
  if json.contains "reminders" then
    let reminders := (json.value "reminders").toObject
    { c3 with
      m_reminderConfigs :=
        reminders.foldl
          (fun configs member =>
            match ReminderType.ofInt (QString.toInt member.1) with
            | some type => Function.update configs type (some (reminderFromJson member.2))
            | none => configs)
          c3.m_reminderConfigs }
  else c3

/-! ## Reference definitions, following the specification -/

/-- A pause is in force at `now`: reminders were paused and the end of the pause
is still ahead. -/
def pauseInForce (s : HealthEngine) (now : QDateTime) : Prop :=
  s.m_remindersPaused = true ∧ now < s.m_pauseEndTime

instance (s : HealthEngine) (now : QDateTime) : Decidable (pauseInForce s now) := by
  unfold pauseInForce
  infer_instance

/-- The integer lies in the range of a 32-bit `int`, from `-2^31` to
`2^31 - 1`. -/
def fitsInt32 (x : Int) : Prop := -2147483648 ≤ x ∧ x < 2147483648

instance (x : Int) : Decidable (fitsInt32 x) := by
  unfold fitsInt32
  infer_instance

/-- The elapsed minutes of a check tick: the seconds from `last` to `now`
divided by 60, as a 32-bit `int` holds them. -/
def minutesSince (last now : QDateTime) : Int := toInt32 (Int.tdiv (secsTo last now) 60)

/-- The conditions of a check tick other than the pause, for a kind whose
settings are `cfg` and whose last break was at `last`: the kind enabled, the
latest sample active, and the elapsed minutes since the last break (seconds
from `last` to `now`, divided by 60, in a 32-bit `int`) at least the interval. -/
def dueUnpaused (s : HealthEngine) (cfg : ReminderConfig) (last now : QDateTime) : Prop :=
  cfg.enabled = true ∧ s.m_isCurrentlyActive = true ∧
    cfg.intervalMinutes ≤ minutesSince last now

instance (s : HealthEngine) (cfg : ReminderConfig) (last now : QDateTime) :
    Decidable (dueUnpaused s cfg last now) := by
  unfold dueUnpaused
  infer_instance

/-- The specified firing condition of a check tick at `now`: no pause in force
and the other conditions met. -/
def isDue (s : HealthEngine) (cfg : ReminderConfig) (last now : QDateTime) : Prop :=
  ¬ pauseInForce s now ∧ dueUnpaused s cfg last now

instance (s : HealthEngine) (cfg : ReminderConfig) (last now : QDateTime) :
    Decidable (isDue s cfg last now) := by
  unfold isDue
  infer_instance

/-- The specified output of a check tick for `type`: exactly one
`reminderTriggered` with the kind's message and suggestion when due, nothing
otherwise. -/
def expectedTick (s : HealthEngine) (type : ReminderType) (last now : QDateTime) :
    List Signal :=
  if isDue s (getReminderConfig s type) last now then
    [Signal.reminderTriggered type (getReminderConfig s type).message
      (getReminderConfig s type).suggestion]
  else []

/-- The firing condition of a check tick with the elapsed minutes as an
unbounded quotient: no pause in force, the kind enabled, the latest sample
active, and the seconds from `last` to `now` divided by 60 at least the
interval. -/
def isDueUnbounded (s : HealthEngine) (cfg : ReminderConfig) (last now : QDateTime) : Prop :=
  ¬ pauseInForce s now ∧ cfg.enabled = true ∧ s.m_isCurrentlyActive = true ∧
    cfg.intervalMinutes ≤ Int.tdiv (secsTo last now) 60

instance (s : HealthEngine) (cfg : ReminderConfig) (last now : QDateTime) :
    Decidable (isDueUnbounded s cfg last now) := by
  unfold isDueUnbounded
  infer_instance

/-- The output of a check tick for `type` under `isDueUnbounded`: exactly one
`reminderTriggered` with the kind's message and suggestion when that condition
holds, nothing otherwise. -/
def expectedTickUnbounded (s : HealthEngine) (type : ReminderType) (last now : QDateTime) :
    List Signal :=
  if isDueUnbounded s (getReminderConfig s type) last now then
    [Signal.reminderTriggered type (getReminderConfig s type).message
      (getReminderConfig s type).suggestion]
  else []

/-- The number is a binary64 value: rounding returns it. -/
def isDouble (q : ℚ) : Prop := roundDouble q = q

/-- One deduction of the score as the code computes it, `score -= excess * rate`:
the `int` excess converted, the product rounded, the difference rounded. -/
def deductDouble (score : ℚ) (excess : Int) (rate : ℚ) : ℚ :=
  doubleSub score (doubleMul (intToDouble excess) rate)

/-- One rule of the score as the code computes it,
`if (excess > 0) score -= excess * rate`. -/
def deductExcess (score : ℚ) (excess : Int) (rate : ℚ) : ℚ :=
  if 0 < excess then deductDouble score excess rate else score

/-- The break rule of the score as the code computes it: the sum of the two
break counters and the expected breaks less that sum are held in 32-bit
`int`s. -/
def deductBreaks (score : ℚ) (T e n : Int) : ℚ :=
  if toInt32 (e + n) < Int.tdiv T 30 then
    deductDouble score (toInt32 (Int.tdiv T 30 - toInt32 (e + n))) 2
  else score

/-- The break arithmetic of the score stays in the range of a 32-bit `int`:
the sum of the break counters, and the expected breaks less that sum. -/
def breaksFit (T e n : Int) : Prop :=
  fitsInt32 (e + n) ∧ fitsInt32 (Int.tdiv T 30 - (e + n))

instance (T e n : Int) : Decidable (breaksFit T e n) := by
  unfold breaksFit
  infer_instance

/-- Clamp `x` to the interval from `lo` to `hi`. -/
def clamp (x lo hi : ℚ) : ℚ := max lo (min hi x)

/-- The baseline of the specified score: 100, less 0.5 per continuous active
minute beyond 60, less 0.3 per minute of the longest session beyond 120. -/
def scoreBaseline (c L : Int) : ℚ :=
  100 - 0.5 * ((max 0 (c - 60) : Int) : ℚ) - 0.3 * ((max 0 (L - 120) : Int) : ℚ)

/-- The specified health score:
`clamp(100 - 0.5*max(0, c-60) - 0.3*max(0, L-120) - 2.0*max(0, floor(T/30) - (e+n)), 0, 100)`. -/
def referenceHealthScore (c L T e n : Int) : ℚ :=
  clamp (scoreBaseline c L - 2.0 * ((max 0 (T / 30 - (e + n)) : Int) : ℚ)) 0 100

/-- The specified output of a check tick for `type` once the pause is out of
the way: one `reminderTriggered` exactly when the other conditions hold. -/
def expectedUnpaused (s : HealthEngine) (type : ReminderType) (last now : QDateTime) :
    List Signal :=
  if dueUnpaused s (getReminderConfig s type) last now then
    [Signal.reminderTriggered type (getReminderConfig s type).message
      (getReminderConfig s type).suggestion]
  else []

/-- Two states agree on everything but the stored configuration map, and read
the same settings for every kind. -/
def sameButConfigs (s s1 : HealthEngine) : Prop :=
  s1.m_sessionStartTime = s.m_sessionStartTime ∧
    s1.m_lastSittingBreak = s.m_lastSittingBreak ∧
    s1.m_lastEyeBreak = s.m_lastEyeBreak ∧
    s1.m_lastNeckExercise = s.m_lastNeckExercise ∧
    s1.m_remindersPaused = s.m_remindersPaused ∧
    s1.m_pauseEndTime = s.m_pauseEndTime ∧
    s1.m_todayStats = s.m_todayStats ∧
    s1.m_continuousSittingMinutes = s.m_continuousSittingMinutes ∧
    s1.m_isCurrentlyActive = s.m_isCurrentlyActive ∧
    ∀ j, getReminderConfig s1 j = getReminderConfig s j

/-- Two states agree on all that a check tick reads: the three time stamps, the
pause flag and its end, the latest-sample flag and the settings of every kind. -/
def sameForChecks (s s1 : HealthEngine) : Prop :=
  s1.m_lastSittingBreak = s.m_lastSittingBreak ∧
    s1.m_lastEyeBreak = s.m_lastEyeBreak ∧
    s1.m_lastNeckExercise = s.m_lastNeckExercise ∧
    s1.m_remindersPaused = s.m_remindersPaused ∧
    s1.m_pauseEndTime = s.m_pauseEndTime ∧
    s1.m_isCurrentlyActive = s.m_isCurrentlyActive ∧
    ∀ j, getReminderConfig s1 j = getReminderConfig s j

/-- The samples among the signals of the sampler: the arguments of its
`activityDetected` emissions, in order. These are what subscribers receive. -/
def samplesOf : List MonitorSignal → List ActivityData
  | [] => []
  | .activityDetected data :: rest => data :: samplesOf rest
  | _ :: rest => samplesOf rest

/-- The sample that a poll builds when it observes new activity. -/
def activeSample (p : Poll) : ActivityData :=
  { timestamp := p.now, mouseClicks := p.mouseClicks, keystrokes := p.keystrokes,
    isActive := true, activeWindow := p.activeWindow }

/-- A scheduler that holds no settings at all: the scenario state with an empty
configuration map. -/
def unconfiguredEngine : HealthEngine :=
  { HealthEngine.construct 0
      { totalSittingMinutes := 90, longestSittingSession := 50, eyeBreaksTaken := 1,
        neckExercisesDone := 0, healthScore := 100 } 0 with
    m_configs := fun _ => none
    m_continuousSittingMinutes := 40
    m_isCurrentlyActive := true }

/-- A ledger that has recorded one active sample, taken half a second past a
whole second. -/
def sampleLedger : DataAnalyzer :=
  (recordActivity
    { m_activityRecords := [], m_healthEvents := [], m_insights := [], m_lastAnalysisTime := 0 }
    { timestamp := 1700000000500, mouseClicks := 3, keystrokes := 7, isActive := true,
      activeWindow := "editor" }).1

/-- A data file whose bytes are no JSON text. -/
def corruptFile : DataFile :=
  { path := "/data/activity_log.json", present := true, readable := true, writable := true,
    content := .garbage }

/-- The connection of `ActivityMonitor::activityDetected` to
`HealthEngine::onActivityDetected`: each emitted sample is handed to the slot,
in emission order. -/
def deliver (e : HealthEngine) : List ActivityData → HealthEngine
  | [] => e
  | d :: ds => deliver (onActivityDetected e d).1 ds

/-- An event of the wired pair: a poll of the sampler, or a call into the
scheduler. -/
inductive WiredEvent where
  | poll (p : Poll)
  | call (op : Op)

/-- The event calls `onActivityDetected` directly, past the connection. -/
def WiredEvent.isDirectSample : WiredEvent → Bool
  | .call (.onActivityDetected _) => true
  | _ => false

/-- One event of the wired pair: a poll runs `checkActivity` and delivers its
samples to the scheduler; a call runs on the scheduler alone. -/
def wiredStep (st : ActivityMonitor × HealthEngine) : WiredEvent → ActivityMonitor × HealthEngine
  | .poll p => ((checkActivity st.1 p).1, deliver st.2 (samplesOf (checkActivity st.1 p).2))
  | .call op => (st.1, (step st.2 op).1)

/-- A sequence of events of the wired pair. -/
def wiredRun (st : ActivityMonitor × HealthEngine) : List WiredEvent → ActivityMonitor × HealthEngine
  | [] => st
  | ev :: evs => wiredRun (wiredStep st ev) evs

/-- The output of a check tick for `type` with the gate on the latest sample
left out: one `reminderTriggered` exactly when no pause is in force, the kind is
enabled and the elapsed minutes reach the interval. -/
def expectedUngated (s : HealthEngine) (type : ReminderType) (last now : QDateTime) :
    List Signal :=
  if ¬ pauseInForce s now ∧ (getReminderConfig s type).enabled = true ∧
      (getReminderConfig s type).intervalMinutes ≤ minutesSince last now then
    [Signal.reminderTriggered type (getReminderConfig s type).message
      (getReminderConfig s type).suggestion]
  else []

/-- The time is valid and falls on a whole minute: no seconds and no
milliseconds. -/
def QTime.isWholeMinute (t : QTime) : Prop :=
  0 ≤ t.mds ∧ t.mds < 86400000 ∧ t.mds % 60000 = 0

instance (t : QTime) : Decidable t.isWholeMinute := by
  unfold QTime.isWholeMinute
  infer_instance

/-- A config store with contents other than the defaults and no settings of
any kind. -/
def otherStore : ConfigManager :=
  { m_generalConfig := { language := "en", notificationDuration := 9 }
    m_workSchedule := { workDays := [7], workStartTime := QTime.ofHM 5 30 }
    m_advancedConfig := { logLevel := "DEBUG" }
    m_reminderConfigs := fun _ => none
    m_configFilePath := ""
    m_configLoaded := false }

/-- The state of the scoring scenario: 90 sitting minutes, one eye break, no
neck exercise, 40 continuous minutes, longest session 50, latest sample active,
all time stamps at 0, default settings, no pause. -/
def scenarioEngine : HealthEngine :=
  { HealthEngine.construct 0
      { totalSittingMinutes := 90, longestSittingSession := 50, eyeBreaksTaken := 1,
        neckExercisesDone := 0, healthScore := 100 } 0 with
    m_continuousSittingMinutes := 40
    m_isCurrentlyActive := true }

/-! ## Theorems -/

/-! ### 32-bit integers -/

/-- An integer in the range of a 32-bit `int` is stored unchanged. -/
theorem toInt32_of_fits (x : Int) (h : fitsInt32 x) : toInt32 x = x := by
  unfold fitsInt32 at h
  unfold toInt32
  omega

/-- What a 32-bit `int` holds lies in its range. -/
theorem toInt32_fits (x : Int) : fitsInt32 (toInt32 x) := by
  unfold fitsInt32 toInt32
  omega

/-! ### Rounding to binary64 -/

/-- Rounding to the nearest integer moves a number by at most one half. -/
theorem abs_roundHalfEven_sub (q : ℚ) : |(roundHalfEven q : ℚ) - q| ≤ 1 / 2 := by
  have h1 := Int.floor_le q
  have h2 := Int.lt_floor_add_one q
  unfold roundHalfEven
  rw [abs_le]
  split_ifs <;> (push_cast; constructor <;> linarith)

/-- An integer rounds to itself. -/
theorem roundHalfEven_intCast (n : Int) : roundHalfEven (n : ℚ) = n := by
  unfold roundHalfEven
  rw [Int.floor_intCast]
  norm_num

/-- The integer within less than one half of `q` is what `q` rounds to. -/
theorem roundHalfEven_eq (q : ℚ) (z : Int) (h1 : (z : ℚ) - 1 / 2 < q) (h2 : q < z + 1 / 2) :
    roundHalfEven q = z := by
  have h := abs_le.mp (abs_roundHalfEven_sub q)
  have h3 : ((roundHalfEven q : Int) : ℚ) < ((z + 1 : Int) : ℚ) := by
    push_cast
    linarith [h.2]
  have h4 : ((z - 1 : Int) : ℚ) < ((roundHalfEven q : Int) : ℚ) := by
    push_cast
    linarith [h.1]
  have h5 := Int.cast_lt.mp h3
  have h6 := Int.cast_lt.mp h4
  omega

/-- Rounding to the nearest integer keeps order. -/
theorem roundHalfEven_mono (q r : ℚ) (h : q ≤ r) : roundHalfEven q ≤ roundHalfEven r := by
  have hq1 := Int.floor_le q
  have hq2 := Int.lt_floor_add_one q
  have hr1 := Int.floor_le r
  have hr2 := Int.lt_floor_add_one r
  have hfl : ⌊q⌋ ≤ ⌊r⌋ := Int.floor_mono h
  rcases hfl.lt_or_eq with hlt | heq
  · have ha : roundHalfEven q ≤ ⌊q⌋ + 1 := by
      unfold roundHalfEven
      split_ifs <;> omega
    have hb : ⌊r⌋ ≤ roundHalfEven r := by
      unfold roundHalfEven
      split_ifs <;> omega
    omega
  · unfold roundHalfEven
    rw [← heq]
    rw [← heq] at hr1 hr2
    split_ifs <;> first | omega | (exfalso; linarith)


/-- The exponent of the binade of a positive number: `2^e ≤ q < 2^(e+1)`. -/
theorem binade_bounds (q : ℚ) (hq : 0 < q) :
    (2 : ℚ) ^ Int.log 2 q ≤ q ∧ q < (2 : ℚ) ^ (Int.log 2 q + 1) := by
  have h1 := Int.zpow_log_le_self (b := 2) (by norm_num) hq
  have h2 := Int.lt_zpow_succ_log_self (b := 2) (by norm_num) q
  simp only [Nat.cast_ofNat] at h1 h2
  exact ⟨h1, h2⟩

/-- The binade of a positive number is the only one that holds it. -/
theorem binade_unique (q : ℚ) (e : Int) (h1 : (2 : ℚ) ^ e ≤ q) (h2 : q < (2 : ℚ) ^ (e + 1)) :
    Int.log 2 q = e := by
  have hq : 0 < q := lt_of_lt_of_le (by positivity) h1
  have h3 : e ≤ Int.log 2 q := by
    apply (Int.zpow_le_iff_le_log (b := 2) (by norm_num) hq).mp
    simpa using h1
  have h4 : Int.log 2 q < e + 1 := by
    apply (Int.lt_zpow_iff_log_lt (b := 2) (by norm_num) hq).mp
    simpa using h2
  omega

/-- The spacing is positive. -/
theorem ulp_pos (q : ℚ) : 0 < ulp q := by
  unfold ulp
  positivity

/-- A power of two, `k` binades up from `2^(e - 52)`. -/
theorem two_pow_mul_zpow (k : Nat) (e : Int) :
    (2 : ℚ) ^ k * (2 : ℚ) ^ (e - 52) = (2 : ℚ) ^ (e - 52 + k) := by
  rw [← zpow_natCast, ← zpow_add₀ (by norm_num : (2 : ℚ) ≠ 0)]
  congr 1
  ring

/-- A positive number counts between `2^52` and `2^53` spacings. -/
theorem scaled_bounds (q : ℚ) (hq : 0 < q) :
    (2 : ℚ) ^ 52 ≤ q / ulp q ∧ q / ulp q < (2 : ℚ) ^ 53 := by
  obtain ⟨h1, h2⟩ := binade_bounds q hq
  have hu := ulp_pos q
  constructor
  · rw [le_div_iff₀ hu]
    unfold ulp
    rw [two_pow_mul_zpow]
    have : Int.log 2 q - 52 + (52 : Nat) = Int.log 2 q := by push_cast; ring
    rw [this]
    exact h1
  · rw [div_lt_iff₀ hu]
    unfold ulp
    rw [two_pow_mul_zpow]
    have : Int.log 2 q - 52 + (53 : Nat) = Int.log 2 q + 1 := by push_cast; ring
    rw [this]
    exact h2

/-- The significand of a rounded positive number lies between `2^52` and
`2^53`. -/
theorem significand_bounds (q : ℚ) (hq : 0 < q) :
    (2 : Int) ^ 52 ≤ roundHalfEven (q / ulp q) ∧ roundHalfEven (q / ulp q) ≤ (2 : Int) ^ 53 := by
  obtain ⟨h1, h2⟩ := scaled_bounds q hq
  constructor
  · have := roundHalfEven_mono (((2 : Int) ^ 52 : Int) : ℚ) (q / ulp q) (by push_cast; exact h1)
    rwa [roundHalfEven_intCast] at this
  · have := roundHalfEven_mono (q / ulp q) (((2 : Int) ^ 53 : Int) : ℚ) (by push_cast; exact h2.le)
    rwa [roundHalfEven_intCast] at this

/-- A rounded positive number stays within the closure of its binade. -/
theorem roundPos_bounds (q : ℚ) (hq : 0 < q) :
    (2 : ℚ) ^ Int.log 2 q ≤ roundPos q ∧ roundPos q ≤ (2 : ℚ) ^ (Int.log 2 q + 1) := by
  obtain ⟨h1, h2⟩ := significand_bounds q hq
  have hu := ulp_pos q
  have e1 : (2 : ℚ) ^ 52 * ulp q = (2 : ℚ) ^ Int.log 2 q := by
    unfold ulp
    rw [two_pow_mul_zpow]
    congr 1
    push_cast
    ring
  have e2 : (2 : ℚ) ^ 53 * ulp q = (2 : ℚ) ^ (Int.log 2 q + 1) := by
    unfold ulp
    rw [two_pow_mul_zpow]
    congr 1
    push_cast
    ring
  have c1 : ((2 : ℚ) ^ 52) ≤ (roundHalfEven (q / ulp q) : ℚ) := by exact_mod_cast h1
  have c2 : (roundHalfEven (q / ulp q) : ℚ) ≤ (2 : ℚ) ^ 53 := by exact_mod_cast h2
  unfold roundPos
  constructor
  · rw [← e1]
    exact mul_le_mul_of_nonneg_right c1 hu.le
  · rw [← e2]
    exact mul_le_mul_of_nonneg_right c2 hu.le

/-- A rounded positive number is positive. -/
theorem roundPos_pos (q : ℚ) (hq : 0 < q) : 0 < roundPos q :=
  lt_of_lt_of_le (by positivity) (roundPos_bounds q hq).1

/-- Rounding keeps the order of positive numbers. -/
theorem roundPos_mono (q r : ℚ) (hq : 0 < q) (h : q ≤ r) : roundPos q ≤ roundPos r := by
  have hr : 0 < r := lt_of_lt_of_le hq h
  have hlog : Int.log 2 q ≤ Int.log 2 r := Int.log_mono_right hq h
  rcases hlog.lt_or_eq with hlt | heq
  · calc roundPos q ≤ (2 : ℚ) ^ (Int.log 2 q + 1) := (roundPos_bounds q hq).2
      _ ≤ (2 : ℚ) ^ Int.log 2 r := zpow_le_zpow_right₀ (by norm_num) (by omega)
      _ ≤ roundPos r := (roundPos_bounds r hr).1
  · have hu : ulp q = ulp r := by unfold ulp; rw [heq]
    unfold roundPos
    rw [hu]
    apply mul_le_mul_of_nonneg_right _ (ulp_pos r).le
    have := roundHalfEven_mono (q / ulp r) (r / ulp r)
      (div_le_div_of_nonneg_right h (ulp_pos r).le)
    exact_mod_cast this

/-- Rounding keeps order. -/
theorem roundDouble_mono (q r : ℚ) (h : q ≤ r) : roundDouble q ≤ roundDouble r := by
  unfold roundDouble
  by_cases hq : 0 < q
  · have hr : 0 < r := lt_of_lt_of_le hq h
    rw [if_pos hq, if_pos hr]
    exact roundPos_mono q r hq h
  · rw [if_neg hq]
    by_cases hq2 : q < 0
    · rw [if_pos hq2]
      by_cases hr : 0 < r
      · rw [if_pos hr]
        have h1 := roundPos_pos (-q) (by linarith)
        have h2 := roundPos_pos r hr
        linarith
      · rw [if_neg hr]
        by_cases hr2 : r < 0
        · rw [if_pos hr2]
          have := roundPos_mono (-r) (-q) (by linarith) (by linarith)
          linarith
        · rw [if_neg hr2]
          have h1 := roundPos_pos (-q) (by linarith)
          linarith
    · rw [if_neg hq2]
      have hq0 : q = 0 := le_antisymm (not_lt.mp hq) (not_lt.mp hq2)
      by_cases hr : 0 < r
      · rw [if_pos hr]
        exact (roundPos_pos r hr).le
      · rw [if_neg hr, if_neg (by linarith)]


/-- A positive `m * 2^j` with `m < 2^53` is a binary64 value. -/
theorem roundPos_repr (m j : Int) (hm0 : 0 < m) (hm : m < 2 ^ 53) :
    roundPos ((m : ℚ) * (2 : ℚ) ^ j) = (m : ℚ) * (2 : ℚ) ^ j := by
  have hq : 0 < (m : ℚ) * (2 : ℚ) ^ j := by positivity
  obtain ⟨h1, -⟩ := binade_bounds _ hq
  have h2 : (m : ℚ) * (2 : ℚ) ^ j < (2 : ℚ) ^ (j + 53) := by
    have hm1 : (m : ℚ) < (2 : ℚ) ^ (53 : Int) := by exact_mod_cast hm
    rw [zpow_add₀ (by norm_num : (2 : ℚ) ≠ 0), mul_comm ((2 : ℚ) ^ j)]
    exact mul_lt_mul_of_pos_right hm1 (by positivity)
  have h3 : Int.log 2 ((m : ℚ) * (2 : ℚ) ^ j) < j + 53 :=
    (zpow_lt_zpow_iff_right₀ (by norm_num : (1 : ℚ) < 2)).mp (lt_of_le_of_lt h1 h2)
  generalize he : Int.log 2 ((m : ℚ) * (2 : ℚ) ^ j) = e at h3
  have hk : j = (e - 52) + ((j - (e - 52)).toNat : Int) := by
    rw [Int.toNat_of_nonneg (by omega)]
    ring
  have hdiv : (m : ℚ) * (2 : ℚ) ^ j / (2 : ℚ) ^ (e - 52) =
      ((m * 2 ^ (j - (e - 52)).toNat : Int) : ℚ) := by
    rw [div_eq_iff (by positivity)]
    push_cast
    nth_rewrite 1 [hk]
    rw [zpow_add₀ (by norm_num : (2 : ℚ) ≠ 0), zpow_natCast]
    ring
  unfold roundPos ulp
  rw [he, hdiv, roundHalfEven_intCast]
  push_cast
  have hj : (2 : ℚ) ^ j = (2 : ℚ) ^ (e - 52) * (2 : ℚ) ^ (j - (e - 52)).toNat := by
    nth_rewrite 1 [hk]
    rw [zpow_add₀ (by norm_num : (2 : ℚ) ≠ 0), zpow_natCast]
  rw [hj]
  ring

/-- Any `m * 2^j` with `|m| < 2^53` is a binary64 value. -/
theorem isDouble_repr (m j : Int) (hm : |m| < 2 ^ 53) : isDouble ((m : ℚ) * (2 : ℚ) ^ j) := by
  unfold isDouble roundDouble
  have hp : (0 : ℚ) < (2 : ℚ) ^ j := by positivity
  rcases lt_trichotomy m 0 with hneg | hzero | hpos
  · have hq : (m : ℚ) * (2 : ℚ) ^ j < 0 := mul_neg_of_neg_of_pos (by exact_mod_cast hneg) hp
    rw [if_neg (by linarith), if_pos hq]
    have := roundPos_repr (-m) j (by omega) (by rw [abs_lt] at hm; omega)
    push_cast at this
    rw [neg_mul] at this
    rw [this]
    ring
  · subst hzero
    simp
  · have hq : 0 < (m : ℚ) * (2 : ℚ) ^ j := by positivity
    rw [if_pos hq]
    exact roundPos_repr m j hpos (by rw [abs_lt] at hm; omega)

/-- An integer of magnitude below `2^53` is a binary64 value. -/
theorem isDouble_intCast (n : Int) (hn : |n| < 2 ^ 53) : isDouble (n : ℚ) := by
  have := isDouble_repr n 0 hn
  simpa using this

/-- Half an integer of magnitude below `2^53` is a binary64 value. -/
theorem isDouble_half (n : Int) (hn : |n| < 2 ^ 53) : isDouble ((n : ℚ) / 2) := by
  have := isDouble_repr n (-1) hn
  have e : (n : ℚ) * (2 : ℚ) ^ (-1 : Int) = (n : ℚ) / 2 := by
    rw [zpow_neg_one]
    ring
  rwa [e] at this

/-- What rounding returns is a binary64 value: rounding is idempotent. -/
theorem isDouble_roundPos (q : ℚ) (hq : 0 < q) : isDouble (roundPos q) := by
  obtain ⟨h1, h2⟩ := significand_bounds q hq
  unfold ulp at h1 h2
  rcases h2.lt_or_eq with hlt | heq
  · unfold roundPos ulp
    exact isDouble_repr _ _ (by rw [abs_lt]; omega)
  · have e : roundPos q = ((1 : Int) : ℚ) * (2 : ℚ) ^ (Int.log 2 q + 1) := by
      have hz := two_pow_mul_zpow 53 (Int.log 2 q)
      have hx : Int.log 2 q - 52 + (53 : Nat) = Int.log 2 q + 1 := by
        push_cast
        ring
      rw [hx] at hz
      unfold roundPos ulp
      rw [heq, ← hz]
      push_cast
      ring
    rw [e]
    exact isDouble_repr _ _ (by norm_num)

/-- Zero is a binary64 value. -/
theorem isDouble_zero : isDouble 0 := by
  unfold isDouble roundDouble
  simp

/-- The negative of a binary64 value is one. -/
theorem isDouble_neg (q : ℚ) (h : isDouble q) : isDouble (-q) := by
  unfold isDouble roundDouble at h ⊢
  rcases lt_trichotomy q 0 with hneg | hzero | hpos
  · rw [if_neg (by linarith), if_pos hneg] at h
    rw [if_pos (by linarith)]
    linarith
  · subst hzero
    simp
  · rw [if_pos hpos] at h
    rw [if_neg (by linarith), if_pos (by linarith), neg_neg, h]

/-- What rounding returns is a binary64 value. -/
theorem isDouble_roundDouble (q : ℚ) : isDouble (roundDouble q) := by
  rcases lt_trichotomy q 0 with hneg | hzero | hpos
  · have e : roundDouble q = -roundPos (-q) := by
      unfold roundDouble
      rw [if_neg (by linarith), if_pos hneg]
    rw [e]
    exact isDouble_neg _ (isDouble_roundPos _ (by linarith))
  · subst hzero
    have e : roundDouble 0 = 0 := isDouble_zero
    rw [e]
    exact isDouble_zero
  · have e : roundDouble q = roundPos q := by
      unfold roundDouble
      rw [if_pos hpos]
    rw [e]
    exact isDouble_roundPos _ hpos

/-- Rounding moves a positive number by at most `2^-53` of it. -/
theorem abs_roundPos_sub (q : ℚ) (hq : 0 < q) : |roundPos q - q| ≤ q / 2 ^ 53 := by
  have hu := ulp_pos q
  have h1 := abs_roundHalfEven_sub (q / ulp q)
  have h2 : ulp q ≤ q / 2 ^ 52 := by
    rw [le_div_iff₀ (by positivity), mul_comm]
    exact (le_div_iff₀ hu).mp (scaled_bounds q hq).1
  have e : roundPos q - q = ((roundHalfEven (q / ulp q) : ℚ) - q / ulp q) * ulp q := by
    unfold roundPos
    field_simp
  rw [e, abs_mul, abs_of_pos hu]
  calc |(roundHalfEven (q / ulp q) : ℚ) - q / ulp q| * ulp q ≤ 1 / 2 * ulp q :=
        mul_le_mul_of_nonneg_right h1 hu.le
    _ ≤ 1 / 2 * (q / 2 ^ 52) := mul_le_mul_of_nonneg_left h2 (by norm_num)
    _ = q / 2 ^ 53 := by ring

/-- Rounding moves a number by at most `2^-53` of its magnitude. -/
theorem abs_roundDouble_sub (q : ℚ) : |roundDouble q - q| ≤ |q| / 2 ^ 53 := by
  unfold roundDouble
  rcases lt_trichotomy q 0 with hneg | hzero | hpos
  · rw [if_neg (by linarith), if_pos hneg, abs_of_neg hneg]
    have := abs_roundPos_sub (-q) (by linarith)
    rw [abs_sub_comm] at this
    have e : -q - roundPos (-q) = -roundPos (-q) - q := by ring
    rwa [e] at this
  · subst hzero
    simp
  · rw [if_pos hpos, abs_of_pos hpos]
    exact abs_roundPos_sub q hpos

/-- The value of rounding a positive number, from its binade and the
significand nearest to it. -/
theorem roundDouble_eval (q : ℚ) (e z : Int) (h1 : (2 : ℚ) ^ e ≤ q) (h2 : q < (2 : ℚ) ^ (e + 1))
    (h3 : (z : ℚ) - 1 / 2 < q / (2 : ℚ) ^ (e - 52))
    (h4 : q / (2 : ℚ) ^ (e - 52) < (z : ℚ) + 1 / 2) :
    roundDouble q = (z : ℚ) * (2 : ℚ) ^ (e - 52) := by
  have hq : 0 < q := lt_of_lt_of_le (by positivity) h1
  unfold roundDouble roundPos ulp
  rw [if_pos hq, binade_unique q e h1 h2, roundHalfEven_eq _ z h3 h4]

/-- The literal `0.3` denotes the binary64 value `5404319552844595 / 2^54`. -/
theorem roundDouble_three_tenths : roundDouble (3 / 10) = 5404319552844595 / 2 ^ 54 := by
  rw [roundDouble_eval (3 / 10) (-2) 5404319552844595 (by norm_num) (by norm_num)
    (by norm_num) (by norm_num)]
  norm_num

/-! ### The scheduler -/

/-- The positive part of an integer difference, as a rational. -/
theorem max_zero_sub_cast (x k : Int) :
    ((max 0 (x - k) : Int) : ℚ) = if k < x then ((x - k : Int) : ℚ) else 0 := by
  split_ifs with h
  · rw [max_eq_right (by omega)]
  · rw [max_eq_left (by omega)]
    norm_num

/-! ### The health score in `double` arithmetic -/

/-- The literal `100.0` is a binary64 value. -/
theorem roundDouble_hundred : roundDouble 100.0 = 100 := by
  have := isDouble_intCast 100 (by norm_num)
  unfold isDouble at this
  norm_num at this ⊢
  exact this

/-- The literal `0.0` is a binary64 value. -/
theorem roundDouble_zero : roundDouble 0.0 = 0 := by
  have := isDouble_zero
  unfold isDouble at this
  norm_num at this ⊢
  exact this

/-- The literal `0.5` is a binary64 value. -/
theorem roundDouble_half : roundDouble 0.5 = 1 / 2 := by
  have := isDouble_half 1 (by norm_num)
  unfold isDouble at this
  norm_num at this ⊢
  exact this

/-- The literal `2.0` is a binary64 value. -/
theorem roundDouble_two : roundDouble 2.0 = 2 := by
  have := isDouble_intCast 2 (by norm_num)
  unfold isDouble at this
  norm_num at this ⊢
  exact this

/-- The literal `0.3` as a binary64 value. -/
theorem roundDouble_lit_three_tenths : roundDouble 0.3 = 5404319552844595 / 2 ^ 54 := by
  have : (0.3 : ℚ) = 3 / 10 := by norm_num
  rw [this]
  exact roundDouble_three_tenths

/-- Rounding a non-negative number gives a non-negative number. -/
theorem roundDouble_nonneg (q : ℚ) (h : 0 ≤ q) : 0 ≤ roundDouble q := by
  have h1 := roundDouble_mono 0 q h
  have h2 : roundDouble 0 = 0 := isDouble_zero
  rwa [h2] at h1

/-- A converted `int` of magnitude below `2^53` is the integer itself. -/
theorem intToDouble_eq (n : Int) (hn : |n| < 2 ^ 53) : intToDouble n = (n : ℚ) :=
  isDouble_intCast n hn

/-- Conversion keeps order. -/
theorem intToDouble_mono (m n : Int) (h : m ≤ n) : intToDouble m ≤ intToDouble n :=
  roundDouble_mono _ _ (Int.cast_le.mpr h)

/-- A deduction is a binary64 value. -/
theorem isDouble_deductDouble (s : ℚ) (k : Int) (r : ℚ) : isDouble (deductDouble s k r) :=
  isDouble_roundDouble _

/-- A deduction keeps the order of the scores it is taken from. -/
theorem deductDouble_mono (s s1 : ℚ) (k : Int) (r : ℚ) (h : s ≤ s1) :
    deductDouble s k r ≤ deductDouble s1 k r := by
  unfold deductDouble doubleSub
  exact roundDouble_mono _ _ (by linarith)

/-- At a non-negative rate a larger excess leaves a smaller score. -/
theorem deductDouble_anti (s : ℚ) (k k1 : Int) (r : ℚ) (hr : 0 ≤ r) (h : k ≤ k1) :
    deductDouble s k1 r ≤ deductDouble s k r := by
  unfold deductDouble doubleSub doubleMul
  apply roundDouble_mono
  have h1 := roundDouble_mono _ _ (mul_le_mul_of_nonneg_right (intToDouble_mono k k1 h) hr)
  linarith

/-- At a non-negative rate a non-negative excess does not raise the score. -/
theorem deductDouble_le (s : ℚ) (k : Int) (r : ℚ) (hs : isDouble s) (hk : 0 ≤ k)
    (hr : 0 ≤ r) : deductDouble s k r ≤ s := by
  have h0 : 0 ≤ intToDouble k := roundDouble_nonneg _ (Int.cast_nonneg.mpr hk)
  have h1 : 0 ≤ doubleMul (intToDouble k) r := roundDouble_nonneg _ (mul_nonneg h0 hr)
  have h2 := roundDouble_mono (s - doubleMul (intToDouble k) r) s (by linarith)
  unfold isDouble at hs
  rw [hs] at h2
  exact h2

/-- A deduction whose operands and results are binary64 values is exact. -/
theorem deductDouble_exact (s : ℚ) (k : Int) (r : ℚ) (hk : |k| < 2 ^ 53)
    (hp : isDouble ((k : ℚ) * r)) (hd : isDouble (s - (k : ℚ) * r)) :
    deductDouble s k r = s - (k : ℚ) * r := by
  unfold deductDouble doubleSub doubleMul
  rw [intToDouble_eq k hk, hp, hd]

/-- An excess of at least `K`, worth 200 points or more, takes a score of at
most 100 down to -100 or below. -/
theorem deductDouble_big (s : ℚ) (k K : Int) (r : ℚ) (hs : s ≤ 100) (hr : 0 ≤ r)
    (hK : |K| < 2 ^ 53) (hk : K ≤ k) (hKr : 200 ≤ (K : ℚ) * r) :
    deductDouble s k r ≤ -100 := by
  have h1 : (K : ℚ) ≤ intToDouble k := by
    have := intToDouble_mono K k hk
    rwa [intToDouble_eq K hK] at this
  have h2 : (200 : ℚ) ≤ doubleMul (intToDouble k) r := by
    have h3 : (200 : ℚ) ≤ intToDouble k * r :=
      le_trans hKr (mul_le_mul_of_nonneg_right h1 hr)
    have h4 := roundDouble_mono _ _ h3
    have h5 : roundDouble 200 = 200 := by
      have := isDouble_intCast 200 (by norm_num)
      unfold isDouble at this
      norm_num at this
      exact this
    rw [h5] at h4
    exact h4
  have h6 := roundDouble_mono (s - doubleMul (intToDouble k) r) (-100) (by linarith)
  have h7 : roundDouble (-100) = -100 := by
    have := isDouble_intCast (-100) (by norm_num)
    unfold isDouble at this
    norm_num at this
    exact this
  rw [h7] at h6
  exact h6

/-- The error of a deduction of moderate size: with the excess worth at most
255 points and the score at most 511 in magnitude, the result is within
`2^-43` of the exact difference. -/
theorem deductDouble_err (s : ℚ) (k : Int) (r : ℚ) (hk : |k| < 2 ^ 53)
    (hp : |(k : ℚ) * r| ≤ 255) (hs : |s| ≤ 511) :
    |deductDouble s k r - (s - (k : ℚ) * r)| ≤ 1 / 2 ^ 43 := by
  unfold deductDouble doubleSub doubleMul
  rw [intToDouble_eq k hk]
  have e1 := abs_roundDouble_sub ((k : ℚ) * r)
  have e2 := abs_roundDouble_sub (s - roundDouble ((k : ℚ) * r))
  have b1 : |roundDouble ((k : ℚ) * r) - (k : ℚ) * r| ≤ 255 / 2 ^ 53 :=
    le_trans e1 (div_le_div_of_nonneg_right hp (by positivity))
  have b1a := abs_le.mp b1
  have hpa := abs_le.mp hp
  have hsa := abs_le.mp hs
  have b2 : |s - roundDouble ((k : ℚ) * r)| ≤ 767 := by
    rw [abs_le]
    constructor <;> norm_num at b1a ⊢ <;> linarith [b1a.1, b1a.2, hpa.1, hpa.2, hsa.1, hsa.2]
  have b3 : |roundDouble (s - roundDouble ((k : ℚ) * r)) - (s - roundDouble ((k : ℚ) * r))|
      ≤ 767 / 2 ^ 53 := le_trans e2 (div_le_div_of_nonneg_right b2 (by positivity))
  have b3a := abs_le.mp b3
  rw [abs_le]
  constructor <;> norm_num at b1a b3a ⊢ <;> linarith [b1a.1, b1a.2, b3a.1, b3a.2]

/-- The score as its three rules in turn, clamped. -/
theorem calculateHealthScore_rules (s : HealthEngine) :
    calculateHealthScore s =
      max 0 (min 100
        (deductBreaks
          (deductExcess (deductExcess 100 (s.m_continuousSittingMinutes - 60) (1 / 2))
            (s.m_todayStats.longestSittingSession - 120) (roundDouble 0.3))
          s.m_todayStats.totalSittingMinutes s.m_todayStats.eyeBreaksTaken
          s.m_todayStats.neckExercisesDone)) := by
  unfold calculateHealthScore deductBreaks deductExcess deductDouble
  simp only [roundDouble_hundred, roundDouble_zero, roundDouble_half, roundDouble_two]
  have h1 : (s.m_continuousSittingMinutes > 60) ↔ (0 < s.m_continuousSittingMinutes - 60) := by
    constructor <;> intro h <;> omega
  have h2 : (s.m_todayStats.longestSittingSession > 120) ↔
      (0 < s.m_todayStats.longestSittingSession - 120) := by
    constructor <;> intro h <;> omega
  simp only [h1, h2]

/-- With the break arithmetic in range, the break rule is the rule on the
expected breaks less the breaks taken. -/
theorem deductBreaks_of_fit (score : ℚ) (T e n : Int) (h : breaksFit T e n) :
    deductBreaks score T e n = deductExcess score (Int.tdiv T 30 - (e + n)) 2 := by
  unfold deductBreaks deductExcess
  rw [toInt32_of_fits _ h.1, toInt32_of_fits _ h.2]
  have h1 : (e + n < Int.tdiv T 30) ↔ (0 < Int.tdiv T 30 - (e + n)) := by
    constructor <;> intro h <;> omega
  simp only [h1]

/-- The break rule keeps the order of the scores it is applied to. -/
theorem deductBreaks_mono (s s1 : ℚ) (T e n : Int) (h : s ≤ s1) :
    deductBreaks s T e n ≤ deductBreaks s1 T e n := by
  unfold deductBreaks
  split_ifs
  · exact deductDouble_mono _ _ _ _ h
  · exact h

/-- A rule keeps the order of the scores it is applied to. -/
theorem deductExcess_mono (s s1 : ℚ) (k : Int) (r : ℚ) (h : s ≤ s1) :
    deductExcess s k r ≤ deductExcess s1 k r := by
  unfold deductExcess
  split_ifs
  · exact deductDouble_mono _ _ _ _ h
  · exact h

/-- A rule applied to a binary64 value gives one. -/
theorem isDouble_deductExcess (s : ℚ) (k : Int) (r : ℚ) (hs : isDouble s) :
    isDouble (deductExcess s k r) := by
  unfold deductExcess
  split_ifs
  · exact isDouble_deductDouble _ _ _
  · exact hs

/-- At a non-negative rate a rule does not raise the score. -/
theorem deductExcess_le (s : ℚ) (k : Int) (r : ℚ) (hs : isDouble s) (hr : 0 ≤ r) :
    deductExcess s k r ≤ s := by
  unfold deductExcess
  split_ifs with h
  · exact deductDouble_le s k r hs h.le hr
  · exact le_refl _

/-- At a non-negative rate a larger excess leaves a smaller score. -/
theorem deductExcess_anti (s : ℚ) (k k1 : Int) (r : ℚ) (hs : isDouble s) (hr : 0 ≤ r)
    (h : k ≤ k1) : deductExcess s k1 r ≤ deductExcess s k r := by
  unfold deductExcess
  split_ifs with h1 h2 h2
  · exact deductDouble_anti s k k1 r hr h
  · exact deductDouble_le s k1 r hs h1.le hr
  · exact absurd (lt_of_lt_of_le h2 h) h1
  · exact le_refl _

/-- The value 100 is a binary64 value. -/
theorem isDouble_hundred : isDouble 100 := by
  have := isDouble_intCast 100 (by norm_num)
  norm_num at this
  exact this

/-- The literal `0.3` denotes a non-negative value. -/
theorem roundDouble_lit_nonneg : 0 ≤ roundDouble 0.3 := roundDouble_nonneg _ (by norm_num)

/-- A rule with an excess takes its deduction. -/
theorem deductExcess_pos (s : ℚ) (k : Int) (r : ℚ) (h : 0 < k) :
    deductExcess s k r = deductDouble s k r := if_pos h

/-- A rule without an excess leaves the score. -/
theorem deductExcess_nonpos (s : ℚ) (k : Int) (r : ℚ) (h : k ≤ 0) :
    deductExcess s k r = s := if_neg (not_lt.mpr h)

/-- Half a point per unit, taken from half an integer, is exact. -/
theorem deductDouble_half_exact (m k : Int) (hm : |m| < 2 ^ 40) (hk : |k| < 2 ^ 40) :
    deductDouble ((m : ℚ) / 2) k (1 / 2) = ((m - k : Int) : ℚ) / 2 := by
  rw [abs_lt] at hm hk
  rw [deductDouble_exact _ _ _ (by rw [abs_lt]; omega)]
  · push_cast
    ring
  · have := isDouble_half k (by rw [abs_lt]; omega)
    have e : (k : ℚ) * (1 / 2) = (k : ℚ) / 2 := by ring
    rwa [e]
  · have := isDouble_half (m - k) (by rw [abs_lt]; omega)
    have e : (m : ℚ) / 2 - (k : ℚ) * (1 / 2) = ((m - k : Int) : ℚ) / 2 := by
      push_cast
      ring
    rwa [e]

/-- Two points per unit, taken from half an integer, is exact. -/
theorem deductDouble_two_exact (m k : Int) (hm : |m| < 2 ^ 40) (hk : |k| < 2 ^ 40) :
    deductDouble ((m : ℚ) / 2) k 2 = ((m - 4 * k : Int) : ℚ) / 2 := by
  rw [abs_lt] at hm hk
  rw [deductDouble_exact _ _ _ (by rw [abs_lt]; omega)]
  · push_cast
    ring
  · have := isDouble_intCast (k * 2) (by rw [abs_lt]; omega)
    push_cast at this
    exact this
  · have := isDouble_half (m - 4 * k) (by rw [abs_lt]; omega)
    have e : (m : ℚ) / 2 - (k : ℚ) * 2 = ((m - 4 * k : Int) : ℚ) / 2 := by
      push_cast
      ring
    rwa [e]

/-- Clamping to the range from 0 to 100 brings two numbers no further apart. -/
theorem clamp_close (x y ε : ℚ) (h : |x - y| ≤ ε) :
    |max 0 (min 100 x) - max 0 (min 100 y)| ≤ ε := by
  have hε : 0 ≤ ε := le_trans (abs_nonneg _) h
  rw [abs_le] at h ⊢
  obtain ⟨h1, h2⟩ := h
  simp only [max_def, min_def]
  split_ifs <;> constructor <;> linarith

/-- A score of at most 0 before the clamp is 0 after it. -/
theorem clamp_nonpos (x : ℚ) (h : x ≤ 0) : max 0 (min 100 x) = 0 :=
  max_eq_left (le_trans (min_le_right _ _) h)

/-- When one rule alone is worth 200 points or more, the score before the
clamp is -100 or below. -/
theorem rules_big (c L d : Int) (h : 400 < c - 60 ∨ 700 < L - 120 ∨ 100 < d) :
    deductExcess
        (deductExcess (deductExcess 100 (c - 60) (1 / 2)) (L - 120) (roundDouble 0.3)) d 2 ≤
      -100 := by
  have i1 : isDouble (deductExcess 100 (c - 60) (1 / 2)) :=
    isDouble_deductExcess _ _ _ isDouble_hundred
  have i2 : isDouble (deductExcess (deductExcess 100 (c - 60) (1 / 2)) (L - 120)
      (roundDouble 0.3)) := isDouble_deductExcess _ _ _ i1
  have l1 := deductExcess_le 100 (c - 60) (1 / 2) isDouble_hundred (by norm_num)
  have l2 := deductExcess_le _ (L - 120) (roundDouble 0.3) i1 roundDouble_lit_nonneg
  have l3 := deductExcess_le _ d 2 i2 (by norm_num)
  rcases h with h | h | h
  · have b : deductExcess 100 (c - 60) (1 / 2) ≤ -100 := by
      rw [deductExcess_pos _ _ _ (by omega)]
      exact deductDouble_big 100 (c - 60) 401 (1 / 2) le_rfl (by norm_num) (by norm_num)
        (by omega) (by norm_num)
    linarith
  · have b : deductExcess (deductExcess 100 (c - 60) (1 / 2)) (L - 120) (roundDouble 0.3) ≤
        -100 := by
      rw [deductExcess_pos _ (L - 120) _ (by omega)]
      exact deductDouble_big _ (L - 120) 701 _ l1 roundDouble_lit_nonneg (by norm_num)
        (by omega) (by rw [roundDouble_lit_three_tenths]; norm_num)
    linarith
  · rw [deductExcess_pos _ d 2 (by omega)]
    exact deductDouble_big _ d 101 2 (by linarith) (by norm_num) (by norm_num) (by omega)
      (by norm_num)

/-- The first rule is exact while it is worth at most 200 points. -/
theorem stage_sitting (c : Int) (hc : c - 60 ≤ 400) :
    deductExcess 100 (c - 60) (1 / 2) = ((200 - max 0 (c - 60) : Int) : ℚ) / 2 := by
  have e100 : (100 : ℚ) = ((200 : Int) : ℚ) / 2 := by norm_num
  by_cases h : 0 < c - 60
  · rw [deductExcess_pos _ _ _ h, max_eq_right h.le, e100,
      deductDouble_half_exact 200 (c - 60) (by norm_num) (by rw [abs_lt]; omega)]
  · rw [deductExcess_nonpos _ _ _ (by omega), max_eq_left (by omega)]
    norm_num

/-- The three rules in `double` arithmetic against the three rules in exact
arithmetic, after the clamp: within `2^-41` of each other, and equal when the
longest session is at most 120. -/
theorem rules_close (c L d : Int) :
    |max 0 (min 100
          (deductExcess
            (deductExcess (deductExcess 100 (c - 60) (1 / 2)) (L - 120) (roundDouble 0.3))
            d 2)) -
        max 0 (min 100
          (100 - 1 / 2 * ((max 0 (c - 60) : Int) : ℚ) - 3 / 10 * ((max 0 (L - 120) : Int) : ℚ) -
            2 * ((max 0 d : Int) : ℚ)))| ≤ 1 / 2 ^ 41 ∧
      (L ≤ 120 →
        max 0 (min 100
          (deductExcess
            (deductExcess (deductExcess 100 (c - 60) (1 / 2)) (L - 120) (roundDouble 0.3))
            d 2)) =
        max 0 (min 100
          (100 - 1 / 2 * ((max 0 (c - 60) : Int) : ℚ) - 3 / 10 * ((max 0 (L - 120) : Int) : ℚ) -
            2 * ((max 0 d : Int) : ℚ)))) := by
  have nc : (0 : ℚ) ≤ ((max 0 (c - 60) : Int) : ℚ) := Int.cast_nonneg.mpr (le_max_left _ _)
  have nL : (0 : ℚ) ≤ ((max 0 (L - 120) : Int) : ℚ) := Int.cast_nonneg.mpr (le_max_left _ _)
  have nd : (0 : ℚ) ≤ ((max 0 d : Int) : ℚ) := Int.cast_nonneg.mpr (le_max_left _ _)
  have gc : ((c - 60 : Int) : ℚ) ≤ ((max 0 (c - 60) : Int) : ℚ) :=
    Int.cast_le.mpr (le_max_right _ _)
  have gL : ((L - 120 : Int) : ℚ) ≤ ((max 0 (L - 120) : Int) : ℚ) :=
    Int.cast_le.mpr (le_max_right _ _)
  have gd : ((d : Int) : ℚ) ≤ ((max 0 d : Int) : ℚ) := Int.cast_le.mpr (le_max_right _ _)
  by_cases hbig : 400 < c - 60 ∨ 700 < L - 120 ∨ 100 < d
  · have hS := rules_big c L d hbig
    have hX : 100 - 1 / 2 * ((max 0 (c - 60) : Int) : ℚ) -
        3 / 10 * ((max 0 (L - 120) : Int) : ℚ) - 2 * ((max 0 d : Int) : ℚ) ≤ 0 := by
      rcases hbig with h | h | h
      · have : (400 : ℚ) < ((c - 60 : Int) : ℚ) := by exact_mod_cast h
        linarith
      · have : (700 : ℚ) < ((L - 120 : Int) : ℚ) := by exact_mod_cast h
        linarith
      · have : (100 : ℚ) < ((d : Int) : ℚ) := by exact_mod_cast h
        linarith
    rw [clamp_nonpos _ (by linarith), clamp_nonpos _ hX]
    norm_num
  · push_neg at hbig
    obtain ⟨hc, hL, hd⟩ := hbig
    have s1 := stage_sitting c hc
    have kc1 : max 0 (c - 60) ≤ 400 := max_le (by norm_num) hc
    have kc0 : 0 ≤ max 0 (c - 60) := le_max_left _ _
    generalize max 0 (c - 60) = kc at s1 kc1 kc0 nc gc ⊢
    rw [s1]
    have qc0 : (0 : ℚ) ≤ (kc : ℚ) := Int.cast_nonneg.mpr kc0
    have qc1 : (kc : ℚ) ≤ 400 := by exact_mod_cast kc1
    by_cases hL0 : 0 < L - 120
    · -- the 0.3 rule is in play: rounding errors
      have t0 := roundDouble_lit_nonneg
      have tv := roundDouble_lit_three_tenths
      have qL0 : (0 : ℚ) < ((L - 120 : Int) : ℚ) := by exact_mod_cast hL0
      have qL1 : ((L - 120 : Int) : ℚ) ≤ 700 := by exact_mod_cast hL
      have pL : ((L - 120 : Int) : ℚ) * roundDouble 0.3 ≤ 210 := by
        rw [tv]
        have : (5404319552844595 / 2 ^ 54 : ℚ) ≤ 3 / 10 := by norm_num
        nlinarith
      have pL0 : 0 ≤ ((L - 120 : Int) : ℚ) * roundDouble 0.3 := mul_nonneg qL0.le t0
      have lit : ((L - 120 : Int) : ℚ) * (3 / 10) - ((L - 120 : Int) : ℚ) * roundDouble 0.3 =
          ((L - 120 : Int) : ℚ) / (5 * 2 ^ 54) := by
        rw [tv]
        ring
      have lit1 : ((L - 120 : Int) : ℚ) / (5 * 2 ^ 54) ≤ 140 / 2 ^ 54 := by
        rw [div_le_div_iff₀ (by positivity) (by positivity)]
        nlinarith
      have lit0 : 0 ≤ ((L - 120 : Int) : ℚ) / (5 * 2 ^ 54) := by positivity
      have ec : ((200 - kc : Int) : ℚ) = 200 - (kc : ℚ) := by
        push_cast
        ring
      rw [deductExcess_pos _ (L - 120) _ hL0, max_eq_right hL0.le]
      have e2 := deductDouble_err (((200 - kc : Int) : ℚ) / 2) (L - 120) (roundDouble 0.3)
        (by rw [abs_lt]; omega) (by rw [abs_le]; constructor <;> linarith)
        (by rw [abs_le]; constructor <;> linarith)
      obtain ⟨e2l, e2u⟩ := abs_le.mp e2
      have small : (1 : ℚ) / 2 ^ 43 ≤ 1 := by norm_num
      refine ⟨?_, fun h => absurd h (by omega)⟩
      by_cases hd0 : 0 < d
      · have qd0 : (0 : ℚ) < (d : ℚ) := by exact_mod_cast hd0
        have qd1 : (d : ℚ) ≤ 100 := by exact_mod_cast hd
        rw [deductExcess_pos _ d 2 hd0, max_eq_right hd0.le]
        have e3 := deductDouble_err
          (deductDouble (((200 - kc : Int) : ℚ) / 2) (L - 120) (roundDouble 0.3)) d 2
          (by rw [abs_lt]; omega) (by rw [abs_le]; constructor <;> linarith)
          (by rw [abs_le]; constructor <;> linarith)
        obtain ⟨e3l, e3u⟩ := abs_le.mp e3
        have eps : (1 : ℚ) / 2 ^ 43 + 1 / 2 ^ 43 + 140 / 2 ^ 54 ≤ 1 / 2 ^ 41 := by norm_num
        apply clamp_close
        rw [abs_le]
        constructor <;> linarith
      · rw [deductExcess_nonpos _ d 2 (by omega), max_eq_left (by omega : d ≤ 0)]
        have eps : (1 : ℚ) / 2 ^ 43 + 140 / 2 ^ 54 ≤ 1 / 2 ^ 41 := by norm_num
        have z : ((0 : Int) : ℚ) = 0 := Int.cast_zero
        apply clamp_close
        rw [abs_le]
        constructor <;> linarith
    · -- the 0.3 rule is not in play: every operation is exact
      rw [deductExcess_nonpos _ (L - 120) _ (by omega), max_eq_left (by omega : L - 120 ≤ 0)]
      have key : deductExcess (((200 - kc : Int) : ℚ) / 2) d 2 =
          100 - 1 / 2 * (kc : ℚ) - 3 / 10 * ((0 : Int) : ℚ) - 2 * ((max 0 d : Int) : ℚ) := by
        by_cases hd0 : 0 < d
        · rw [deductExcess_pos _ d 2 hd0, max_eq_right hd0.le,
            deductDouble_two_exact (200 - kc) d (by rw [abs_lt]; omega) (by rw [abs_lt]; omega)]
          push_cast
          ring
        · rw [deductExcess_nonpos _ d 2 (by omega), max_eq_left (by omega : d ≤ 0)]
          push_cast
          ring
      rw [key]
      norm_num

/-- The score while the longest session is at most 120 and the first rule is
worth at most 200 points: every operation is exact, whatever the `int`
arithmetic of the break rule wraps to. -/
theorem calculateHealthScore_exact (s : HealthEngine)
    (hc : s.m_continuousSittingMinutes ≤ 460) (hL : s.m_todayStats.longestSittingSession ≤ 120) :
    calculateHealthScore s =
      max 0 (min 100
        (100 - ((max 0 (s.m_continuousSittingMinutes - 60) : Int) : ℚ) / 2 -
          (if toInt32 (s.m_todayStats.eyeBreaksTaken + s.m_todayStats.neckExercisesDone) <
              Int.tdiv s.m_todayStats.totalSittingMinutes 30 then
            2 * ((toInt32 (Int.tdiv s.m_todayStats.totalSittingMinutes 30 -
              toInt32 (s.m_todayStats.eyeBreaksTaken + s.m_todayStats.neckExercisesDone)) : Int) : ℚ)
          else 0))) := by
  rw [calculateHealthScore_rules, deductExcess_nonpos _ (s.m_todayStats.longestSittingSession - 120)
    _ (by omega), stage_sitting _ (by omega)]
  have k0 : 0 ≤ max 0 (s.m_continuousSittingMinutes - 60) := le_max_left _ _
  have k1 : max 0 (s.m_continuousSittingMinutes - 60) ≤ 400 := max_le (by norm_num) (by omega)
  generalize max 0 (s.m_continuousSittingMinutes - 60) = kc at k0 k1 ⊢
  unfold deductBreaks
  split_ifs with h
  · have hf := toInt32_fits (Int.tdiv s.m_todayStats.totalSittingMinutes 30 -
      toInt32 (s.m_todayStats.eyeBreaksTaken + s.m_todayStats.neckExercisesDone))
    unfold fitsInt32 at hf
    rw [deductDouble_two_exact (200 - kc) _ (by rw [abs_lt]; omega) (by rw [abs_lt]; omega)]
    congr 2
    push_cast
    ring
  · congr 2
    push_cast
    ring

/-- C1: for every scheduler state, whatever integers its counters hold,
`calculateHealthScore` returns a value between 0 and 100. -/
theorem calculateHealthScore_bounds (s : HealthEngine) :
    0 ≤ calculateHealthScore s ∧ calculateHealthScore s ≤ 100 := by
  unfold calculateHealthScore
  simp only [roundDouble_hundred, roundDouble_zero]
  constructor
  · exact le_max_left _ _
  · exact max_le (by norm_num) (min_le_left _ _)

/-- The exact reference score, with its three rules side by side. -/
theorem referenceHealthScore_rules (c L T e n : Int) :
    referenceHealthScore c L T e n =
      max 0 (min 100
        (100 - 1 / 2 * ((max 0 (c - 60) : Int) : ℚ) - 3 / 10 * ((max 0 (L - 120) : Int) : ℚ) -
          2 * ((max 0 (T / 30 - (e + n)) : Int) : ℚ))) := by
  unfold referenceHealthScore clamp scoreBaseline
  have h1 : (0.5 : ℚ) = 1 / 2 := by norm_num
  have h2 : (0.3 : ℚ) = 3 / 10 := by norm_num
  have h3 : (2.0 : ℚ) = 2 := by norm_num
  rw [h1, h2, h3]

/-- Counterexample to C2 as stated. With a longest session of 121 and nothing
else to deduct, the reference definition gives 997/10, and the code returns the
`double` 7015763794513101/2^46 (99.700000000000003 in print): 0.3 is no binary
fraction, and the difference is rounded. With `eyeBreaksTaken` at -2^31 and no
sitting minutes, the reference definition gives 0, and the code returns 100:
the difference `expectedBreaks - totalBreaks` does not fit the `int`. -/
theorem calculateHealthScore_counterexample :
    calculateHealthScore
        { scenarioEngine with
          m_continuousSittingMinutes := 0
          m_todayStats :=
            { totalSittingMinutes := 0, longestSittingSession := 121, eyeBreaksTaken := 0,
              neckExercisesDone := 0, healthScore := 100 } } =
        7015763794513101 / 2 ^ 46 ∧
      referenceHealthScore 0 121 0 0 0 = 997 / 10 ∧
      (7015763794513101 / 2 ^ 46 : ℚ) ≠ 997 / 10 ∧
      calculateHealthScore
        { scenarioEngine with
          m_continuousSittingMinutes := 0
          m_todayStats :=
            { totalSittingMinutes := 0, longestSittingSession := 0,
              eyeBreaksTaken := -2147483648, neckExercisesDone := 0, healthScore := 100 } } =
        100 ∧
      referenceHealthScore 0 0 0 (-2147483648) 0 = 0 := by
  refine ⟨?_, ?_, by norm_num, ?_, ?_⟩
  · rw [calculateHealthScore_rules]
    have e1 : deductExcess 100 ((0 : Int) - 60) (1 / 2) = 100 :=
      deductExcess_nonpos _ _ _ (by decide)
    have e2 : deductExcess 100 ((121 : Int) - 120) (roundDouble 0.3) =
        7015763794513101 / 2 ^ 46 := by
      rw [deductExcess_pos _ _ _ (by decide)]
      unfold deductDouble doubleSub doubleMul
      rw [intToDouble_eq _ (by decide), roundDouble_lit_three_tenths]
      have p : (((121 : Int) - 120 : Int) : ℚ) * (5404319552844595 / 2 ^ 54) =
          ((5404319552844595 : Int) : ℚ) * (2 : ℚ) ^ (-54 : Int) := by norm_num
      have hp : roundDouble (((5404319552844595 : Int) : ℚ) * (2 : ℚ) ^ (-54 : Int)) =
          ((5404319552844595 : Int) : ℚ) * (2 : ℚ) ^ (-54 : Int) :=
        isDouble_repr _ _ (by decide)
      rw [p, hp, roundDouble_eval _ 6 7015763794513101 (by norm_num) (by norm_num)
        (by norm_num) (by norm_num)]
      norm_num
    have e3 : deductBreaks (7015763794513101 / 2 ^ 46) 0 0 0 = 7015763794513101 / 2 ^ 46 := by
      unfold deductBreaks
      rw [if_neg (by decide)]
    show max 0 (min 100 (deductBreaks (deductExcess (deductExcess 100 ((0 : Int) - 60) (1 / 2))
      ((121 : Int) - 120) (roundDouble 0.3)) 0 0 0)) = 7015763794513101 / 2 ^ 46
    rw [e1, e2, e3]
    norm_num
  · rw [referenceHealthScore_rules]
    norm_num
  · rw [calculateHealthScore_exact _ (by decide) (by decide)]
    show max 0 (min 100 (100 - ((max 0 ((0 : Int) - 60) : Int) : ℚ) / 2 -
      (if toInt32 ((-2147483648 : Int) + 0) < Int.tdiv 0 30 then
        2 * ((toInt32 (Int.tdiv 0 30 - toInt32 ((-2147483648 : Int) + 0)) : Int) : ℚ)
      else 0))) = 100
    rw [if_pos (by decide)]
    have e : toInt32 (Int.tdiv 0 30 - toInt32 ((-2147483648 : Int) + 0)) = -2147483648 := by
      decide
    rw [e]
    norm_num
  · rw [referenceHealthScore_rules]
    norm_num

/-- C2, amended: for a non-negative `totalSittingMinutes` and break counters
whose sum, and whose shortfall against `floor(T/30)`, stay in the range of a
32-bit `int`, `calculateHealthScore` agrees with the reference definition
`clamp(100 - 0.5*max(0,c-60) - 0.3*max(0,L-120) - 2.0*max(0, floor(T/30) - (e+n)), 0, 100)`
up to the rounding of `double` arithmetic: it lies within `2^-41` of the
reference value, and equals it whenever `L ≤ 120`, where no operation rounds.
For `T = 90`, `e = 1`, `n = 0` the break rule takes 4 off the baseline of the
other two rules (to within `2^-41`, and exactly when `L ≤ 120`), and the score
is exactly 96 when `c ≤ 60` and `L ≤ 120`. -/
theorem calculateHealthScore_eq_reference (s : HealthEngine)
    (hT : 0 ≤ s.m_todayStats.totalSittingMinutes)
    (hfit : breaksFit s.m_todayStats.totalSittingMinutes s.m_todayStats.eyeBreaksTaken
      s.m_todayStats.neckExercisesDone) :
    |calculateHealthScore s -
        referenceHealthScore s.m_continuousSittingMinutes
          s.m_todayStats.longestSittingSession s.m_todayStats.totalSittingMinutes
          s.m_todayStats.eyeBreaksTaken s.m_todayStats.neckExercisesDone| ≤ 1 / 2 ^ 41 ∧
      (s.m_todayStats.longestSittingSession ≤ 120 →
        calculateHealthScore s =
          referenceHealthScore s.m_continuousSittingMinutes
            s.m_todayStats.longestSittingSession s.m_todayStats.totalSittingMinutes
            s.m_todayStats.eyeBreaksTaken s.m_todayStats.neckExercisesDone) ∧
      (s.m_todayStats.totalSittingMinutes = 90 → s.m_todayStats.eyeBreaksTaken = 1 →
        s.m_todayStats.neckExercisesDone = 0 →
        |calculateHealthScore s -
            clamp (scoreBaseline s.m_continuousSittingMinutes
              s.m_todayStats.longestSittingSession - 4) 0 100| ≤ 1 / 2 ^ 41 ∧
          (s.m_todayStats.longestSittingSession ≤ 120 →
            calculateHealthScore s =
              clamp (scoreBaseline s.m_continuousSittingMinutes
                s.m_todayStats.longestSittingSession - 4) 0 100) ∧
          (s.m_continuousSittingMinutes ≤ 60 → s.m_todayStats.longestSittingSession ≤ 120 →
            calculateHealthScore s = 96)) := by
  have hr := rules_close s.m_continuousSittingMinutes s.m_todayStats.longestSittingSession
    (Int.tdiv s.m_todayStats.totalSittingMinutes 30 -
      (s.m_todayStats.eyeBreaksTaken + s.m_todayStats.neckExercisesDone))
  rw [← deductBreaks_of_fit _ _ _ _ hfit, ← calculateHealthScore_rules,
    Int.tdiv_eq_ediv hT (by norm_num), ← referenceHealthScore_rules] at hr
  refine ⟨hr.1, hr.2, fun h90 he hn => ?_⟩
  have h4 : referenceHealthScore s.m_continuousSittingMinutes
      s.m_todayStats.longestSittingSession s.m_todayStats.totalSittingMinutes
      s.m_todayStats.eyeBreaksTaken s.m_todayStats.neckExercisesDone =
      clamp (scoreBaseline s.m_continuousSittingMinutes
        s.m_todayStats.longestSittingSession - 4) 0 100 := by
    unfold referenceHealthScore
    rw [h90, he, hn]
    norm_num
  rw [← h4]
  refine ⟨hr.1, hr.2, fun hc hL => ?_⟩
  rw [hr.2 hL, h4]
  unfold clamp scoreBaseline
  rw [max_zero_sub_cast, max_zero_sub_cast, if_neg (by omega), if_neg (by omega)]
  norm_num

/-- Witness for C2, amended: the state of the scenario, with `T = 90`, `e = 1`,
`n = 0`, `c = 40`, `L = 50`, scores 96. -/
theorem calculateHealthScore_eq_reference_witness :
    calculateHealthScore scenarioEngine = 96 :=
  ((calculateHealthScore_eq_reference scenarioEngine (by decide) (by decide)).2.2
    rfl rfl rfl).2.2 (by decide) (by decide)

/-! ### The check slots -/

/-- Truncated division by 1000 through floor division. -/
theorem tdiv_1000 (a : Int) :
    Int.tdiv a 1000 = if 0 ≤ a then a / 1000 else -((-a) / 1000) := by
  split_ifs with h
  · exact Int.tdiv_eq_ediv h (by norm_num)
  · have h1 : a = -(-a) := by ring
    rw [h1, Int.neg_tdiv, Int.tdiv_eq_ediv (by omega) (by norm_num), neg_neg]

/-- Truncated division by 60 through floor division. -/
theorem tdiv_60 (a : Int) :
    Int.tdiv a 60 = if 0 ≤ a then a / 60 else -((-a) / 60) := by
  split_ifs with h
  · exact Int.tdiv_eq_ediv h (by norm_num)
  · have h1 : a = -(-a) := by ring
    rw [h1, Int.neg_tdiv, Int.tdiv_eq_ediv (by omega) (by norm_num), neg_neg]

/-- The whole minutes in `d` milliseconds, truncated towards zero in two
steps as the check slots do, through floor division. -/
theorem tdiv_minutes (d : Int) :
    Int.tdiv (Int.tdiv d 1000) 60 = if 0 ≤ d then d / 60000 else -((-d) / 60000) := by
  rw [tdiv_1000]
  split_ifs with h
  · rw [tdiv_60, if_pos (by omega)]
    omega
  · rw [tdiv_60]
    split_ifs <;> omega

/-- The whole minutes between two instants fit a 32-bit `int` exactly when the
later one is less than `2^31` minutes after, and less than `2^31 + 1` minutes
before, the earlier one. -/
theorem fitsInt32_minutes_iff (last now : Int) :
    fitsInt32 (Int.tdiv (secsTo last now) 60) ↔
      last - now < 2147483649 * 60000 ∧ now - last < 2147483648 * 60000 := by
  unfold fitsInt32 secsTo
  rw [tdiv_minutes]
  split_ifs <;> omega

/-- The output of `checkSittingTime` is the specified one. -/
theorem checkSittingTime_signals (s : HealthEngine) (now : QDateTime) :
    (checkSittingTime s now).2 = expectedTick s .SittingTooLong s.m_lastSittingBreak now := by
  obtain ⟨t0, t1, t2, t3, paused, pend, cfgs, stats, cont, act⟩ := s
  unfold checkSittingTime expectedTick isDue dueUnpaused minutesSince pauseInForce getReminderConfig
    configsIndex
  cases paused <;> cases act <;> cases hc : cfgs .SittingTooLong <;>
    by_cases h1 : now < pend <;>
    simp [hc, h1] <;> split_ifs <;> simp_all

/-- The output of `checkEyeRest` is the specified one. -/
theorem checkEyeRest_signals (s : HealthEngine) (now : QDateTime) :
    (checkEyeRest s now).2 = expectedTick s .EyeRest s.m_lastEyeBreak now := by
  obtain ⟨t0, t1, t2, t3, paused, pend, cfgs, stats, cont, act⟩ := s
  unfold checkEyeRest expectedTick isDue dueUnpaused minutesSince pauseInForce getReminderConfig
    configsIndex
  cases paused <;> cases act <;> cases hc : cfgs .EyeRest <;>
    by_cases h1 : now < pend <;>
    simp [hc, h1] <;> split_ifs <;> simp_all

/-- The output of `checkNeckExercise` is the specified one. -/
theorem checkNeckExercise_signals (s : HealthEngine) (now : QDateTime) :
    (checkNeckExercise s now).2 = expectedTick s .NeckExercise s.m_lastNeckExercise now := by
  obtain ⟨t0, t1, t2, t3, paused, pend, cfgs, stats, cont, act⟩ := s
  unfold checkNeckExercise expectedTick isDue dueUnpaused minutesSince pauseInForce getReminderConfig
    configsIndex
  cases paused <;> cases act <;> cases hc : cfgs .NeckExercise <;>
    by_cases h1 : now < pend <;>
    simp [hc, h1] <;> split_ifs <;> simp_all

/-- Reading a key through `operator[]` leaves the settings read for every kind
as they were. -/
theorem configsIndex_getD (m : ReminderType → Option ReminderConfig) (k j : ReminderType) :
    ((configsIndex m k).1 j).getD {} = (m j).getD {} := by
  unfold configsIndex
  cases hc : m k with
  | some c => rfl
  | none =>
    by_cases hj : j = k
    · subst hj
      simp [hc]
    · simp [Function.update_noteq hj]

/-- Frame of `checkSittingTime`. -/
theorem checkSittingTime_frame (s : HealthEngine) (now : QDateTime) :
    sameButConfigs s (checkSittingTime s now).1 := by
  have hcfg := configsIndex_getD s.m_configs .SittingTooLong
  unfold checkSittingTime sameButConfigs getReminderConfig
  dsimp only
  split_ifs <;> simp [hcfg]

/-- Frame of `checkEyeRest`. -/
theorem checkEyeRest_frame (s : HealthEngine) (now : QDateTime) :
    sameButConfigs s (checkEyeRest s now).1 := by
  have hcfg := configsIndex_getD s.m_configs .EyeRest
  unfold checkEyeRest sameButConfigs getReminderConfig
  dsimp only
  split_ifs <;> simp [hcfg]

/-- Frame of `checkNeckExercise`. -/
theorem checkNeckExercise_frame (s : HealthEngine) (now : QDateTime) :
    sameButConfigs s (checkNeckExercise s now).1 := by
  have hcfg := configsIndex_getD s.m_configs .NeckExercise
  unfold checkNeckExercise sameButConfigs getReminderConfig
  dsimp only
  split_ifs <;> simp [hcfg]

/-- A call other than `pauseReminders` leaves the pause flag and the end of
the pause as they were. -/
theorem step_pause_fields (s : HealthEngine) (op : Op) (h : op.isPause = false) :
    (step s op).1.m_remindersPaused = s.m_remindersPaused ∧
      (step s op).1.m_pauseEndTime = s.m_pauseEndTime := by
  cases op with
  | start now => exact ⟨rfl, rfl⟩
  | configureReminder type config => exact ⟨rfl, rfl⟩
  | takeBreak type now => cases type <;> exact ⟨rfl, rfl⟩
  | pauseReminders minutes now => simp [Op.isPause] at h
  | onActivityDetected data =>
    unfold step onActivityDetected
    dsimp only
    split_ifs <;> exact ⟨rfl, rfl⟩
  | checkSittingTime now =>
    have hf := checkSittingTime_frame s now
    exact ⟨hf.2.2.2.2.1, hf.2.2.2.2.2.1⟩
  | checkEyeRest now =>
    have hf := checkEyeRest_frame s now
    exact ⟨hf.2.2.2.2.1, hf.2.2.2.2.2.1⟩
  | checkNeckExercise now =>
    have hf := checkNeckExercise_frame s now
    exact ⟨hf.2.2.2.2.1, hf.2.2.2.2.2.1⟩
  | updateHealthScore => exact ⟨rfl, rfl⟩

/-- A sequence of calls without `pauseReminders` leaves the pause flag and the
end of the pause as they were. -/
theorem run_pause_fields (ops : List Op) :
    ∀ s : HealthEngine, (∀ op ∈ ops, op.isPause = false) →
      (run s ops).m_remindersPaused = s.m_remindersPaused ∧
        (run s ops).m_pauseEndTime = s.m_pauseEndTime := by
  induction ops with
  | nil => intro s _; exact ⟨rfl, rfl⟩
  | cons op ops ih =>
    intro s h
    have h1 := step_pause_fields s op (h op (List.mem_cons_self _ _))
    have h2 := ih (step s op).1 (fun o ho => h o (List.mem_cons_of_mem _ ho))
    unfold run
    exact ⟨h2.1.trans h1.1, h2.2.trans h1.2⟩

/-- While a pause is in force the specified output is empty. -/
theorem expectedTick_paused (s : HealthEngine) (type : ReminderType) (last now : QDateTime)
    (h : pauseInForce s now) : expectedTick s type last now = [] := by
  unfold expectedTick isDue
  rw [if_neg]
  exact fun hd => hd.1 h

/-- With no pause in force the specified output depends on the other
conditions alone. -/
theorem expectedTick_unpaused (s : HealthEngine) (type : ReminderType) (last now : QDateTime)
    (h : ¬ pauseInForce s now) :
    expectedTick s type last now = expectedUnpaused s type last now := by
  unfold expectedTick expectedUnpaused isDue
  by_cases hd : dueUnpaused s (getReminderConfig s type) last now
  · rw [if_pos ⟨h, hd⟩, if_pos hd]
  · rw [if_neg (fun hh => hd hh.2), if_neg hd]

/-- With the elapsed minutes in the range of a 32-bit `int`, the specified
output is the one with the unbounded quotient. -/
theorem expectedTick_of_fits (s : HealthEngine) (type : ReminderType) (last now : QDateTime)
    (h : fitsInt32 (Int.tdiv (secsTo last now) 60)) :
    expectedTick s type last now = expectedTickUnbounded s type last now := by
  unfold expectedTick expectedTickUnbounded isDue isDueUnbounded dueUnpaused minutesSince
  simp only [toInt32_of_fits _ h]

/-- Counterexample to C3 as stated: in the scenario state (no pause,
SittingTooLong enabled with interval 30, latest sample active, last sitting
break at 0) a check `2^31` minutes later meets every condition of the claim,
the seconds elapsed divided by 60 being `2^31`, far beyond 30; yet
`checkSittingTime` emits nothing, because the `int` that holds the minutes
reads `-2^31`. -/
theorem check_tick_emits_counterexample :
    isDueUnbounded scenarioEngine (getReminderConfig scenarioEngine .SittingTooLong)
        scenarioEngine.m_lastSittingBreak (2147483648 * 60000) ∧
      Int.tdiv (secsTo scenarioEngine.m_lastSittingBreak (2147483648 * 60000)) 60 =
        2147483648 ∧
      (checkSittingTime scenarioEngine (2147483648 * 60000)).2 = [] := by
  decide

/-- C3, amended: a check tick for SittingTooLong, EyeRest or NeckExercise emits
exactly one `reminderTriggered` with the kind's message and suggestion when no
pause is in force, the kind is enabled, the latest sample was active and the
seconds since the kind's last break divided by 60, as stored in a 32-bit `int`,
reach the interval; otherwise it emits nothing. Whenever that quotient lies in
the range of an `int` (the check is less than `2^31` minutes after, and less
than `2^31 + 1` minutes before, the last break) this is the condition with the
plain quotient. In the scenario (interval 30, last break 31 minutes before
`now`, active, enabled, not paused) exactly one SittingTooLong reminder is
emitted. -/
theorem check_tick_emits (s : HealthEngine) (now : QDateTime) :
    (checkSittingTime s now).2 = expectedTick s .SittingTooLong s.m_lastSittingBreak now ∧
      (checkEyeRest s now).2 = expectedTick s .EyeRest s.m_lastEyeBreak now ∧
      (checkNeckExercise s now).2 =
        expectedTick s .NeckExercise s.m_lastNeckExercise now ∧
      (fitsInt32 (Int.tdiv (secsTo s.m_lastSittingBreak now) 60) →
        (checkSittingTime s now).2 =
          expectedTickUnbounded s .SittingTooLong s.m_lastSittingBreak now) ∧
      (fitsInt32 (Int.tdiv (secsTo s.m_lastEyeBreak now) 60) →
        (checkEyeRest s now).2 = expectedTickUnbounded s .EyeRest s.m_lastEyeBreak now) ∧
      (fitsInt32 (Int.tdiv (secsTo s.m_lastNeckExercise now) 60) →
        (checkNeckExercise s now).2 =
          expectedTickUnbounded s .NeckExercise s.m_lastNeckExercise now) ∧
      ((getReminderConfig s .SittingTooLong).intervalMinutes = 30 →
        (getReminderConfig s .SittingTooLong).enabled = true →
        s.m_lastSittingBreak = now - 31 * 60000 →
        s.m_isCurrentlyActive = true →
        ¬ pauseInForce s now →
        (checkSittingTime s now).2 =
          [Signal.reminderTriggered .SittingTooLong
            (getReminderConfig s .SittingTooLong).message
            (getReminderConfig s .SittingTooLong).suggestion]) ∧
      (∀ last : QDateTime,
        fitsInt32 (Int.tdiv (secsTo last now) 60) ↔
          last - now < 2147483649 * 60000 ∧ now - last < 2147483648 * 60000) := by
  refine ⟨checkSittingTime_signals s now, checkEyeRest_signals s now,
    checkNeckExercise_signals s now, fun hf => ?_, fun hf => ?_, fun hf => ?_,
    fun hi he hl ha hp => ?_, fun last => fitsInt32_minutes_iff last now⟩
  · rw [checkSittingTime_signals, expectedTick_of_fits _ _ _ _ hf]
  · rw [checkEyeRest_signals, expectedTick_of_fits _ _ _ _ hf]
  · rw [checkNeckExercise_signals, expectedTick_of_fits _ _ _ _ hf]
  · rw [checkSittingTime_signals]
    unfold expectedTick
    rw [if_pos]
    refine ⟨hp, he, ha, ?_⟩
    rw [hi, hl]
    unfold minutesSince secsTo
    have h : now - (now - 31 * 60000) = 1860000 := by ring
    rw [h]
    decide

/-- Witness for C3, amended: the scenario state, last sitting break at 0,
checked 31 minutes later. -/
theorem check_tick_emits_witness :
    (checkSittingTime scenarioEngine 1860000).2 =
      [Signal.reminderTriggered .SittingTooLong
        (getReminderConfig scenarioEngine .SittingTooLong).message
        (getReminderConfig scenarioEngine .SittingTooLong).suggestion] :=
  (check_tick_emits scenarioEngine 1860000).2.2.2.2.2.2.1 rfl rfl (by decide) rfl
    (by unfold pauseInForce; decide)

/-- Counterexample to C4 as stated: the scenario state, its sitting reminder
due, is paused at 1860000 for 35791395 minutes; a check at that same instant
lies before the end of the pause that the claim names, and yet the reminder is
emitted: the `int` product `35791395 * 60` reads `-2147483596`, so the stored
end of the pause lies in the past. -/
theorem pause_suppresses_counterexample :
    (1860000 : Int) < 1860000 + 35791395 * 60000 ∧
      toInt32 (35791395 * 60) = -2147483596 ∧
      (pauseReminders scenarioEngine 35791395 1860000).1.m_pauseEndTime =
        1860000 - 2147483596 * 1000 ∧
      (checkSittingTime (pauseReminders scenarioEngine 35791395 1860000).1 1860000).2 =
        [Signal.reminderTriggered .SittingTooLong
          (getReminderConfig scenarioEngine .SittingTooLong).message
          (getReminderConfig scenarioEngine .SittingTooLong).suggestion] := by
  decide

/-- C4, amended: after `pauseReminders(m)` at time `t` with `m * 60` in the
range of a 32-bit `int` (`m` from -35791394 to 35791394), and whatever calls
other than `pauseReminders` follow, a check tick of any kind at a time before
`t + m` minutes emits nothing, and a check tick at or after `t + m` minutes is
not held back by the pause: it emits the reminder exactly when the kind is
enabled, the latest sample active and the interval elapsed. -/
theorem pause_suppresses_until_end (s : HealthEngine) (m : Int) (t t1 : QDateTime)
    (ops : List Op) (hm : fitsInt32 (m * 60)) (hops : ∀ op ∈ ops, op.isPause = false) :
    (t1 < t + m * 60000 →
        (checkSittingTime (run (pauseReminders s m t).1 ops) t1).2 = [] ∧
        (checkEyeRest (run (pauseReminders s m t).1 ops) t1).2 = [] ∧
        (checkNeckExercise (run (pauseReminders s m t).1 ops) t1).2 = []) ∧
      (t + m * 60000 ≤ t1 →
        (checkSittingTime (run (pauseReminders s m t).1 ops) t1).2 =
          expectedUnpaused (run (pauseReminders s m t).1 ops) .SittingTooLong
            (run (pauseReminders s m t).1 ops).m_lastSittingBreak t1 ∧
        (checkEyeRest (run (pauseReminders s m t).1 ops) t1).2 =
          expectedUnpaused (run (pauseReminders s m t).1 ops) .EyeRest
            (run (pauseReminders s m t).1 ops).m_lastEyeBreak t1 ∧
        (checkNeckExercise (run (pauseReminders s m t).1 ops) t1).2 =
          expectedUnpaused (run (pauseReminders s m t).1 ops) .NeckExercise
            (run (pauseReminders s m t).1 ops).m_lastNeckExercise t1) ∧
      (fitsInt32 (m * 60) ↔ -35791394 ≤ m ∧ m ≤ 35791394) := by
  have hp := run_pause_fields ops (pauseReminders s m t).1 hops
  have hend : (run (pauseReminders s m t).1 ops).m_pauseEndTime = t + m * 60000 := by
    rw [hp.2]
    show addSecs t (toInt32 (m * 60)) = t + m * 60000
    rw [toInt32_of_fits _ hm]
    unfold addSecs
    ring
  have hflag : (run (pauseReminders s m t).1 ops).m_remindersPaused = true := by
    rw [hp.1]
    rfl
  refine ⟨?_, ?_, ?_⟩
  · intro hlt
    have hin : pauseInForce (run (pauseReminders s m t).1 ops) t1 :=
      ⟨hflag, by rw [hend]; exact hlt⟩
    rw [checkSittingTime_signals, checkEyeRest_signals, checkNeckExercise_signals]
    exact ⟨expectedTick_paused _ _ _ _ hin, expectedTick_paused _ _ _ _ hin,
      expectedTick_paused _ _ _ _ hin⟩
  · intro hge
    have hout : ¬ pauseInForce (run (pauseReminders s m t).1 ops) t1 := by
      intro h
      have hlt := h.2
      rw [hend] at hlt
      exact absurd hlt (not_lt.mpr hge)
    rw [checkSittingTime_signals, checkEyeRest_signals, checkNeckExercise_signals]
    exact ⟨expectedTick_unpaused _ _ _ _ hout, expectedTick_unpaused _ _ _ _ hout,
      expectedTick_unpaused _ _ _ _ hout⟩
  · unfold fitsInt32
    omega

/-- Witness for C4, amended: the scenario state paused for 10 minutes at
1860000 (its sitting reminder then due), one sample later, checked 5 minutes
into the pause: nothing is emitted. -/
theorem pause_suppresses_until_end_witness :
    (checkSittingTime
        (run (pauseReminders scenarioEngine 10 1860000).1
          [Op.onActivityDetected
            { timestamp := 1861000, mouseClicks := 1, keystrokes := 0, isActive := true,
              activeWindow := "" }])
        2160000).2 = [] :=
  ((pause_suppresses_until_end scenarioEngine 10 1860000 2160000
      [Op.onActivityDetected
        { timestamp := 1861000, mouseClicks := 1, keystrokes := 0, isActive := true,
          activeWindow := "" }]
      (by decide) (by simp [Op.isPause])).1 (by decide)).1

/-- The whole minutes elapsed since `last` do not shrink as time goes on. -/
theorem minutes_mono (last t t1 : Int) (h : t ≤ t1) :
    Int.tdiv (secsTo last t) 60 ≤ Int.tdiv (secsTo last t1) 60 := by
  unfold secsTo
  have hs : Int.tdiv (t - last) 1000 ≤ Int.tdiv (t1 - last) 1000 := by
    rw [tdiv_1000, tdiv_1000]
    split_ifs <;> omega
  revert hs
  generalize Int.tdiv (t - last) 1000 = a
  generalize Int.tdiv (t1 - last) 1000 = b
  intro hs
  rw [tdiv_60, tdiv_60]
  split_ifs <;> omega

/-- The elapsed minutes in the `int` of a check slot do not shrink as time goes
on, from less than `2^31 + 1` minutes before the last break to less than `2^31`
minutes after it. -/
theorem minutesSince_mono (last t t1 : Int) (h : t ≤ t1)
    (hlow : last - t < 2147483649 * 60000) (hhigh : t1 - last < 2147483648 * 60000) :
    minutesSince last t ≤ minutesSince last t1 := by
  unfold minutesSince
  rw [toInt32_of_fits _ ((fitsInt32_minutes_iff last t).mpr ⟨hlow, by omega⟩),
    toInt32_of_fits _ ((fitsInt32_minutes_iff last t1).mpr ⟨by omega, hhigh⟩)]
  exact minutes_mono last t t1 h

/-- Once due, a kind stays due at every later time within the reach of the
`int` that holds the elapsed minutes, while the state is kept. -/
theorem isDue_mono (s : HealthEngine) (cfg : ReminderConfig) (last t t1 : QDateTime)
    (h : t ≤ t1) (hlow : last - t < 2147483649 * 60000)
    (hhigh : t1 - last < 2147483648 * 60000) (hd : isDue s cfg last t) :
    isDue s cfg last t1 := by
  obtain ⟨hp, he, ha, hi⟩ := hd
  refine ⟨fun hp1 => hp ⟨hp1.1, lt_of_le_of_lt h hp1.2⟩, he, ha, ?_⟩
  exact le_trans hi (minutesSince_mono last t t1 h hlow hhigh)

/-- The specified output only depends on what `sameForChecks` compares. -/
theorem expectedTick_congr (s s1 : HealthEngine) (h : sameForChecks s s1)
    (type : ReminderType) (last now : QDateTime) :
    expectedTick s1 type last now = expectedTick s type last now := by
  obtain ⟨-, -, -, hp, hpe, ha, hc⟩ := h
  have hiff : ∀ cfg, isDue s1 cfg last now ↔ isDue s cfg last now := by
    intro cfg
    unfold isDue dueUnpaused pauseInForce
    rw [hp, hpe, ha]
  unfold expectedTick
  simp only [hc]
  by_cases hd : isDue s (getReminderConfig s type) last now
  · rw [if_pos hd, if_pos ((hiff _).mpr hd)]
  · rw [if_neg hd, if_neg (fun hh => hd ((hiff _).mp hh))]

/-- A timer tick changes nothing that a check tick reads. -/
theorem step_tick_sameForChecks (s : HealthEngine) (op : Op) (h : op.isTick = true) :
    sameForChecks s (step s op).1 := by
  cases op with
  | start now => simp [Op.isTick] at h
  | configureReminder type config => simp [Op.isTick] at h
  | takeBreak type now => simp [Op.isTick] at h
  | pauseReminders minutes now => simp [Op.isTick] at h
  | onActivityDetected data => simp [Op.isTick] at h
  | checkSittingTime now =>
    obtain ⟨-, h1, h2, h3, h4, h5, -, -, h8, h9⟩ := checkSittingTime_frame s now
    exact ⟨h1, h2, h3, h4, h5, h8, h9⟩
  | checkEyeRest now =>
    obtain ⟨-, h1, h2, h3, h4, h5, -, -, h8, h9⟩ := checkEyeRest_frame s now
    exact ⟨h1, h2, h3, h4, h5, h8, h9⟩
  | checkNeckExercise now =>
    obtain ⟨-, h1, h2, h3, h4, h5, -, -, h8, h9⟩ := checkNeckExercise_frame s now
    exact ⟨h1, h2, h3, h4, h5, h8, h9⟩
  | updateHealthScore => exact ⟨rfl, rfl, rfl, rfl, rfl, rfl, fun _ => rfl⟩

/-- A sequence of timer ticks changes nothing that a check tick reads. -/
theorem run_ticks_sameForChecks (ops : List Op) :
    ∀ s : HealthEngine, (∀ op ∈ ops, op.isTick = true) → sameForChecks s (run s ops) := by
  induction ops with
  | nil => intro s _; exact ⟨rfl, rfl, rfl, rfl, rfl, rfl, fun _ => rfl⟩
  | cons op ops ih =>
    intro s h
    obtain ⟨a1, a2, a3, a4, a5, a6, a7⟩ :=
      step_tick_sameForChecks s op (h op (List.mem_cons_self _ _))
    obtain ⟨b1, b2, b3, b4, b5, b6, b7⟩ :=
      ih (step s op).1 (fun o ho => h o (List.mem_cons_of_mem _ ho))
    unfold run
    exact ⟨b1.trans a1, b2.trans a2, b3.trans a3, b4.trans a4, b5.trans a5, b6.trans a6,
      fun j => (b7 j).trans (a7 j)⟩

/-- A specified output that is not empty was due, and is the same at every
later time within the reach of the `int` that holds the elapsed minutes. -/
theorem expectedTick_later (s : HealthEngine) (type : ReminderType) (last t t1 : QDateTime)
    (h : t ≤ t1) (hlow : last - t < 2147483649 * 60000)
    (hhigh : t1 - last < 2147483648 * 60000) (hf : expectedTick s type last t ≠ []) :
    expectedTick s type last t1 = expectedTick s type last t := by
  unfold expectedTick at hf ⊢
  by_cases hd : isDue s (getReminderConfig s type) last t
  · rw [if_pos hd, if_pos (isDue_mono s _ last t t1 h hlow hhigh hd)]
  · rw [if_neg hd] at hf
    exact absurd rfl hf

/-- Counterexample to C6 as stated: in the scenario state the sitting check
fires at 1860000, 31 minutes after the last break; nothing else happens, and
the later sitting check `2^31` minutes after the last break emits nothing,
because the `int` that holds the elapsed minutes reads `-2^31`. -/
theorem check_tick_refire_counterexample :
    (checkSittingTime scenarioEngine 1860000).2 =
        [Signal.reminderTriggered .SittingTooLong
          (getReminderConfig scenarioEngine .SittingTooLong).message
          (getReminderConfig scenarioEngine .SittingTooLong).suggestion] ∧
      (1860000 : Int) ≤ 2147483648 * 60000 ∧
      (checkSittingTime (run (checkSittingTime scenarioEngine 1860000).1 [])
        (2147483648 * 60000)).2 = [] := by
  decide

/-- C6, amended: a check tick modifies no time stamp of any kind, no DailyStats
counter, not `continuousActiveMinutes` and not the pause state; so when a check
for a kind fires at `t` and only timer ticks follow (no break, pause,
configuration change or sample), every later check for that kind at a time
from `t` on and less than `2^31` minutes after the kind's last break fires
again, with the same reminder (the last break lying less than `2^31 + 1`
minutes after `t`, as it does whenever it lies in the past). -/
theorem check_tick_frame_and_refire (s : HealthEngine) (t t1 : QDateTime) (ops : List Op)
    (hops : ∀ op ∈ ops, op.isTick = true) (ht : t ≤ t1) :
    (sameButConfigs s (checkSittingTime s t).1 ∧ sameButConfigs s (checkEyeRest s t).1 ∧
        sameButConfigs s (checkNeckExercise s t).1) ∧
      ((checkSittingTime s t).2 ≠ [] →
        s.m_lastSittingBreak - t < 2147483649 * 60000 →
        t1 - s.m_lastSittingBreak < 2147483648 * 60000 →
        (checkSittingTime (run (checkSittingTime s t).1 ops) t1).2 =
          (checkSittingTime s t).2) ∧
      ((checkEyeRest s t).2 ≠ [] →
        s.m_lastEyeBreak - t < 2147483649 * 60000 →
        t1 - s.m_lastEyeBreak < 2147483648 * 60000 →
        (checkEyeRest (run (checkEyeRest s t).1 ops) t1).2 = (checkEyeRest s t).2) ∧
      ((checkNeckExercise s t).2 ≠ [] →
        s.m_lastNeckExercise - t < 2147483649 * 60000 →
        t1 - s.m_lastNeckExercise < 2147483648 * 60000 →
        (checkNeckExercise (run (checkNeckExercise s t).1 ops) t1).2 =
          (checkNeckExercise s t).2) := by
  refine ⟨⟨checkSittingTime_frame s t, checkEyeRest_frame s t, checkNeckExercise_frame s t⟩,
    fun hf hlow hhigh => ?_, fun hf hlow hhigh => ?_, fun hf hlow hhigh => ?_⟩
  · have h1 := step_tick_sameForChecks s (.checkSittingTime t) rfl
    have h2 := run_ticks_sameForChecks ops (checkSittingTime s t).1 hops
    rw [checkSittingTime_signals] at hf ⊢
    rw [checkSittingTime_signals, expectedTick_congr _ _ h2, h2.1]
    have h1b : sameForChecks s (checkSittingTime s t).1 := h1
    rw [expectedTick_congr _ _ h1b, h1b.1]
    exact expectedTick_later s _ _ t t1 ht hlow hhigh hf
  · have h1 := step_tick_sameForChecks s (.checkEyeRest t) rfl
    have h2 := run_ticks_sameForChecks ops (checkEyeRest s t).1 hops
    rw [checkEyeRest_signals] at hf ⊢
    rw [checkEyeRest_signals, expectedTick_congr _ _ h2, h2.2.1]
    have h1b : sameForChecks s (checkEyeRest s t).1 := h1
    rw [expectedTick_congr _ _ h1b, h1b.2.1]
    exact expectedTick_later s _ _ t t1 ht hlow hhigh hf
  · have h1 := step_tick_sameForChecks s (.checkNeckExercise t) rfl
    have h2 := run_ticks_sameForChecks ops (checkNeckExercise s t).1 hops
    rw [checkNeckExercise_signals] at hf ⊢
    rw [checkNeckExercise_signals, expectedTick_congr _ _ h2, h2.2.2.1]
    have h1b : sameForChecks s (checkNeckExercise s t).1 := h1
    rw [expectedTick_congr _ _ h1b, h1b.2.2.1]
    exact expectedTick_later s _ _ t t1 ht hlow hhigh hf

/-- Witness for C6, amended: the sitting reminder fires in the scenario state
at 1860000; after an EyeRest tick and a statistics tick it fires again at
1920000. -/
theorem check_tick_frame_and_refire_witness :
    (checkSittingTime
        (run (checkSittingTime scenarioEngine 1860000).1
          [Op.checkEyeRest 1900000, Op.updateHealthScore])
        1920000).2 = (checkSittingTime scenarioEngine 1860000).2 :=
  (check_tick_frame_and_refire scenarioEngine 1860000 1920000
      [Op.checkEyeRest 1900000, Op.updateHealthScore] (by simp [Op.isTick])
      (by decide)).2.1
    (by rw [checkSittingTime_signals]; decide) (by decide) (by decide)

/-- More than 30 whole seconds lie between two instants exactly when they are
at least 31000 milliseconds apart. -/
theorem secsTo_gt_30_iff (a b : Int) : secsTo a b > 30 ↔ 31000 ≤ b - a := by
  unfold secsTo
  rw [tdiv_1000]
  split_ifs <;> omega

/-- A poll without new activity on an inactive sampler emits nothing and
leaves it inactive. -/
theorem checkActivity_inactive_quiet (m : ActivityMonitor) (p : Poll)
    (hi : m.m_isActive = false) (hq : hasNewActivity m p = false) :
    (checkActivity m p).1.m_isActive = false ∧ (checkActivity m p).2 = [] := by
  unfold checkActivity
  simp [hq, hi]

/-- Counterexample to C10 as stated: the sampler is active, the poll observes
no new activity 30.5 seconds after the last activity (more than 30 seconds),
and yet the sampler stays active and raises no `userBecameInactive`. -/
theorem idle_timeout_counterexample :
    activeMonitor.m_isActive = true ∧
      hasNewActivity activeMonitor
        { now := 30500, mouseClicks := 1, keystrokes := 0, activeWindow := "" } = false ∧
      (30500 : Int) - activeMonitor.m_lastActivityTime > 30 * 1000 ∧
      (checkActivity activeMonitor
        { now := 30500, mouseClicks := 1, keystrokes := 0, activeWindow := "" }).1.m_isActive
          = true ∧
      (checkActivity activeMonitor
        { now := 30500, mouseClicks := 1, keystrokes := 0, activeWindow := "" }).2 = [] := by
  decide

/-- An inactive sampler stays inactive and raises nothing over a sequence of
polls without new activity. -/
theorem runPolls_inactive_quiet (ps : List Poll) :
    ∀ m : ActivityMonitor, m.m_isActive = false → quietPolls m ps →
      (runPolls m ps).1.m_isActive = false ∧ (runPolls m ps).2 = [] := by
  induction ps with
  | nil => intro m hi _; exact ⟨hi, rfl⟩
  | cons q qs ih =>
    intro m hi hq
    obtain ⟨h1, h2⟩ := checkActivity_inactive_quiet m q hi hq.1
    obtain ⟨h3, h4⟩ := ih (checkActivity m q).1 h1 hq.2
    unfold runPolls
    exact ⟨h3, by rw [h2, h4]; rfl⟩

/-- A poll without new activity leaves the time of the last activity as it
was. -/
theorem checkActivity_quiet_stamp (m : ActivityMonitor) (p : Poll)
    (hq : hasNewActivity m p = false) :
    (checkActivity m p).1.m_lastActivityTime = m.m_lastActivityTime := by
  unfold checkActivity
  simp only [hq, Bool.false_eq_true, if_false]
  split_ifs <;> rfl

/-- A poll with new activity leaves the sampler active, the time of the last
activity being the time of the poll. -/
theorem checkActivity_active_stamp (m : ActivityMonitor) (p : Poll)
    (hn : hasNewActivity m p = true) :
    (checkActivity m p).1.m_isActive = true ∧
      (checkActivity m p).1.m_lastActivityTime = p.now := by
  unfold checkActivity
  cases ha : m.m_isActive <;> simp [hn]

/-- Over a sequence of polls without new activity an active sampler raises
`userBecameInactive` exactly once if some poll comes 31 seconds or more after
the last activity, and not at all otherwise; it ends inactive in the first case
only, and the time of the last activity stays as it was. -/
theorem runPolls_active_quiet (ps : List Poll) :
    ∀ m : ActivityMonitor, m.m_isActive = true → quietPolls m ps →
      (runPolls m ps).2 =
          (if ∃ q ∈ ps, 31000 ≤ q.now - m.m_lastActivityTime then
            [MonitorSignal.userBecameInactive]
          else []) ∧
        ((runPolls m ps).1.m_isActive = false ↔
          ∃ q ∈ ps, 31000 ≤ q.now - m.m_lastActivityTime) := by
  induction ps with
  | nil =>
    intro m ha _
    simp [runPolls, ha]
  | cons q qs ih =>
    intro m ha hq
    obtain ⟨hq1, hq2⟩ := hq
    have hstamp := checkActivity_quiet_stamp m q hq1
    by_cases hgap : 31000 ≤ q.now - m.m_lastActivityTime
    · have hs : secsTo m.m_lastActivityTime q.now > 30 := (secsTo_gt_30_iff _ _).mpr hgap
      have h1 : (checkActivity m q).1.m_isActive = false ∧
          (checkActivity m q).2 = [MonitorSignal.userBecameInactive] := by
        unfold checkActivity
        simp [hq1, ha, hs]
      obtain ⟨h3, h4⟩ := runPolls_inactive_quiet qs (checkActivity m q).1 h1.1 hq2
      have hex : ∃ r ∈ q :: qs, 31000 ≤ r.now - m.m_lastActivityTime :=
        ⟨q, List.mem_cons_self _ _, hgap⟩
      unfold runPolls
      rw [if_pos hex, h1.2, h4]
      exact ⟨rfl, ⟨fun _ => hex, fun _ => h3⟩⟩
    · have hs : ¬ secsTo m.m_lastActivityTime q.now > 30 :=
        fun h => hgap ((secsTo_gt_30_iff _ _).mp h)
      have h1 : (checkActivity m q).1.m_isActive = true ∧ (checkActivity m q).2 = [] := by
        unfold checkActivity
        simp [hq1, ha, hs]
      obtain ⟨h3, h4⟩ := ih (checkActivity m q).1 h1.1 hq2
      rw [hstamp] at h3 h4
      have hiff : (∃ r ∈ q :: qs, 31000 ≤ r.now - m.m_lastActivityTime) ↔
          ∃ r ∈ qs, 31000 ≤ r.now - m.m_lastActivityTime := by
        constructor
        · rintro ⟨r, hr, hg⟩
          rcases List.mem_cons.mp hr with rfl | hr1
          · exact absurd hg hgap
          · exact ⟨r, hr1, hg⟩
        · rintro ⟨r, hr, hg⟩
          exact ⟨r, List.mem_cons_of_mem _ hr, hg⟩
      unfold runPolls
      simp only [hiff]
      rw [h1.2, h3]
      exact ⟨rfl, h4⟩

/-- C10, amended: for every sequence of polls, on a poll without new activity
an active sampler becomes inactive and raises exactly one `userBecameInactive`
when at least 31 seconds have passed since the last activity (the whole seconds
elapsed exceed 30), and stays active and raises nothing when fewer than 31
seconds have passed; an inactive sampler stays inactive and raises nothing over
every following sequence of polls without new activity. The time of the last
activity is not moved by a poll without new activity, so over every sequence of
polls without new activity, from an active sampler or after a poll that
observed activity, `userBecameInactive` is raised exactly once if some poll
comes 31 seconds or more after the last activity, and never otherwise. -/
theorem idle_timeout_whole_seconds (m : ActivityMonitor) (p : Poll) :
    (m.m_isActive = true → hasNewActivity m p = false →
        31000 ≤ p.now - m.m_lastActivityTime →
        (checkActivity m p).1.m_isActive = false ∧
          (checkActivity m p).2 = [MonitorSignal.userBecameInactive]) ∧
      (m.m_isActive = true → hasNewActivity m p = false →
        p.now - m.m_lastActivityTime < 31000 →
        (checkActivity m p).1.m_isActive = true ∧ (checkActivity m p).2 = []) ∧
      (∀ ps : List Poll, m.m_isActive = false → quietPolls m ps →
        (runPolls m ps).1.m_isActive = false ∧ (runPolls m ps).2 = []) ∧
      (hasNewActivity m p = false →
        (checkActivity m p).1.m_lastActivityTime = m.m_lastActivityTime) ∧
      (∀ ps : List Poll, m.m_isActive = true → quietPolls m ps →
        (runPolls m ps).2 =
            (if ∃ q ∈ ps, 31000 ≤ q.now - m.m_lastActivityTime then
              [MonitorSignal.userBecameInactive]
            else []) ∧
          ((runPolls m ps).1.m_isActive = false ↔
            ∃ q ∈ ps, 31000 ≤ q.now - m.m_lastActivityTime)) ∧
      (∀ qs : List Poll, hasNewActivity m p = true → quietPolls (checkActivity m p).1 qs →
        (runPolls (checkActivity m p).1 qs).2 =
            (if ∃ q ∈ qs, 31000 ≤ q.now - p.now then [MonitorSignal.userBecameInactive]
            else []) ∧
          ((runPolls (checkActivity m p).1 qs).1.m_isActive = false ↔
            ∃ q ∈ qs, 31000 ≤ q.now - p.now)) := by
  refine ⟨fun ha hq hgap => ?_, fun ha hq hgap => ?_, fun ps => runPolls_inactive_quiet ps m,
    checkActivity_quiet_stamp m p, fun ps => runPolls_active_quiet ps m, fun qs hn hq => ?_⟩
  · have hs : secsTo m.m_lastActivityTime p.now > 30 := (secsTo_gt_30_iff _ _).mpr hgap
    unfold checkActivity
    simp [hq, ha, hs]
  · have hs : ¬ secsTo m.m_lastActivityTime p.now > 30 :=
      fun h => absurd ((secsTo_gt_30_iff _ _).mp h) (not_le.mpr hgap)
    unfold checkActivity
    simp [hq, ha, hs]
  · obtain ⟨h1, h2⟩ := checkActivity_active_stamp m p hn
    have h3 := runPolls_active_quiet qs (checkActivity m p).1 h1 hq
    rw [h2] at h3
    exact h3

/-- Witness for C10, amended: the active sampler, last active at 0, is polled
without new activity at 10, 30.5, 31 and 40 seconds: it raises
`userBecameInactive` once, on the poll at 31 seconds, and ends inactive. -/
theorem idle_timeout_whole_seconds_witness :
    (runPolls activeMonitor
        [{ now := 10000, mouseClicks := 1, keystrokes := 0, activeWindow := "" },
          { now := 30500, mouseClicks := 1, keystrokes := 0, activeWindow := "" },
          { now := 31000, mouseClicks := 1, keystrokes := 0, activeWindow := "" },
          { now := 40000, mouseClicks := 1, keystrokes := 0, activeWindow := "" }]).2 =
        [MonitorSignal.userBecameInactive] ∧
      (checkActivity activeMonitor
        { now := 31000, mouseClicks := 1, keystrokes := 0, activeWindow := "" }).1.m_isActive
          = false :=
  ⟨((idle_timeout_whole_seconds activeMonitor
      { now := 31000, mouseClicks := 1, keystrokes := 0, activeWindow := "" }).2.2.2.2.1
      [{ now := 10000, mouseClicks := 1, keystrokes := 0, activeWindow := "" },
        { now := 30500, mouseClicks := 1, keystrokes := 0, activeWindow := "" },
        { now := 31000, mouseClicks := 1, keystrokes := 0, activeWindow := "" },
        { now := 40000, mouseClicks := 1, keystrokes := 0, activeWindow := "" }]
      (by decide) ⟨by decide, by decide, by decide, by decide, trivial⟩).1.trans
      (if_pos ⟨{ now := 31000, mouseClicks := 1, keystrokes := 0, activeWindow := "" },
        by simp, by decide⟩),
    ((idle_timeout_whole_seconds activeMonitor
      { now := 31000, mouseClicks := 1, keystrokes := 0, activeWindow := "" }).1
      (by decide) (by decide) (by decide)).1⟩

/-- Counterexample to C11 as stated: the active sampler is polled one second
after its click, with unchanged readings; the poll emits no sample at all. -/
theorem poll_without_activity_counterexample :
    hasNewActivity activeMonitor
        { now := 1000, mouseClicks := 1, keystrokes := 0, activeWindow := "" } = false ∧
      samplesOf (checkActivity activeMonitor
        { now := 1000, mouseClicks := 1, keystrokes := 0, activeWindow := "" }).2 = [] := by
  decide

/-- C11, amended: a poll emits exactly one sample when it observes new
activity, with `isActive = true`, the poll time and the poll readings; a poll
that observes no new activity emits no sample, whatever the active state. -/
theorem poll_emits_sample_on_activity_only (m : ActivityMonitor) (p : Poll) :
    samplesOf (checkActivity m p).2 =
      if hasNewActivity m p = true then [activeSample p] else [] := by
  unfold checkActivity activeSample
  cases hn : hasNewActivity m p <;> cases ha : m.m_isActive <;>
    by_cases hs : secsTo m.m_lastActivityTime p.now > 30 <;>
    simp [hs, samplesOf]

/-- C12: `hasNewActivity` holds exactly when the clicks or the keystrokes read
exceed those of the preceding poll. When it holds, the last activity time is
the poll time, the sampler is active afterwards, `userBecameActive` is raised
exactly when the sampler was inactive before, and the one sample emitted has
`isActive = true`. After every poll the remembered readings are the readings of
that poll. -/
theorem poll_with_activity (m : ActivityMonitor) (p : Poll) :
    (hasNewActivity m p = true ↔
        p.mouseClicks > m.lastMouseClicks ∨ p.keystrokes > m.lastKeystrokes) ∧
      (hasNewActivity m p = true →
        (checkActivity m p).1.m_lastActivityTime = p.now ∧
          (checkActivity m p).1.m_isActive = true ∧
          (checkActivity m p).2 =
            (if m.m_isActive = true then [] else [MonitorSignal.userBecameActive]) ++
              [MonitorSignal.activityDetected (activeSample p)] ∧
          (activeSample p).isActive = true) ∧
      (checkActivity m p).1.lastMouseClicks = p.mouseClicks ∧
      (checkActivity m p).1.lastKeystrokes = p.keystrokes := by
  refine ⟨?_, fun hn => ?_, ?_, ?_⟩
  · unfold hasNewActivity
    simp
  · unfold checkActivity activeSample
    cases ha : m.m_isActive <;> simp [hn]
  · unfold checkActivity
    dsimp only
    split_ifs <;> rfl
  · unfold checkActivity
    dsimp only
    split_ifs <;> rfl

/-- Witness for C12: the first click on a fresh sampler raises
`userBecameActive` and then emits the sample. -/
theorem poll_with_activity_witness :
    (checkActivity (ActivityMonitor.construct 0)
        { now := 0, mouseClicks := 1, keystrokes := 0, activeWindow := "" }).2 =
      [MonitorSignal.userBecameActive,
        MonitorSignal.activityDetected
          (activeSample { now := 0, mouseClicks := 1, keystrokes := 0, activeWindow := "" })] :=
  ((poll_with_activity (ActivityMonitor.construct 0)
    { now := 0, mouseClicks := 1, keystrokes := 0, activeWindow := "" }).2.1
    (by decide)).2.2.1

/-- Counterexample to C13 as stated: the freshly constructed config store has
no settings for PostureCheck, and `getReminderConfig` returns them enabled with
a 30-minute interval; the scheduler without settings does the same for
SittingTooLong, and its check fires 30 minutes after the last break. -/
theorem absent_config_counterexample :
    (ConfigManager.construct "").m_reminderConfigs .PostureCheck = none ∧
      (ConfigManager.getReminderConfig (ConfigManager.construct "") .PostureCheck).enabled
        = true ∧
      (ConfigManager.getReminderConfig (ConfigManager.construct "")
        .PostureCheck).intervalMinutes = 30 ∧
      unconfiguredEngine.m_configs .SittingTooLong = none ∧
      (getReminderConfig unconfiguredEngine .SittingTooLong).enabled = true ∧
      (getReminderConfig unconfiguredEngine .SittingTooLong).intervalMinutes = 30 ∧
      (checkSittingTime unconfiguredEngine 1800000).2 =
        [Signal.reminderTriggered .SittingTooLong "" ""] := by
  decide

/-- C13, amended: for a kind without settings `getReminderConfig`, of the
scheduler and of the config store alike, returns the default-constructed
settings: enabled, interval 30 minutes, duration 5 seconds, empty message and
suggestion. A check tick for a kind without settings therefore emits a reminder
with empty texts exactly when no pause is in force, the latest sample was
active and at least 30 minutes, as the slot counts them in its `int`, have
passed since the last break. -/
theorem absent_config_default (s : HealthEngine) (c : ConfigManager) (type : ReminderType)
    (now : QDateTime) :
    (s.m_configs type = none →
        getReminderConfig s type =
          { enabled := true, intervalMinutes := 30, durationSeconds := 5, message := "",
            suggestion := "" }) ∧
      (c.m_reminderConfigs type = none →
        ConfigManager.getReminderConfig c type =
          { enabled := true, intervalMinutes := 30, durationSeconds := 5, message := "",
            suggestion := "" }) ∧
      (s.m_configs .SittingTooLong = none →
        (checkSittingTime s now).2 =
          if ¬ pauseInForce s now ∧ s.m_isCurrentlyActive = true ∧
              30 ≤ minutesSince s.m_lastSittingBreak now then
            [Signal.reminderTriggered .SittingTooLong "" ""]
          else []) ∧
      (s.m_configs .EyeRest = none →
        (checkEyeRest s now).2 =
          if ¬ pauseInForce s now ∧ s.m_isCurrentlyActive = true ∧
              30 ≤ minutesSince s.m_lastEyeBreak now then
            [Signal.reminderTriggered .EyeRest "" ""]
          else []) ∧
      (s.m_configs .NeckExercise = none →
        (checkNeckExercise s now).2 =
          if ¬ pauseInForce s now ∧ s.m_isCurrentlyActive = true ∧
              30 ≤ minutesSince s.m_lastNeckExercise now then
            [Signal.reminderTriggered .NeckExercise "" ""]
          else []) := by
  have key : ∀ (k : ReminderType) (last : QDateTime), s.m_configs k = none →
      expectedTick s k last now =
        if ¬ pauseInForce s now ∧ s.m_isCurrentlyActive = true ∧
            30 ≤ minutesSince last now then
          [Signal.reminderTriggered k "" ""]
        else [] := by
    intro k last hk
    unfold expectedTick isDue dueUnpaused getReminderConfig
    simp [hk]
  refine ⟨fun h => ?_, fun h => ?_, fun h => ?_, fun h => ?_, fun h => ?_⟩
  · unfold getReminderConfig
    rw [h]
    rfl
  · unfold ConfigManager.getReminderConfig
    rw [h]
    rfl
  · rw [checkSittingTime_signals]
    exact key _ _ h
  · rw [checkEyeRest_signals]
    exact key _ _ h
  · rw [checkNeckExercise_signals]
    exact key _ _ h

/-- Witness for C13, amended: the config store as constructed returns the
default-constructed settings for Hydration. -/
theorem absent_config_default_witness :
    ConfigManager.getReminderConfig (ConfigManager.construct "") .Hydration =
      { enabled := true, intervalMinutes := 30, durationSeconds := 5, message := "",
        suggestion := "" } :=
  (absent_config_default unconfiguredEngine (ConfigManager.construct "") .Hydration 0).2.1
    (by decide)

/-- The fold of `getDailyReport` from any starting report: only the active
minutes move, by the number of active records of the day. -/
theorem getDailyReport_fold (date : QDate) (records : List ActivityRecord) :
    ∀ report : DailyReport,
      records.foldl
          (fun report record =>
            if record.timestamp.date = date then
              if record.data.isActive then
                { report with totalActiveMinutes := report.totalActiveMinutes + 1 }
              else report
            else report)
          report =
        { report with
          totalActiveMinutes :=
            report.totalActiveMinutes +
              ((records.filter
                (fun r => decide (r.timestamp.date = date) && r.data.isActive)).length : Int) } := by
  induction records with
  | nil => intro report; simp
  | cons r rs ih =>
    intro report
    rw [List.foldl_cons, ih]
    by_cases hd : r.timestamp.date = date <;> cases ha : r.data.isActive <;>
      (simp [hd, ha, List.filter_cons]; try omega)

/-- C15: the report of `getDailyReport(date)` carries `date`, counts as active
minutes the records of the history whose time stamp falls on `date` and whose
sample is active, and has 0 breaks, 0 longest session and score 0. The method
returns the report only: the history is not touched. -/
theorem getDailyReport_counts (a : DataAnalyzer) (date : QDate) :
    (getDailyReport a date).date = date ∧
      (getDailyReport a date).totalActiveMinutes =
        ((a.m_activityRecords.filter
          (fun r => decide (r.timestamp.date = date) && r.data.isActive)).length : Int) ∧
      (getDailyReport a date).totalBreaks = 0 ∧
      (getDailyReport a date).longestSittingSession = 0 ∧
      (getDailyReport a date).healthScore = 0 := by
  unfold getDailyReport
  dsimp only
  rw [getDailyReport_fold]
  simp

/-- C16: a load from a file whose bytes are no JSON text, or are the JSON text
of something other than an object, changes nothing in the ledger and emits
nothing; a ledger constructed over such a file has an empty activity history
and an empty health-event history. -/
theorem load_malformed_unchanged (a : DataAnalyzer) (f : DataFile) (now invalid : QDateTime)
    (h : ∀ o, f.content ≠ .json (.object o)) :
    loadDataFromFile a f invalid = (a, []) ∧
      (DataAnalyzer.construct now f invalid).1.m_activityRecords = [] ∧
      (DataAnalyzer.construct now f invalid).1.m_healthEvents = [] := by
  have hdoc : (QJsonDocument.fromJson f.content).isObject = false := by
    cases hc : f.content with
    | garbage => rfl
    | json v =>
      cases v with
      | object o => exact absurd hc (h o)
      | _ => rfl
  have key : ∀ b : DataAnalyzer, loadDataFromFile b f invalid = (b, []) := by
    intro b
    unfold loadDataFromFile
    simp [hdoc]
  refine ⟨key a, ?_, ?_⟩
  · unfold DataAnalyzer.construct
    rw [key]
  · unfold DataAnalyzer.construct
    rw [key]

/-- Witness for C16: a load from the corrupt file leaves the sample ledger as
it was. -/
theorem load_malformed_unchanged_witness :
    loadDataFromFile sampleLedger corruptFile 0 = (sampleLedger, []) :=
  (load_malformed_unchanged sampleLedger corruptFile 0 0
    (fun _ hc => QByteArray.noConfusion hc)).1

/-- A reminder in the specified output of a check is of the kind checked. -/
theorem mem_expectedTick_kind (s : HealthEngine) (type k : ReminderType)
    (last now : QDateTime) (message suggestion : String)
    (h : Signal.reminderTriggered k message suggestion ∈ expectedTick s type last now) :
    k = type := by
  unfold expectedTick at h
  split_ifs at h
  · simp only [List.mem_singleton, Signal.reminderTriggered.injEq] at h
    exact h.1
  · simp at h

/-- Whatever the call, a reminder it emits is of one of the three kinds that
have a check slot. -/
theorem step_reminder_kind (s : HealthEngine) (op : Op) (k : ReminderType)
    (message suggestion : String)
    (h : Signal.reminderTriggered k message suggestion ∈ (step s op).2) :
    k = .SittingTooLong ∨ k = .EyeRest ∨ k = .NeckExercise := by
  cases op with
  | start now => simp [step, start] at h
  | configureReminder type config => simp [step, configureReminder] at h
  | takeBreak type now => simp [step, takeBreak, updateHealthScore] at h
  | pauseReminders minutes now => simp [step, pauseReminders] at h
  | onActivityDetected data =>
    unfold step onActivityDetected at h
    dsimp only at h
    split_ifs at h <;> simp at h
  | checkSittingTime now =>
    have h1 : Signal.reminderTriggered k message suggestion ∈ (checkSittingTime s now).2 := h
    rw [checkSittingTime_signals] at h1
    exact Or.inl (mem_expectedTick_kind _ _ _ _ _ _ _ h1)
  | checkEyeRest now =>
    have h1 : Signal.reminderTriggered k message suggestion ∈ (checkEyeRest s now).2 := h
    rw [checkEyeRest_signals] at h1
    exact Or.inr (Or.inl (mem_expectedTick_kind _ _ _ _ _ _ _ h1))
  | checkNeckExercise now =>
    have h1 : Signal.reminderTriggered k message suggestion ∈ (checkNeckExercise s now).2 := h
    rw [checkNeckExercise_signals] at h1
    exact Or.inr (Or.inr (mem_expectedTick_kind _ _ _ _ _ _ _ h1))
  | updateHealthScore => simp [step, updateHealthScore] at h

/-- Counterexample to C18 as stated: in the scenario state Hydration is enabled
with its 90-minute interval, no pause is set and the latest sample is active,
yet no call of the scheduler, at any time, emits a Hydration reminder. -/
theorem five_timers_counterexample :
    (getReminderConfig scenarioEngine .Hydration).enabled = true ∧
      (getReminderConfig scenarioEngine .Hydration).intervalMinutes = 90 ∧
      scenarioEngine.m_remindersPaused = false ∧
      scenarioEngine.m_isCurrentlyActive = true ∧
      ∀ (op : Op) (message suggestion : String),
        Signal.reminderTriggered .Hydration message suggestion ∉ (step scenarioEngine op).2 := by
  refine ⟨rfl, rfl, rfl, rfl, fun op message suggestion h => ?_⟩
  rcases step_reminder_kind _ _ _ _ _ h with h1 | h1 | h1 <;> exact absurd h1 (by decide)

/-- C18, amended: the scheduler has a check tick and a time stamp for three
kinds. For SittingTooLong, EyeRest and NeckExercise the check emits the kind's
reminder when the kind is enabled, no pause is in force, the latest sample is
active and the elapsed minutes, as the slot holds them in its `int`, reach the
interval. PostureCheck and Hydration
have settings only: no call of the scheduler ever emits a reminder of these two
kinds. -/
theorem three_timers (s : HealthEngine) (now : QDateTime) :
    (isDue s (getReminderConfig s .SittingTooLong) s.m_lastSittingBreak now →
        (checkSittingTime s now).2 =
          [Signal.reminderTriggered .SittingTooLong
            (getReminderConfig s .SittingTooLong).message
            (getReminderConfig s .SittingTooLong).suggestion]) ∧
      (isDue s (getReminderConfig s .EyeRest) s.m_lastEyeBreak now →
        (checkEyeRest s now).2 =
          [Signal.reminderTriggered .EyeRest (getReminderConfig s .EyeRest).message
            (getReminderConfig s .EyeRest).suggestion]) ∧
      (isDue s (getReminderConfig s .NeckExercise) s.m_lastNeckExercise now →
        (checkNeckExercise s now).2 =
          [Signal.reminderTriggered .NeckExercise (getReminderConfig s .NeckExercise).message
            (getReminderConfig s .NeckExercise).suggestion]) ∧
      (∀ (op : Op) (message suggestion : String),
        Signal.reminderTriggered .PostureCheck message suggestion ∉ (step s op).2 ∧
          Signal.reminderTriggered .Hydration message suggestion ∉ (step s op).2) := by
  refine ⟨fun h => ?_, fun h => ?_, fun h => ?_, fun op message suggestion => ⟨fun h => ?_,
    fun h => ?_⟩⟩
  · rw [checkSittingTime_signals]
    unfold expectedTick
    rw [if_pos h]
  · rw [checkEyeRest_signals]
    unfold expectedTick
    rw [if_pos h]
  · rw [checkNeckExercise_signals]
    unfold expectedTick
    rw [if_pos h]
  · rcases step_reminder_kind _ _ _ _ _ h with h1 | h1 | h1 <;> exact absurd h1 (by decide)
  · rcases step_reminder_kind _ _ _ _ _ h with h1 | h1 | h1 <;> exact absurd h1 (by decide)

/-- Witness for C18, amended: the eye-rest check of the scenario state fires 20
minutes after its time stamp. -/
theorem three_timers_witness :
    (checkEyeRest scenarioEngine 1200000).2 =
      [Signal.reminderTriggered .EyeRest (getReminderConfig scenarioEngine .EyeRest).message
        (getReminderConfig scenarioEngine .EyeRest).suggestion] :=
  (three_timers scenarioEngine 1200000).2.1 (by decide)

/-- C19: after `takeBreak` of any kind the stored score is what
`calculateHealthScore` gives on the state after the break, a value that does not
depend on the score stored before, and exactly one `statsUpdated` is emitted,
carrying the statistics as stored. -/
theorem takeBreak_recomputes_score (s : HealthEngine) (type : ReminderType)
    (now : QDateTime) :
    (takeBreak s type now).1.m_todayStats.healthScore =
        calculateHealthScore (takeBreak s type now).1 ∧
      (∀ (s1 : HealthEngine) (x : ℚ),
        calculateHealthScore { s1 with m_todayStats := { s1.m_todayStats with healthScore := x } }
          = calculateHealthScore s1) ∧
      (takeBreak s type now).2 = [Signal.statsUpdated (takeBreak s type now).1.m_todayStats] := by
  refine ⟨?_, fun _ _ => rfl, ?_⟩
  · cases type <;> rfl
  · cases type <;> rfl

/-- The specified output of a check is the same in two states that agree on
the pause, the latest-sample flag and the settings. -/
theorem expectedTick_congr_fields (s s1 : HealthEngine)
    (hp : s1.m_remindersPaused = s.m_remindersPaused)
    (hpe : s1.m_pauseEndTime = s.m_pauseEndTime)
    (ha : s1.m_isCurrentlyActive = s.m_isCurrentlyActive)
    (hc : ∀ j, getReminderConfig s1 j = getReminderConfig s j)
    (type : ReminderType) (last now : QDateTime) :
    expectedTick s1 type last now = expectedTick s type last now := by
  have hiff : ∀ cfg, isDue s1 cfg last now ↔ isDue s cfg last now := by
    intro cfg
    unfold isDue dueUnpaused pauseInForce
    rw [hp, hpe, ha]
  unfold expectedTick
  simp only [hc]
  by_cases hd : isDue s (getReminderConfig s type) last now
  · rw [if_pos hd, if_pos ((hiff _).mpr hd)]
  · rw [if_neg hd, if_neg (fun hh => hd ((hiff _).mp hh))]

/-- A break changes neither the pause, nor the latest-sample flag, nor the
settings. -/
theorem takeBreak_keeps_check_inputs (s : HealthEngine) (type : ReminderType)
    (now : QDateTime) :
    (takeBreak s type now).1.m_remindersPaused = s.m_remindersPaused ∧
      (takeBreak s type now).1.m_pauseEndTime = s.m_pauseEndTime ∧
      (takeBreak s type now).1.m_isCurrentlyActive = s.m_isCurrentlyActive ∧
      ∀ j, getReminderConfig (takeBreak s type now).1 j = getReminderConfig s j := by
  cases type <;> exact ⟨rfl, rfl, rfl, fun _ => rfl⟩

/-- C20: `takeBreak` of SittingTooLong, EyeRest or NeckExercise sets the time
stamp of its own kind and leaves the time stamps of the two other kinds as they
were; the checks of the other kinds emit at every time `t` exactly what they
emitted before the break. -/
theorem takeBreak_timers_independent (s : HealthEngine) (now t : QDateTime) :
    ((takeBreak s .SittingTooLong now).1.m_lastSittingBreak = now ∧
        (takeBreak s .SittingTooLong now).1.m_lastEyeBreak = s.m_lastEyeBreak ∧
        (takeBreak s .SittingTooLong now).1.m_lastNeckExercise = s.m_lastNeckExercise ∧
        (checkEyeRest (takeBreak s .SittingTooLong now).1 t).2 = (checkEyeRest s t).2 ∧
        (checkNeckExercise (takeBreak s .SittingTooLong now).1 t).2 =
          (checkNeckExercise s t).2) ∧
      ((takeBreak s .EyeRest now).1.m_lastEyeBreak = now ∧
        (takeBreak s .EyeRest now).1.m_lastSittingBreak = s.m_lastSittingBreak ∧
        (takeBreak s .EyeRest now).1.m_lastNeckExercise = s.m_lastNeckExercise ∧
        (checkSittingTime (takeBreak s .EyeRest now).1 t).2 = (checkSittingTime s t).2 ∧
        (checkNeckExercise (takeBreak s .EyeRest now).1 t).2 = (checkNeckExercise s t).2) ∧
      ((takeBreak s .NeckExercise now).1.m_lastNeckExercise = now ∧
        (takeBreak s .NeckExercise now).1.m_lastSittingBreak = s.m_lastSittingBreak ∧
        (takeBreak s .NeckExercise now).1.m_lastEyeBreak = s.m_lastEyeBreak ∧
        (checkSittingTime (takeBreak s .NeckExercise now).1 t).2 = (checkSittingTime s t).2 ∧
        (checkEyeRest (takeBreak s .NeckExercise now).1 t).2 = (checkEyeRest s t).2) := by
  have hk : ∀ (type k : ReminderType) (last : QDateTime),
      expectedTick (takeBreak s type now).1 k last t = expectedTick s k last t := by
    intro type k last
    obtain ⟨h1, h2, h3, h4⟩ := takeBreak_keeps_check_inputs s type now
    exact expectedTick_congr_fields s _ h1 h2 h3 h4 k last t
  refine ⟨⟨rfl, rfl, rfl, ?_, ?_⟩, ⟨rfl, rfl, rfl, ?_, ?_⟩, ⟨rfl, rfl, rfl, ?_, ?_⟩⟩
  · rw [checkEyeRest_signals, checkEyeRest_signals, hk]
    rfl
  · rw [checkNeckExercise_signals, checkNeckExercise_signals, hk]
    rfl
  · rw [checkSittingTime_signals, checkSittingTime_signals, hk]
    rfl
  · rw [checkNeckExercise_signals, checkNeckExercise_signals, hk]
    rfl
  · rw [checkSittingTime_signals, checkSittingTime_signals, hk]
    rfl
  · rw [checkEyeRest_signals, checkEyeRest_signals, hk]
    rfl

/-- C21: `recordActivity(sample)` appends one record to the activity history:
the length grows by one, the old entries stay first, unchanged and in order,
the last entry carries the time stamp and the fields of the sample, and the
health-event history is unchanged. -/
theorem recordActivity_appends (a : DataAnalyzer) (data : ActivityData) :
    (recordActivity a data).1.m_activityRecords =
        a.m_activityRecords ++ [{ timestamp := data.timestamp, data := data }] ∧
      (recordActivity a data).1.m_activityRecords.length = a.m_activityRecords.length + 1 ∧
      (recordActivity a data).1.m_activityRecords.take a.m_activityRecords.length =
        a.m_activityRecords ∧
      (recordActivity a data).1.m_activityRecords.getLast? =
        some { timestamp := data.timestamp, data := data } ∧
      (recordActivity a data).1.m_healthEvents = a.m_healthEvents := by
  unfold recordActivity
  refine ⟨rfl, ?_, ?_, ?_, rfl⟩
  · simp
  · simp
  · simp

/-- The samples of one poll: the active sample on new activity, none
otherwise. -/
theorem samplesOf_checkActivity (m : ActivityMonitor) (p : Poll) :
    samplesOf (checkActivity m p).2 =
      if hasNewActivity m p = true then [activeSample p] else [] := by
  unfold checkActivity activeSample
  cases hn : hasNewActivity m p <;> cases ha : m.m_isActive <;>
    by_cases hs : secsTo m.m_lastActivityTime p.now > 30 <;>
    simp [hs, samplesOf]

/-- Every sample that a sequence of polls emits is an active one. -/
theorem samplesOf_runPolls_active (ps : List Poll) :
    ∀ (m : ActivityMonitor) (d : ActivityData),
      d ∈ samplesOf (runPolls m ps).2 → d.isActive = true := by
  have happ : ∀ xs ys : List MonitorSignal, samplesOf (xs ++ ys) = samplesOf xs ++ samplesOf ys := by
    intro xs ys
    induction xs with
    | nil => rfl
    | cons x xs ih => cases x <;> simp [samplesOf, ih]
  induction ps with
  | nil => intro m d h; simp [runPolls, samplesOf] at h
  | cons p ps ih =>
    intro m d h
    unfold runPolls at h
    rw [happ, List.mem_append] at h
    rcases h with h | h
    · rw [samplesOf_checkActivity] at h
      split_ifs at h
      · rw [List.mem_singleton] at h
        rw [h]
        rfl
      · simp at h
    · exact ih _ d h

/-- Delivering active samples to a scheduler whose latest-sample flag is set
leaves the flag set; delivering at least one sets it. -/
theorem deliver_active (ds : List ActivityData) :
    ∀ e : HealthEngine, (∀ d ∈ ds, d.isActive = true) →
      (e.m_isCurrentlyActive = true ∨ ds ≠ []) →
      (deliver e ds).m_isCurrentlyActive = true := by
  induction ds with
  | nil =>
    intro e _ h
    rcases h with h | h
    · exact h
    · exact absurd rfl h
  | cons d ds ih =>
    intro e hall _
    unfold deliver
    apply ih _ (fun x hx => hall x (List.mem_cons_of_mem _ hx))
    left
    have hd := hall d (List.mem_cons_self _ _)
    unfold onActivityDetected
    dsimp only
    rw [if_pos hd]
    split_ifs <;> exact hd

/-- A call other than `onActivityDetected` leaves the latest-sample flag as it
was. -/
theorem step_keeps_flag (e : HealthEngine) (op : Op)
    (h : (WiredEvent.call op).isDirectSample = false) :
    (step e op).1.m_isCurrentlyActive = e.m_isCurrentlyActive := by
  cases op with
  | start now => rfl
  | configureReminder type config => rfl
  | takeBreak type now => cases type <;> rfl
  | pauseReminders minutes now => rfl
  | onActivityDetected data => simp [WiredEvent.isDirectSample] at h
  | checkSittingTime now => exact (checkSittingTime_frame e now).2.2.2.2.2.2.2.2.1
  | checkEyeRest now => exact (checkEyeRest_frame e now).2.2.2.2.2.2.2.2.1
  | checkNeckExercise now => exact (checkNeckExercise_frame e now).2.2.2.2.2.2.2.2.1
  | updateHealthScore => rfl

/-- In the wired pair a set latest-sample flag stays set. -/
theorem wiredRun_keeps_flag (evs : List WiredEvent) :
    ∀ st : ActivityMonitor × HealthEngine, (∀ ev ∈ evs, ev.isDirectSample = false) →
      st.2.m_isCurrentlyActive = true → (wiredRun st evs).2.m_isCurrentlyActive = true := by
  induction evs with
  | nil => intro st _ h; exact h
  | cons ev evs ih =>
    intro st hall h
    unfold wiredRun
    apply ih _ (fun x hx => hall x (List.mem_cons_of_mem _ hx))
    cases ev with
    | poll p =>
      show (deliver st.2 (samplesOf (checkActivity st.1 p).2)).m_isCurrentlyActive = true
      apply deliver_active _ _ _ (Or.inl h)
      intro d hd
      have hd1 : d ∈ samplesOf (runPolls st.1 [p]).2 := by
        simpa [runPolls] using hd
      exact samplesOf_runPolls_active [p] st.1 d hd1
    | call op =>
      show (step st.2 op).1.m_isCurrentlyActive = true
      rw [step_keeps_flag st.2 op (hall _ (List.mem_cons_self _ _))]
      exact h

/-- With the latest-sample flag set, the specified output of a check is the
output without the gate on the latest sample. -/
theorem expectedTick_ungated (s : HealthEngine) (type : ReminderType) (last now : QDateTime)
    (h : s.m_isCurrentlyActive = true) :
    expectedTick s type last now = expectedUngated s type last now := by
  unfold expectedTick expectedUngated isDue dueUnpaused
  simp [h]

/-- C23: every sample that the sampler delivers over any sequence of polls has
`isActive = true`; in the wired pair the first poll with new activity sets the
latest-sample flag of the scheduler, and a set flag stays set over every
sequence of polls and scheduler calls, whatever the sampler raises; so from then
on a check tick emits exactly what it would emit without the gate on the latest
sample. -/
theorem delivered_samples_always_active (st : ActivityMonitor × HealthEngine)
    (evs : List WiredEvent) (hevs : ∀ ev ∈ evs, ev.isDirectSample = false) :
    (∀ (m : ActivityMonitor) (ps : List Poll) (d : ActivityData),
        d ∈ samplesOf (runPolls m ps).2 → d.isActive = true) ∧
      (∀ p : Poll, hasNewActivity st.1 p = true →
        (wiredStep st (.poll p)).2.m_isCurrentlyActive = true) ∧
      (st.2.m_isCurrentlyActive = true →
        (wiredRun st evs).2.m_isCurrentlyActive = true ∧
          ∀ now : QDateTime,
            (checkSittingTime (wiredRun st evs).2 now).2 =
                expectedUngated (wiredRun st evs).2 .SittingTooLong
                  (wiredRun st evs).2.m_lastSittingBreak now ∧
              (checkEyeRest (wiredRun st evs).2 now).2 =
                expectedUngated (wiredRun st evs).2 .EyeRest
                  (wiredRun st evs).2.m_lastEyeBreak now ∧
              (checkNeckExercise (wiredRun st evs).2 now).2 =
                expectedUngated (wiredRun st evs).2 .NeckExercise
                  (wiredRun st evs).2.m_lastNeckExercise now) := by
  refine ⟨fun m ps d => samplesOf_runPolls_active ps m d, fun p hp => ?_, fun h => ?_⟩
  · show (deliver st.2 (samplesOf (checkActivity st.1 p).2)).m_isCurrentlyActive = true
    rw [samplesOf_checkActivity, if_pos hp]
    apply deliver_active
    · intro d hd
      rw [List.mem_singleton] at hd
      rw [hd]
      rfl
    · right
      simp
  · have hf := wiredRun_keeps_flag evs st hevs h
    refine ⟨hf, fun now => ?_⟩
    rw [checkSittingTime_signals, checkEyeRest_signals, checkNeckExercise_signals]
    exact ⟨expectedTick_ungated _ _ _ _ hf, expectedTick_ungated _ _ _ _ hf,
      expectedTick_ungated _ _ _ _ hf⟩

/-- Witness for C23: a click at time 0 reaches the scenario scheduler; the
sampler, polled 31 seconds later without new activity, becomes inactive, and the
latest-sample flag of the scheduler is still set. -/
theorem delivered_samples_always_active_witness :
    (wiredRun (ActivityMonitor.construct 0, scenarioEngine)
        [.poll { now := 0, mouseClicks := 1, keystrokes := 0, activeWindow := "" },
          .poll { now := 31000, mouseClicks := 1, keystrokes := 0, activeWindow := "" },
          .call (.checkEyeRest 60000)]).2.m_isCurrentlyActive = true :=
  ((delivered_samples_always_active (ActivityMonitor.construct 0, scenarioEngine)
      [.poll { now := 0, mouseClicks := 1, keystrokes := 0, activeWindow := "" },
        .poll { now := 31000, mouseClicks := 1, keystrokes := 0, activeWindow := "" },
        .call (.checkEyeRest 60000)]
      (by simp [WiredEvent.isDirectSample])).2.2 rfl).1

/-- C25: `takeBreak(PostureCheck)` and `takeBreak(Hydration)` change no time
stamp, no counter, not `continuousActiveMinutes` and not the pause state; the
stored score becomes what `calculateHealthScore` gives for the unchanged state,
and that is the only change. -/
theorem takeBreak_untimed_kinds (s : HealthEngine) (now : QDateTime) :
    ((takeBreak s .PostureCheck now).1 =
        { s with m_todayStats := { s.m_todayStats with healthScore := calculateHealthScore s } } ∧
      (takeBreak s .Hydration now).1 =
        { s with m_todayStats := { s.m_todayStats with healthScore := calculateHealthScore s } }) ∧
      (∀ type : ReminderType, type = .PostureCheck ∨ type = .Hydration →
        (takeBreak s type now).1.m_lastSittingBreak = s.m_lastSittingBreak ∧
          (takeBreak s type now).1.m_lastEyeBreak = s.m_lastEyeBreak ∧
          (takeBreak s type now).1.m_lastNeckExercise = s.m_lastNeckExercise ∧
          (takeBreak s type now).1.m_continuousSittingMinutes = s.m_continuousSittingMinutes ∧
          (takeBreak s type now).1.m_todayStats.totalSittingMinutes =
            s.m_todayStats.totalSittingMinutes ∧
          (takeBreak s type now).1.m_todayStats.longestSittingSession =
            s.m_todayStats.longestSittingSession ∧
          (takeBreak s type now).1.m_todayStats.eyeBreaksTaken = s.m_todayStats.eyeBreaksTaken ∧
          (takeBreak s type now).1.m_todayStats.neckExercisesDone =
            s.m_todayStats.neckExercisesDone ∧
          (takeBreak s type now).1.m_remindersPaused = s.m_remindersPaused ∧
          (takeBreak s type now).1.m_pauseEndTime = s.m_pauseEndTime ∧
          (takeBreak s type now).1.m_todayStats.healthScore = calculateHealthScore s) := by
  refine ⟨⟨rfl, rfl⟩, fun type h => ?_⟩
  rcases h with h | h <;> subst h <;> exact ⟨rfl, rfl, rfl, rfl, rfl, rfl, rfl, rfl, rfl, rfl, rfl⟩

/-- Witness for C25: a hydration break in the scenario state leaves the eye
break counter at 1. -/
theorem takeBreak_untimed_kinds_witness :
    (takeBreak scenarioEngine .Hydration 1860000).1.m_todayStats.eyeBreaksTaken =
      scenarioEngine.m_todayStats.eyeBreaksTaken :=
  ((takeBreak_untimed_kinds scenarioEngine 1860000).2 .Hydration
    (Or.inr rfl)).2.2.2.2.2.2.1

/-- Truncated division by 30 is monotone. -/
theorem tdiv_30_mono (a b : Int) (h : a ≤ b) : Int.tdiv a 30 ≤ Int.tdiv b 30 := by
  have key : ∀ c : Int, Int.tdiv c 30 = if 0 ≤ c then c / 30 else -((-c) / 30) := by
    intro c
    split_ifs with hc
    · exact Int.tdiv_eq_ediv hc (by norm_num)
    · have h1 : c = -(-c) := by ring
      rw [h1, Int.neg_tdiv, Int.tdiv_eq_ediv (by omega) (by norm_num), neg_neg]
  rw [key a, key b]
  split_ifs <;> omega

/-- The score before the clamp, after the first two rules, is a binary64
value. -/
theorem isDouble_afterLongest (c L : Int) :
    isDouble (deductExcess (deductExcess 100 (c - 60) (1 / 2)) (L - 120) (roundDouble 0.3)) :=
  isDouble_deductExcess _ _ _ (isDouble_deductExcess _ _ _ isDouble_hundred)

/-- The score does not grow when the continuous minutes, the longest session
and the sitting minutes grow and the breaks shrink, as long as the break
arithmetic of both states stays in the range of a 32-bit `int`. -/
theorem calculateHealthScore_mono (s1 s2 : HealthEngine)
    (hc : s1.m_continuousSittingMinutes ≤ s2.m_continuousSittingMinutes)
    (hL : s1.m_todayStats.longestSittingSession ≤ s2.m_todayStats.longestSittingSession)
    (hT : s1.m_todayStats.totalSittingMinutes ≤ s2.m_todayStats.totalSittingMinutes)
    (hb : s2.m_todayStats.eyeBreaksTaken + s2.m_todayStats.neckExercisesDone ≤
      s1.m_todayStats.eyeBreaksTaken + s1.m_todayStats.neckExercisesDone)
    (hf1 : breaksFit s1.m_todayStats.totalSittingMinutes s1.m_todayStats.eyeBreaksTaken
      s1.m_todayStats.neckExercisesDone)
    (hf2 : breaksFit s2.m_todayStats.totalSittingMinutes s2.m_todayStats.eyeBreaksTaken
      s2.m_todayStats.neckExercisesDone) :
    calculateHealthScore s2 ≤ calculateHealthScore s1 := by
  rw [calculateHealthScore_rules, calculateHealthScore_rules, deductBreaks_of_fit _ _ _ _ hf1,
    deductBreaks_of_fit _ _ _ _ hf2]
  apply max_le_max (le_refl _)
  apply min_le_min (le_refl _)
  have a1 := deductExcess_anti 100 (s1.m_continuousSittingMinutes - 60)
    (s2.m_continuousSittingMinutes - 60) (1 / 2) isDouble_hundred (by norm_num) (by omega)
  have a2 := deductExcess_mono _ _ (s2.m_todayStats.longestSittingSession - 120)
    (roundDouble 0.3) a1
  have a3 := deductExcess_anti (deductExcess 100 (s1.m_continuousSittingMinutes - 60) (1 / 2))
    (s1.m_todayStats.longestSittingSession - 120) (s2.m_todayStats.longestSittingSession - 120)
    (roundDouble 0.3) (isDouble_deductExcess _ _ _ isDouble_hundred) roundDouble_lit_nonneg
    (by omega)
  have a4 := le_trans a2 a3
  have a5 := deductExcess_mono _ _
    (Int.tdiv s2.m_todayStats.totalSittingMinutes 30 -
      (s2.m_todayStats.eyeBreaksTaken + s2.m_todayStats.neckExercisesDone)) 2 a4
  have ht := tdiv_30_mono _ _ hT
  have a6 := deductExcess_anti
    (deductExcess (deductExcess 100 (s1.m_continuousSittingMinutes - 60) (1 / 2))
      (s1.m_todayStats.longestSittingSession - 120) (roundDouble 0.3))
    (Int.tdiv s1.m_todayStats.totalSittingMinutes 30 -
      (s1.m_todayStats.eyeBreaksTaken + s1.m_todayStats.neckExercisesDone))
    (Int.tdiv s2.m_todayStats.totalSittingMinutes 30 -
      (s2.m_todayStats.eyeBreaksTaken + s2.m_todayStats.neckExercisesDone)) 2
    (isDouble_afterLongest _ _) (by norm_num) (by omega)
  exact le_trans a5 a6

/-- The score does not grow when the continuous minutes and the longest
session grow, whatever the break counters hold. -/
theorem calculateHealthScore_mono_sitting (s1 s2 : HealthEngine)
    (hc : s1.m_continuousSittingMinutes ≤ s2.m_continuousSittingMinutes)
    (hL : s1.m_todayStats.longestSittingSession ≤ s2.m_todayStats.longestSittingSession)
    (hT : s2.m_todayStats.totalSittingMinutes = s1.m_todayStats.totalSittingMinutes)
    (he : s2.m_todayStats.eyeBreaksTaken = s1.m_todayStats.eyeBreaksTaken)
    (hn : s2.m_todayStats.neckExercisesDone = s1.m_todayStats.neckExercisesDone) :
    calculateHealthScore s2 ≤ calculateHealthScore s1 := by
  rw [calculateHealthScore_rules, calculateHealthScore_rules, hT, he, hn]
  apply max_le_max (le_refl _)
  apply min_le_min (le_refl _)
  apply deductBreaks_mono
  have a1 := deductExcess_anti 100 (s1.m_continuousSittingMinutes - 60)
    (s2.m_continuousSittingMinutes - 60) (1 / 2) isDouble_hundred (by norm_num) (by omega)
  have a2 := deductExcess_mono _ _ (s2.m_todayStats.longestSittingSession - 120)
    (roundDouble 0.3) a1
  have a3 := deductExcess_anti (deductExcess 100 (s1.m_continuousSittingMinutes - 60) (1 / 2))
    (s1.m_todayStats.longestSittingSession - 120) (s2.m_todayStats.longestSittingSession - 120)
    (roundDouble 0.3) (isDouble_deductExcess _ _ _ isDouble_hundred) roundDouble_lit_nonneg
    (by omega)
  exact le_trans a2 a3

/-- Counterexample to C27 as stated: with 2147483647 eye breaks and 30 sitting
minutes, no neck exercise scores 100, and 2147483647 neck exercises score 94:
the sum of the two counters does not fit the `int` and reads -2, two breaks
short of the one expected. More neck exercises lower the score, and the score
is not 100 although the breaks taken exceed `totalSittingMinutes / 30`. -/
theorem calculateHealthScore_monotone_counterexample :
    calculateHealthScore
        { scenarioEngine with
          m_continuousSittingMinutes := 0
          m_todayStats :=
            { totalSittingMinutes := 30, longestSittingSession := 0,
              eyeBreaksTaken := 2147483647, neckExercisesDone := 0, healthScore := 100 } } =
        100 ∧
      calculateHealthScore
        { scenarioEngine with
          m_continuousSittingMinutes := 0
          m_todayStats :=
            { totalSittingMinutes := 30, longestSittingSession := 0,
              eyeBreaksTaken := 2147483647, neckExercisesDone := 2147483647,
              healthScore := 100 } } =
        94 ∧
      Int.tdiv 30 30 ≤ (2147483647 : Int) + 2147483647 ∧
      toInt32 (2147483647 + 2147483647) = -2 := by
  refine ⟨?_, ?_, by decide, by decide⟩
  · rw [calculateHealthScore_exact _ (by decide) (by decide)]
    show max 0 (min 100 (100 - ((max 0 ((0 : Int) - 60) : Int) : ℚ) / 2 -
      (if toInt32 ((2147483647 : Int) + 0) < Int.tdiv 30 30 then
        2 * ((toInt32 (Int.tdiv 30 30 - toInt32 ((2147483647 : Int) + 0)) : Int) : ℚ)
      else 0))) = 100
    rw [if_neg (by decide)]
    norm_num
  · rw [calculateHealthScore_exact _ (by decide) (by decide)]
    show max 0 (min 100 (100 - ((max 0 ((0 : Int) - 60) : Int) : ℚ) / 2 -
      (if toInt32 ((2147483647 : Int) + 2147483647) < Int.tdiv 30 30 then
        2 * ((toInt32 (Int.tdiv 30 30 - toInt32 ((2147483647 : Int) + 2147483647)) : Int) : ℚ)
      else 0))) = 94
    rw [if_pos (by decide)]
    have e : toInt32 (Int.tdiv 30 30 - toInt32 ((2147483647 : Int) + 2147483647)) = 3 := by
      decide
    rw [e]
    norm_num

/-- C27, amended: with the other inputs fixed, `calculateHealthScore` is
non-increasing in `continuousActiveMinutes` and in `longestSittingSession`;
while the break arithmetic stays in the range of a 32-bit `int` (the sum of the
two break counters, and the expected breaks less that sum) it is non-increasing
in `totalSittingMinutes` and non-decreasing in `eyeBreaksTaken` and in
`neckExercisesDone`; and it is 100 whenever `continuousActiveMinutes ≤ 60`,
`longestSittingSession ≤ 120` and the breaks taken, their sum in that range,
are at least `totalSittingMinutes / 30`. -/
theorem calculateHealthScore_monotone (s : HealthEngine) (x y : Int) (hxy : x ≤ y) :
    calculateHealthScore { s with m_continuousSittingMinutes := y } ≤
        calculateHealthScore { s with m_continuousSittingMinutes := x } ∧
      calculateHealthScore
          { s with m_todayStats := { s.m_todayStats with longestSittingSession := y } } ≤
        calculateHealthScore
          { s with m_todayStats := { s.m_todayStats with longestSittingSession := x } } ∧
      (breaksFit x s.m_todayStats.eyeBreaksTaken s.m_todayStats.neckExercisesDone →
        breaksFit y s.m_todayStats.eyeBreaksTaken s.m_todayStats.neckExercisesDone →
        calculateHealthScore
            { s with m_todayStats := { s.m_todayStats with totalSittingMinutes := y } } ≤
          calculateHealthScore
            { s with m_todayStats := { s.m_todayStats with totalSittingMinutes := x } }) ∧
      (breaksFit s.m_todayStats.totalSittingMinutes x s.m_todayStats.neckExercisesDone →
        breaksFit s.m_todayStats.totalSittingMinutes y s.m_todayStats.neckExercisesDone →
        calculateHealthScore
            { s with m_todayStats := { s.m_todayStats with eyeBreaksTaken := x } } ≤
          calculateHealthScore
            { s with m_todayStats := { s.m_todayStats with eyeBreaksTaken := y } }) ∧
      (breaksFit s.m_todayStats.totalSittingMinutes s.m_todayStats.eyeBreaksTaken x →
        breaksFit s.m_todayStats.totalSittingMinutes s.m_todayStats.eyeBreaksTaken y →
        calculateHealthScore
            { s with m_todayStats := { s.m_todayStats with neckExercisesDone := x } } ≤
          calculateHealthScore
            { s with m_todayStats := { s.m_todayStats with neckExercisesDone := y } }) ∧
      (s.m_continuousSittingMinutes ≤ 60 → s.m_todayStats.longestSittingSession ≤ 120 →
        Int.tdiv s.m_todayStats.totalSittingMinutes 30 ≤
          s.m_todayStats.eyeBreaksTaken + s.m_todayStats.neckExercisesDone →
        fitsInt32 (s.m_todayStats.eyeBreaksTaken + s.m_todayStats.neckExercisesDone) →
        calculateHealthScore s = 100) ∧
      (s.m_continuousSittingMinutes ≤ 60 → s.m_todayStats.longestSittingSession ≤ 120 →
        0 ≤ s.m_todayStats.totalSittingMinutes →
        s.m_todayStats.totalSittingMinutes / 30 ≤
          s.m_todayStats.eyeBreaksTaken + s.m_todayStats.neckExercisesDone →
        fitsInt32 (s.m_todayStats.eyeBreaksTaken + s.m_todayStats.neckExercisesDone) →
        calculateHealthScore s = 100) := by
  have full : s.m_continuousSittingMinutes ≤ 60 → s.m_todayStats.longestSittingSession ≤ 120 →
      Int.tdiv s.m_todayStats.totalSittingMinutes 30 ≤
        s.m_todayStats.eyeBreaksTaken + s.m_todayStats.neckExercisesDone →
      fitsInt32 (s.m_todayStats.eyeBreaksTaken + s.m_todayStats.neckExercisesDone) →
      calculateHealthScore s = 100 := by
    intro h1 h2 h3 h4
    rw [calculateHealthScore_exact s (by omega) h2, toInt32_of_fits _ h4, if_neg (by omega),
      max_eq_left (by omega : s.m_continuousSittingMinutes - 60 ≤ 0)]
    norm_num
  refine ⟨?_, ?_, fun f1 f2 => ?_, fun f1 f2 => ?_, fun f1 f2 => ?_, full,
    fun h1 h2 h0 h3 h4 => full h1 h2 ?_ h4⟩
  · exact calculateHealthScore_mono_sitting
      { s with m_continuousSittingMinutes := x } { s with m_continuousSittingMinutes := y }
      hxy (le_refl _) rfl rfl rfl
  · exact calculateHealthScore_mono_sitting
      { s with m_todayStats := { s.m_todayStats with longestSittingSession := x } }
      { s with m_todayStats := { s.m_todayStats with longestSittingSession := y } }
      (le_refl _) hxy rfl rfl rfl
  · exact calculateHealthScore_mono
      { s with m_todayStats := { s.m_todayStats with totalSittingMinutes := x } }
      { s with m_todayStats := { s.m_todayStats with totalSittingMinutes := y } }
      (le_refl _) (le_refl _) hxy (le_refl _) f1 f2
  · have hb : x + s.m_todayStats.neckExercisesDone ≤ y + s.m_todayStats.neckExercisesDone := by
      omega
    exact calculateHealthScore_mono
      { s with m_todayStats := { s.m_todayStats with eyeBreaksTaken := y } }
      { s with m_todayStats := { s.m_todayStats with eyeBreaksTaken := x } }
      (le_refl _) (le_refl _) (le_refl _) hb f2 f1
  · have hb : s.m_todayStats.eyeBreaksTaken + x ≤ s.m_todayStats.eyeBreaksTaken + y := by
      omega
    exact calculateHealthScore_mono
      { s with m_todayStats := { s.m_todayStats with neckExercisesDone := y } }
      { s with m_todayStats := { s.m_todayStats with neckExercisesDone := x } }
      (le_refl _) (le_refl _) (le_refl _) hb f2 f1
  · rw [Int.tdiv_eq_ediv h0 (by norm_num)]
    exact h3

/-- Witness for C27, amended: in the scenario state 100 continuous minutes
score no more than 40 continuous minutes, and three eye breaks score no less
than one. -/
theorem calculateHealthScore_monotone_witness :
    calculateHealthScore { scenarioEngine with m_continuousSittingMinutes := 100 } ≤
        calculateHealthScore { scenarioEngine with m_continuousSittingMinutes := 40 } ∧
      calculateHealthScore
          { scenarioEngine with
            m_todayStats := { scenarioEngine.m_todayStats with eyeBreaksTaken := 1 } } ≤
        calculateHealthScore
          { scenarioEngine with
            m_todayStats := { scenarioEngine.m_todayStats with eyeBreaksTaken := 3 } } :=
  ⟨(calculateHealthScore_monotone scenarioEngine 40 100 (by decide)).1,
    (calculateHealthScore_monotone scenarioEngine 1 3 (by decide)).2.2.2.1 (by decide)
      (by decide)⟩

/-- C29: `isWorkingTime` is true whenever `respectSchedule` is false; with
`respectSchedule` true it is true exactly when the day of the week of the
current date is in `workDays` and the current time lies between `workStartTime`
and `workEndTime`, both bounds included; so with `workStartTime` after
`workEndTime` it is false at every time. -/
theorem isWorkingTime_spec (c : ConfigManager) (now : QDateTime) :
    (c.m_workSchedule.respectSchedule = false → c.isWorkingTime now = true) ∧
      (c.m_workSchedule.respectSchedule = true →
        (c.isWorkingTime now = true ↔
          now.date.dayOfWeek ∈ c.m_workSchedule.workDays ∧
            c.m_workSchedule.workStartTime.mds ≤ now.time.mds ∧
            now.time.mds ≤ c.m_workSchedule.workEndTime.mds)) ∧
      (c.m_workSchedule.respectSchedule = true →
        c.m_workSchedule.workEndTime.mds < c.m_workSchedule.workStartTime.mds →
        c.isWorkingTime now = false) := by
  have hiff : c.m_workSchedule.respectSchedule = true →
      (c.isWorkingTime now = true ↔
        now.date.dayOfWeek ∈ c.m_workSchedule.workDays ∧
          c.m_workSchedule.workStartTime.mds ≤ now.time.mds ∧
          now.time.mds ≤ c.m_workSchedule.workEndTime.mds) := by
    intro hr
    unfold ConfigManager.isWorkingTime
    simp only [hr, Bool.not_true, Bool.false_eq_true, if_false]
    by_cases hd : now.date.dayOfWeek ∈ c.m_workSchedule.workDays
    · simp [hd]
    · simp [hd]
  refine ⟨fun hr => ?_, hiff, fun hr hlt => ?_⟩
  · unfold ConfigManager.isWorkingTime
    simp [hr]
  · cases hw : c.isWorkingTime now with
    | false => rfl
    | true =>
      obtain ⟨-, h1, h2⟩ := (hiff hr).mp hw
      exact absurd (le_trans h1 h2) (not_le.mpr hlt)

/-- Witness for C29: with the default schedule, Thursday 1970-01-01 at 10:00 is
working time. -/
theorem isWorkingTime_spec_witness :
    (ConfigManager.construct "").isWorkingTime 36000000 = true :=
  ((isWorkingTime_spec (ConfigManager.construct "") 36000000).2.1 (by decide)).mpr
    (by decide)

/-- A digit character has the value of its digit. -/
theorem digitVal_digitChar : ∀ n, n < 10 → digitVal (digitChar n) = some n := by
  decide

/-- A valid time on a whole minute is read back from its "hh:mm" text. -/
theorem fromStringHHmm_toStringHHmm (t : QTime) (h : t.isWholeMinute) :
    QTime.fromStringHHmm t.toStringHHmm = t := by
  obtain ⟨mds⟩ := t
  obtain ⟨h0, h1, h2⟩ := h
  simp only at h0 h1 h2
  have hv : (QTime.mk mds).isValid = true := by
    simp [QTime.isValid, h0, h1]
  have eH : (((mds / 3600000).toNat : Nat) : Int) = mds / 3600000 :=
    Int.toNat_of_nonneg (by omega)
  have eM : (((mds % 3600000 / 60000).toNat : Nat) : Int) = mds % 3600000 / 60000 :=
    Int.toNat_of_nonneg (by omega)
  have hH : (mds / 3600000).toNat < 24 := by omega
  have hM : (mds % 3600000 / 60000).toNat < 60 := by omega
  unfold QTime.toStringHHmm
  rw [if_pos hv]
  unfold QTime.fromStringHHmm
  simp only
  rw [digitVal_digitChar _ (by omega), digitVal_digitChar _ (Nat.mod_lt _ (by norm_num)),
    digitVal_digitChar _ (by omega), digitVal_digitChar _ (Nat.mod_lt _ (by norm_num))]
  simp only
  have e1 : 10 * ((mds / 3600000).toNat / 10) + (mds / 3600000).toNat % 10 =
      (mds / 3600000).toNat := by omega
  have e2 : 10 * ((mds % 3600000 / 60000).toNat / 10) + (mds % 3600000 / 60000).toNat % 10 =
      (mds % 3600000 / 60000).toNat := by omega
  rw [e1, e2, eH, eM]
  unfold QTime.ofHM
  rw [if_pos (by omega)]
  congr 1
  omega

/-- The key written for a kind is read back as that kind. -/
theorem ofInt_toInt_number (type : ReminderType) :
    ReminderType.ofInt (QString.toInt (QString.number type.toInt)) = some type := by
  cases type <;> decide

/-- The settings of a kind are read back from the object written for them. -/
theorem reminderFromJson_reminderToJson (config : ReminderConfig) :
    reminderFromJson (reminderToJson config) = config := by
  unfold reminderFromJson reminderToJson
  simp [QJsonObject.insert, QJsonObject.value, QJsonValue.toObject, QJsonValue.toString,
    QJsonValue.toIntOr, QJsonValue.toBoolOr, QString.plain, List.find?, List.filter]

/-- Every member of the "reminders" object that `configToJson` builds is the
key and the object written for settings that the store holds. -/
theorem reminders_members (c : ConfigManager) (types : List ReminderType) :
    ∀ reminders : QJsonObject,
      (∀ member ∈ reminders, ∃ type config,
        member = (QString.number (ReminderType.toInt type), reminderToJson config) ∧
          c.m_reminderConfigs type = some config) →
      ∀ member ∈
          types.foldl
            (fun reminders type =>
              match c.m_reminderConfigs type with
              | some config =>
                QJsonObject.insert reminders (QString.number type.toInt) (reminderToJson config)
              | none => reminders)
            reminders,
        ∃ type config,
          member = (QString.number (ReminderType.toInt type), reminderToJson config) ∧
            c.m_reminderConfigs type = some config := by
  induction types with
  | nil => intro reminders h; exact h
  | cons t ts ih =>
    intro reminders h
    rw [List.foldl_cons]
    apply ih
    cases hc : c.m_reminderConfigs t with
    | none => exact h
    | some config =>
      intro member hm
      simp only [QJsonObject.insert, List.mem_cons, List.mem_filter] at hm
      rcases hm with hm | hm
      · exact ⟨t, config, hm, hc⟩
      · exact h member hm.1

/-- Reading members that were written from the store leaves the store's map of
settings as it was. -/
theorem reminders_read_back (c : ConfigManager) (reminders : QJsonObject) :
    (∀ member ∈ reminders, ∃ type config,
        member = (QString.number (ReminderType.toInt type), reminderToJson config) ∧
          c.m_reminderConfigs type = some config) →
      reminders.foldl
          (fun configs member =>
            match ReminderType.ofInt (QString.toInt member.1) with
            | some type => Function.update configs type (some (reminderFromJson member.2))
            | none => configs)
          c.m_reminderConfigs = c.m_reminderConfigs := by
  induction reminders with
  | nil => intro _; rfl
  | cons member rest ih =>
    intro h
    rw [List.foldl_cons]
    obtain ⟨type, config, hm, hc⟩ := h member (List.mem_cons_self _ _)
    have hstep : (match ReminderType.ofInt (QString.toInt member.1) with
        | some type => Function.update c.m_reminderConfigs type (some (reminderFromJson member.2))
        | none => c.m_reminderConfigs) = c.m_reminderConfigs := by
      rw [hm]
      simp only [ofInt_toInt_number, reminderFromJson_reminderToJson]
      rw [← hc]
      exact Function.update_eq_self _ _
    rw [hstep]
    exact ih (fun m hm1 => h m (List.mem_cons_of_mem _ hm1))

/-- The days of a list are read back from the array written for them. -/
theorem workDays_read_back (days : List Int) :
    (days.map (fun (day : Int) => QJsonValue.double (day : ℚ))).map QJsonValue.toInt =
      days := by
  induction days with
  | nil => rfl
  | cons d ds ih =>
    rw [List.map_cons, List.map_cons, ih]
    simp [QJsonValue.toInt]

/-- C30: reading the document that `configToJson` writes for a store `c` sets
the general and the advanced configuration of the reading store to those of
`c`, and its work schedule to that of `c` when `workDays` of `c` is not empty
and both times of `c` are valid and on a whole minute; read in the store `c`
itself it leaves the settings of every kind as they were. With an empty
`workDays` the list read back is 1 to 5. -/
theorem config_json_round_trip (c d : ConfigManager) :
    (d.jsonToConfig c.configToJson).m_generalConfig = c.m_generalConfig ∧
      (d.jsonToConfig c.configToJson).m_advancedConfig = c.m_advancedConfig ∧
      (c.jsonToConfig c.configToJson).m_reminderConfigs = c.m_reminderConfigs ∧
      (∀ type, (c.jsonToConfig c.configToJson).getReminderConfig type =
        c.getReminderConfig type) ∧
      (c.m_workSchedule.workDays ≠ [] → c.m_workSchedule.workStartTime.isWholeMinute →
        c.m_workSchedule.workEndTime.isWholeMinute →
        (d.jsonToConfig c.configToJson).m_workSchedule = c.m_workSchedule) ∧
      (c.m_workSchedule.workDays = [] →
        (d.jsonToConfig c.configToJson).m_workSchedule.workDays = [1, 2, 3, 4, 5]) := by
  have hg : (d.jsonToConfig c.configToJson).m_generalConfig = c.m_generalConfig := by
    unfold ConfigManager.jsonToConfig ConfigManager.configToJson
    simp [QJsonObject.insert, QJsonObject.contains, QJsonObject.value, QJsonValue.toObject,
      QJsonValue.toStringOr, QJsonValue.toIntOr, QJsonValue.toBoolOr, QString.plain,
      List.find?, List.filter]
  have ha : (d.jsonToConfig c.configToJson).m_advancedConfig = c.m_advancedConfig := by
    unfold ConfigManager.jsonToConfig ConfigManager.configToJson
    simp [QJsonObject.insert, QJsonObject.contains, QJsonObject.value, QJsonValue.toObject,
      QJsonValue.toStringOr, QJsonValue.toIntOr, QJsonValue.toBoolOr, QString.plain,
      List.find?, List.filter]
  have hm : (c.jsonToConfig c.configToJson).m_reminderConfigs = c.m_reminderConfigs := by
    have hmem := reminders_members c allReminderTypes [] (fun _ h => absurd h (List.not_mem_nil _))
    have hread := reminders_read_back c _ hmem
    unfold ConfigManager.jsonToConfig ConfigManager.configToJson
    simp only [QJsonObject.insert, QJsonObject.contains, QJsonObject.value, QJsonValue.toObject,
      List.find?, List.filter, List.any, bne_self_eq_false, beq_self_eq_true, Bool.true_or,
      if_true, Bool.false_eq_true]
    exact hread
  refine ⟨hg, ha, hm, fun type => ?_, fun hd hs he => ?_, fun hd => ?_⟩
  · unfold ConfigManager.getReminderConfig
    rw [hm]
  · have e1 := fromStringHHmm_toStringHHmm _ hs
    have e2 := fromStringHHmm_toStringHHmm _ he
    have e3 := workDays_read_back c.m_workSchedule.workDays
    unfold ConfigManager.jsonToConfig ConfigManager.configToJson
    simp [QJsonObject.insert, QJsonObject.contains, QJsonObject.value, QJsonValue.toObject,
      QJsonValue.toStringOr, QJsonValue.toBoolOr, QJsonValue.toArray, List.find?, List.filter,
      e1, e2, e3, hd]
  · unfold ConfigManager.jsonToConfig ConfigManager.configToJson
    simp [QJsonObject.insert, QJsonObject.contains, QJsonObject.value, QJsonValue.toObject,
      QJsonValue.toArray, List.find?, List.filter, hd]

/-- Witness for C30: the document of the default store, read in a store with
other contents, gives the default work schedule. -/
theorem config_json_round_trip_witness :
    (otherStore.jsonToConfig (ConfigManager.construct "").configToJson).m_workSchedule =
      (ConfigManager.construct "").m_workSchedule :=
  (config_json_round_trip (ConfigManager.construct "") otherStore).2.2.2.2.1 (by decide)
    (by decide) (by decide)

end Aevum
